import Mathlib

/-!
Live auction runtime: bid arbitration, soft close, persistence of bids, automatic
bids, the auction lifecycle, the cached snapshot, the event bus, the room hub and
the rate limiter.

A shallow embedding of the Go sources under `backend/internal` and theorems about it.

Modelling conventions, used throughout:

* `uuid.UUID` is an opaque identifier, here a natural number; `uuid.New()` draws a
  fresh one, so every function that calls it takes the drawn value as an argument.
* `time.Time` is an instant on one time line, counted in nanoseconds (`Int`);
  `time.Duration` is a signed count of nanoseconds (`Int`).  `t.After(u)` is `u < t`,
  `t.Before(u)` is `t < u`, `t.Add(d)` is `t + d`.
  `time.Until(t)` is `t.Sub(time.Now())`: it reads the wall clock, so every function
  that calls `time.Now`, `time.Until` or `time.Since` takes the reading as an argument.
  `Sub` saturates at the ends of the int64 range, which is far from `5*time.Minute`,
  so `time.Until(t) <= 5*time.Minute` is `t - clock ≤ 5 * Minute` exactly.
* A finite `float64` is the rational number it denotes (`ℚ`); comparisons of finite
  values are the comparisons of these rationals.  The `+` of two `float64` is
  `Float64.add`: the exact sum rounded to 53 significant bits, ties to even.  Amounts
  come from JSON numbers and from earlier sums, so they are finite; NaN, infinities
  and the sign of zero are outside the model.
* Go `int` counters (`BidCount`) are unbounded integers: a counter would need
  2^63 - 1 bids to wrap.
* A Go method with a pointer receiver that mutates it returns, here, the
  receiver after the call next to its result.
* A Go `error` built by `errors.New(msg)` is the message `msg`; `nil` is `Except.ok`.
-/

namespace Blytz

/-! ## Basic types -/

/-- An opaque identifier, `uuid.UUID`. -/
abbrev UUID := Nat

/-- Equality of results `(value, err)` is decidable when it is for values and errors. -/
instance instDecidableEqExcept {ε α : Type} [DecidableEq ε] [DecidableEq α] :
    DecidableEq (Except ε α)
  | Except.ok a, Except.ok b =>
    if h : a = b then isTrue (by rw [h]) else isFalse (fun h2 => h (Except.ok.inj h2))
  | Except.error a, Except.error b =>
    if h : a = b then isTrue (by rw [h]) else isFalse (fun h2 => h (Except.error.inj h2))
  | Except.ok _, Except.error _ => isFalse (fun h => Except.noConfusion h)
  | Except.error _, Except.ok _ => isFalse (fun h => Except.noConfusion h)

/-- The zero identifier `uuid.Nil`. -/
def uuid.Nil : UUID := 0

/-- An instant, `time.Time`, in nanoseconds. -/
abbrev Time := Int

/-- A signed span of nanoseconds, `time.Duration`. -/
abbrev Duration := Int

/-- The constant `time.Second`. -/
def Second : Duration := 1000000000

/-- The constant `time.Minute`. -/
def Minute : Duration := 60 * Second

/-! ## `float64` arithmetic

Go's `float64` is IEEE 754 binary64: 53 significant bits, round to nearest, ties to
even.  The exponent range is not bounded here.  At the low end nothing is lost: the sum
of two finite `float64` below the normal range is exact in Go and is exact here.  At
the high end a sum of magnitude `2^1024 - 2^970` or more (about `1.8e308`) is an
infinity in Go and a finite number here. -/

/-- Rounding of a rational to the nearest integer, a tie going to the even one. -/
def roundHalfEven (x : ℚ) : ℤ :=
  if x - ⌊x⌋ < 1 / 2 then ⌊x⌋
  else if 1 / 2 < x - ⌊x⌋ then ⌊x⌋ + 1
  else if ⌊x⌋ % 2 = 0 then ⌊x⌋ else ⌊x⌋ + 1

/-- The number of times `n` can be halved before it drops below 2, which is
`⌊log₂ n⌋` for `n ≥ 1`; `fuel` bounds the number of halvings and `fuel = n` is
enough. -/
def Float64.ilog2 : Nat → Nat → Nat
  | 0, _ => 0
  | fuel + 1, n => if n < 2 then 0 else Float64.ilog2 fuel (n / 2) + 1

/-- The binary exponent of a rational `q ≠ 0`: the integer `e` with
`2^e ≤ |q| < 2^(e+1)`. The difference of the logarithms of numerator and denominator
is `e` or `e + 1`. -/
def Float64.exponent (q : ℚ) : ℤ :=
  if (2 : ℚ) ^ ((Float64.ilog2 q.num.natAbs q.num.natAbs : ℤ) -
        (Float64.ilog2 q.den q.den : ℤ)) ≤ |q| then
    (Float64.ilog2 q.num.natAbs q.num.natAbs : ℤ) - (Float64.ilog2 q.den q.den : ℤ)
  else
    (Float64.ilog2 q.num.natAbs q.num.natAbs : ℤ) - (Float64.ilog2 q.den q.den : ℤ) - 1

/-- The `float64` nearest to a rational: with `e` the binary exponent, the multiple
of `2^(e-52)` nearest to it (the significand is an integer of 53 bits), a tie going to
the even significand. -/
def Float64.round (q : ℚ) : ℚ :=
  if q = 0 then 0
  else roundHalfEven (q / 2 ^ (Float64.exponent q - 52)) * 2 ^ (Float64.exponent q - 52)

/-- The `float64` sum `x + y`. -/
def Float64.add (x y : ℚ) : ℚ := Float64.round (x + y)

/-! ## `internal/domain/auction/auction.go` -/

/-- The type `Status` of the domain package is a string type. -/
abbrev Status := String

def StatusScheduled : Status := "scheduled"
def StatusLive : Status := "live"
def StatusEnded : Status := "ended"
def StatusCancelled : Status := "cancelled"

/-- The struct `Bid` (the preloaded `User *Bidder` association carries no
behaviour and is left out). -/
structure Bid where
  ID : UUID
  AuctionID : UUID
  UserID : UUID
  Amount : ℚ
  IsAutoBid : Bool
  IsWinning : Bool
  BidTime : Time
deriving DecidableEq

/-- The struct `Auction`. Pointer fields are options. -/
structure Auction where
  ID : UUID
  ProductID : UUID
  SellerID : UUID
  Title : String
  Description : String
  StartTime : Time
  EndTime : Time
  Status : Status
  StartPrice : ℚ
  ReservePrice : Option ℚ
  BuyNowPrice : Option ℚ
  CurrentBid : Option Bid
  BidCount : Int
  WinnerID : Option UUID
  LiveKitRoom : String
  StreamKey : String
  AutoExtend : Bool
  ExtendTime : Duration
  IsFeatured : Bool
  CreatedAt : Time
  UpdatedAt : Time
deriving DecidableEq

/-- The local `minBid` of `Auction.CanPlaceBid`: the start price, or the `float64`
sum `a.CurrentBid.Amount + 1.0` when there is a current bid. -/
def minBid (a : Auction) : ℚ :=
  match a.CurrentBid with
  | some b => Float64.add b.Amount 1
  | none => a.StartPrice

/-- The method `Auction.CanPlaceBid(amount, now)`. -/
def CanPlaceBid (a : Auction) (amount : ℚ) (now : Time) : Except String Unit :=
  if a.Status ≠ StatusLive then
    Except.error "auction is not live"
  else if a.EndTime < now then
    Except.error "auction has ended"
  else if amount < minBid a then
    Except.error "bid amount too low"
  else
    Except.ok ()

/-- The method `Auction.PlaceBid(bidderID, amount, now)`.
`newID` is the value drawn by `uuid.New()`; `clock` is the wall clock read by
`time.Until(a.EndTime)`. The result is the returned `(bid, err)` and the receiver
after the call. -/
def PlaceBid (a : Auction) (bidderID : UUID) (amount : ℚ) (now : Time)
    (newID : UUID) (clock : Time) : Except String Bid × Auction :=
  match CanPlaceBid a amount now with
  | Except.error err => (Except.error err, a)
  | Except.ok () =>
    let bid : Bid :=
      { ID := newID, AuctionID := a.ID, UserID := bidderID, Amount := amount,
        IsAutoBid := false, IsWinning := true, BidTime := now }
    let a1 : Auction := { a with CurrentBid := some bid }
    let a2 : Auction := { a1 with BidCount := a1.BidCount + 1 }
    let a3 : Auction :=
      if a2.AutoExtend = true ∧ a2.EndTime - clock ≤ 5 * Minute then
        { a2 with EndTime := a2.EndTime + a2.ExtendTime }
      else a2
    (Except.ok bid, { a3 with UpdatedAt := now })

/-- One call of `Auction.PlaceBid` in a sequence of calls on the same auction. -/
structure BidCall where
  bidderID : UUID
  amount : ℚ
  now : Time
  newID : UUID
  clock : Time

/-- The bids returned without error by a sequence of `Auction.PlaceBid` calls made
one after the other on the same auction, in the order of the calls. -/
def acceptedBids : Auction → List BidCall → List Bid
  | _, [] => []
  | a, c :: cs =>
    match PlaceBid a c.bidderID c.amount c.now c.newID c.clock with
    | (Except.ok b, a') => b :: acceptedBids a' cs
    | (Except.error _, a') => acceptedBids a' cs

/-- The method `Auction.End(now)`: the returned error and the receiver after the
call. -/
def Auction.End (a : Auction) (now : Time) : Except String Unit × Auction :=
  if a.Status ≠ StatusLive then
    (Except.error "auction is not live", a)
  else
    let a1 : Auction := { a with Status := StatusEnded, EndTime := now, UpdatedAt := now }
    match a1.CurrentBid, a1.ReservePrice with
    | some b, none => (Except.ok (), { a1 with WinnerID := some b.UserID })
    | some b, some reserve =>
      if reserve ≤ b.Amount then (Except.ok (), { a1 with WinnerID := some b.UserID })
      else (Except.ok (), a1)
    | none, _ => (Except.ok (), a1)

/-- The struct `AutoBid`. -/
structure AutoBid where
  ID : UUID
  AuctionID : UUID
  UserID : UUID
  MaxAmount : ℚ
  IsActive : Bool
  CurrentBid : Option ℚ
  BidIncrement : ℚ
  LastBidTime : Option Time
  CreatedAt : Time
  UpdatedAt : Time
deriving DecidableEq

/-- The method `AutoBid.ShouldBid(currentBid)`; `bidAmount` is the `float64` sum
`currentBid + ab.BidIncrement`. -/
def AutoBid.ShouldBid (ab : AutoBid) (currentBid : ℚ) : Bool × ℚ :=
  if ab.IsActive = false then
    (false, 0)
  else if ab.MaxAmount ≤ currentBid then
    (false, 0)
  else if ab.MaxAmount < Float64.add currentBid ab.BidIncrement then
    (true, ab.MaxAmount)
  else
    (true, Float64.add currentBid ab.BidIncrement)

/-- The struct `AuctionState`, the cached snapshot of an auction. -/
structure AuctionState where
  AuctionID : UUID
  CurrentBid : Option Bid
  BidCount : Int
  Status : Status
  EndTime : Time
  ViewerCount : Int
  LastUpdated : Time
deriving DecidableEq

/-! ## `pkg/errors/errors.go` -/

/-- The type `ErrorCode` is a string type. -/
abbrev ErrorCode := String

def ErrInternal : ErrorCode := "INTERNAL_ERROR"
def ErrValidation : ErrorCode := "VALIDATION_ERROR"
def ErrNotFound : ErrorCode := "NOT_FOUND"
def ErrUnauthorized : ErrorCode := "UNAUTHORIZED"
def ErrForbidden : ErrorCode := "FORBIDDEN"
def ErrConflict : ErrorCode := "CONFLICT"
def ErrTimeout : ErrorCode := "TIMEOUT"
def ErrRateLimit : ErrorCode := "RATE_LIMIT_EXCEEDED"
def ErrInvalidBid : ErrorCode := "INVALID_BID"
def ErrAuctionNotLive : ErrorCode := "AUCTION_NOT_LIVE"
def ErrAuctionEnded : ErrorCode := "AUCTION_ENDED"
def ErrBidTooLow : ErrorCode := "BID_TOO_LOW"
def ErrInsufficientFunds : ErrorCode := "INSUFFICIENT_FUNDS"
def ErrPaymentFailed : ErrorCode := "PAYMENT_FAILED"
def ErrOrderNotCancellable : ErrorCode := "ORDER_NOT_CANCELLABLE"

/-- The function `HTTPStatusFromCode`. -/
def HTTPStatusFromCode (code : ErrorCode) : Int :=
  if code = ErrNotFound then 404
  else if code = ErrValidation then 400
  else if code = ErrUnauthorized then 401
  else if code = ErrForbidden then 403
  else if code = ErrConflict then 409
  else if code = ErrTimeout then 504
  else if code = ErrRateLimit then 429
  else 500

/-- The struct `AppError`; `Cause` is the wrapped error's message, `Details` (an
empty map at construction) is left out. -/
structure AppError where
  Code : ErrorCode
  Message : String
  Cause : Option String
  HTTPStatus : Int
deriving DecidableEq

/-- The constructor `New(code, message)`. -/
def New (code : ErrorCode) (message : String) : AppError :=
  { Code := code, Message := message, Cause := none, HTTPStatus := HTTPStatusFromCode code }

/-- The constructor `Wrap(err, code, message)`. -/
def Wrap (err : String) (code : ErrorCode) (message : String) : AppError :=
  { Code := code, Message := message, Cause := some err,
    HTTPStatus := HTTPStatusFromCode code }

/-- A value of the interface `error` as the repository and the service return it: an
`*AppError`, or an error of another package, known by its message. -/
inductive GoError where
  | app (e : AppError)
  | other (message : String)
deriving DecidableEq

/-! ## `internal/infrastructure/persistence/postgres` -/

/-- The struct `postgres.Auction`, the row of table `auctions`, with the `ID`,
`CreatedAt` and `UpdatedAt` of its embedded `BaseModel`. `ExtendTime` is a Go `int`
holding seconds. -/
structure AuctionModel where
  ID : UUID
  CreatedAt : Time
  UpdatedAt : Time
  ProductID : UUID
  SellerID : UUID
  Title : String
  Description : String
  StartTime : Time
  EndTime : Time
  Status : String
  StartPrice : ℚ
  ReservePrice : Option ℚ
  BuyNowPrice : Option ℚ
  CurrentBidID : Option UUID
  BidCount : Int
  WinnerID : Option UUID
  LiveKitRoom : String
  StreamKey : String
  AutoExtend : Bool
  ExtendTime : Int
  IsFeatured : Bool
deriving DecidableEq

/-- The struct `postgres.Bid`, the row of table `bids`. -/
structure BidModel where
  ID : UUID
  AuctionID : UUID
  UserID : UUID
  Amount : ℚ
  IsAutoBid : Bool
  IsWinning : Bool
  BidTime : Time
deriving DecidableEq

/-- The expression `int(d.Seconds())`: `Duration.Seconds` is the float
`d/Second + (d%Second)/1e9` and the conversion to `int` truncates toward zero, which
is the truncated quotient of `d` by `Second` (exact for every duration whose float
sum is not rounded up to the next integer, in particular below 2^22 seconds). -/
def secondsInt (d : Duration) : Int := Int.tdiv d Second

/-- The function `toAuctionModel`. -/
def toAuctionModel (a : Auction) : AuctionModel :=
  { ID := a.ID, CreatedAt := a.CreatedAt, UpdatedAt := a.UpdatedAt,
    ProductID := a.ProductID, SellerID := a.SellerID, Title := a.Title,
    Description := a.Description, StartTime := a.StartTime, EndTime := a.EndTime,
    Status := a.Status, StartPrice := a.StartPrice, ReservePrice := a.ReservePrice,
    BuyNowPrice := a.BuyNowPrice,
    CurrentBidID := match a.CurrentBid with
      | some b => some b.ID
      | none => none,
    BidCount := a.BidCount, WinnerID := a.WinnerID, LiveKitRoom := a.LiveKitRoom,
    StreamKey := a.StreamKey, AutoExtend := a.AutoExtend,
    ExtendTime := secondsInt a.ExtendTime, IsFeatured := a.IsFeatured }

/-- The function `toAuctionDomain`. It never fills `CurrentBid`. -/
def toAuctionDomain (m : AuctionModel) : Auction :=
  { ID := m.ID, ProductID := m.ProductID, SellerID := m.SellerID, Title := m.Title,
    Description := m.Description, StartTime := m.StartTime, EndTime := m.EndTime,
    Status := m.Status, StartPrice := m.StartPrice, ReservePrice := m.ReservePrice,
    BuyNowPrice := m.BuyNowPrice, CurrentBid := none, BidCount := m.BidCount,
    WinnerID := m.WinnerID, LiveKitRoom := m.LiveKitRoom, StreamKey := m.StreamKey,
    AutoExtend := m.AutoExtend, ExtendTime := m.ExtendTime * Second,
    IsFeatured := m.IsFeatured, CreatedAt := m.CreatedAt, UpdatedAt := m.UpdatedAt }

/-- The function `toBidModel`. -/
def toBidModel (b : Bid) : BidModel :=
  { ID := b.ID, AuctionID := b.AuctionID, UserID := b.UserID, Amount := b.Amount,
    IsAutoBid := b.IsAutoBid, IsWinning := b.IsWinning, BidTime := b.BidTime }

/-- The method `AuctionRepository.Create`. `gormCreate` is the outcome of
`r.db.WithContext(ctx).Create(model)`: an error, or the model as the database
returned it (identifier and timestamps filled in). -/
def AuctionRepository.Create (a : Auction)
    (gormCreate : AuctionModel → Except String AuctionModel) : Except String Auction :=
  match gormCreate (toAuctionModel a) with
  | Except.error err => Except.error err
  | Except.ok model =>
    Except.ok { a with ID := model.ID, CreatedAt := model.CreatedAt,
                       UpdatedAt := model.UpdatedAt }

/-- The statement `UPDATE bids SET is_winning = false WHERE auction_id = ? AND
user_id != ? AND is_winning = true` of `AddBid`, applied to one row. -/
def clearWinning (auctionID userID : UUID) (row : BidModel) : BidModel :=
  if row.AuctionID = auctionID ∧ row.UserID ≠ userID ∧ row.IsWinning = true then
    { row with IsWinning := false }
  else row

/-- The method `AuctionRepository.AddBid` on the table `bids` (rows in insertion
order). `createErr` and `updateErr` are the errors, if any, of the insert and of the
update; on either the transaction is rolled back and the table is as before. -/
def AuctionRepository.AddBid (bids : List BidModel) (bid : Bid)
    (createErr updateErr : Option String) : Except String Unit × List BidModel :=
  match createErr with
  | some err => (Except.error ("failed to create bid: " ++ err), bids)
  | none =>
    let inserted := bids ++ [toBidModel bid]
    match updateErr with
    | some err => (Except.error ("failed to update previous bids: " ++ err), bids)
    | none => (Except.ok (), inserted.map (clearWinning bid.AuctionID bid.UserID))

/-- The number of rows of an auction with `is_winning` set. -/
def winningCount (bids : List BidModel) (auctionID : UUID) : Nat :=
  (bids.filter (fun b => b.AuctionID = auctionID ∧ b.IsWinning = true)).length

/-- The struct `postgres.AutoBid`, the row of table `auto_bids`. -/
structure AutoBidModel where
  ID : UUID
  CreatedAt : Time
  UpdatedAt : Time
  AuctionID : UUID
  UserID : UUID
  MaxAmount : ℚ
  IsActive : Bool
  CurrentBid : Option ℚ
  BidIncrement : ℚ
  LastBidTime : Option Time
deriving DecidableEq

/-- The function `toAutoBidModel`. -/
def toAutoBidModel (a : AutoBid) : AutoBidModel :=
  { ID := a.ID, CreatedAt := a.CreatedAt, UpdatedAt := a.UpdatedAt,
    AuctionID := a.AuctionID, UserID := a.UserID, MaxAmount := a.MaxAmount,
    IsActive := a.IsActive, CurrentBid := a.CurrentBid, BidIncrement := a.BidIncrement,
    LastBidTime := a.LastBidTime }

/-- The function `toAutoBidDomain`. -/
def toAutoBidDomain (m : AutoBidModel) : AutoBid :=
  { ID := m.ID, AuctionID := m.AuctionID, UserID := m.UserID, MaxAmount := m.MaxAmount,
    IsActive := m.IsActive, CurrentBid := m.CurrentBid, BidIncrement := m.BidIncrement,
    LastBidTime := m.LastBidTime, CreatedAt := m.CreatedAt, UpdatedAt := m.UpdatedAt }

/-- The database behind `AuctionRepository`: the tables `auctions`, `bids` and
`auto_bids`, each with its rows in creation order (so that `Order("created_at ASC")`
is the order of the list). The driver itself is taken not to fail on a read; a write
takes the error the driver returns, if any, as an argument. The time stamps GORM
maintains by itself (`autoUpdateTime`) are not modelled. -/
structure Store where
  auctions : List AuctionModel
  bids : List BidModel
  autoBids : List AutoBidModel
deriving DecidableEq

/-- The method `AuctionRepository.GetByID`. -/
def AuctionRepository.GetByID (db : Store) (id : UUID) : Except AppError Auction :=
  match db.auctions.find? (fun m => m.ID = id) with
  | none => Except.error (New ErrNotFound "auction not found")
  | some model => Except.ok (toAuctionDomain model)

/-- The errors of package `gorm` met here: `gorm.ErrRecordNotFound`, and
`gorm.ErrUnsupportedRelation` as a preload wraps it for a relation name and a
schema. -/
inductive GormError where
  | recordNotFound
  | unsupportedRelation (name schema : String)
deriving DecidableEq

/-- The message `err.Error()` of a GORM error. -/
def GormError.Error : GormError → String
  | GormError.recordNotFound => "record not found"
  | GormError.unsupportedRelation name schema =>
    name ++ ": unsupported relations for schema " ++ schema

/-- The relations of the row struct `postgres.Auction`, by field name: every field of
the struct is a column (`CurrentBidID` is a `*uuid.UUID`), it has no field that is a
struct or a slice of another model. -/
def auctionRelations : List String := []

/-- The call `db.Preload(name).First(&model, "id = ?", id)` on table `auctions`. GORM
runs the query first: with no row the error is `ErrRecordNotFound` and the preload is
not attempted. With a row, a preload whose name is not a relation of the schema fails
the call with `<name>: unsupported relations for schema Auction`. A preload of a
relation leaves the columns of the row as they are. -/
def gormFirstPreload (rows : List AuctionModel) (name : String) (id : UUID) :
    Except GormError AuctionModel :=
  match rows.find? (fun m => m.ID = id) with
  | none => Except.error GormError.recordNotFound
  | some model =>
    if name ∈ auctionRelations then Except.ok model
    else Except.error (GormError.unsupportedRelation name "Auction")

/-- The method `AuctionRepository.GetWithBids`: the query of `GetByID` with
`Preload("CurrentBid")`. An error that is not `ErrRecordNotFound` is returned as it
is. -/
def AuctionRepository.GetWithBids (db : Store) (id : UUID) : Except GoError Auction :=
  match gormFirstPreload db.auctions "CurrentBid" id with
  | Except.error err =>
    if err = GormError.recordNotFound then
      Except.error (GoError.app (New ErrNotFound "auction not found"))
    else Except.error (GoError.other err.Error)
  | Except.ok model => Except.ok (toAuctionDomain model)

/-- The call `db.Save(model)` on table `auctions`: the row with the model's primary
key is replaced, or the model is inserted when there is none. -/
def saveAuction (rows : List AuctionModel) (model : AuctionModel) : List AuctionModel :=
  if rows.any (fun r => r.ID = model.ID) then
    rows.map (fun r => if r.ID = model.ID then model else r)
  else rows ++ [model]

/-- The method `AuctionRepository.Update`; `saveErr` is the error of `Save`, if
any. -/
def AuctionRepository.Update (db : Store) (a : Auction) (saveErr : Option String) :
    Except String Unit × Store :=
  match saveErr with
  | some err => (Except.error err, db)
  | none => (Except.ok (), { db with auctions := saveAuction db.auctions (toAuctionModel a) })

/-- The method `AuctionRepository.GetActiveAutoBids`. -/
def AuctionRepository.GetActiveAutoBids (db : Store) (auctionID : UUID) : List AutoBid :=
  (db.autoBids.filter (fun m => m.AuctionID = auctionID ∧ m.IsActive = true)).map
    toAutoBidDomain

/-- The call `db.Save(model)` on table `auto_bids`. -/
def saveAutoBid (rows : List AutoBidModel) (model : AutoBidModel) : List AutoBidModel :=
  if rows.any (fun r => r.ID = model.ID) then
    rows.map (fun r => if r.ID = model.ID then model else r)
  else rows ++ [model]

/-- The method `AuctionRepository.UpdateAutoBid`; `saveErr` is the error of `Save`,
if any. -/
def AuctionRepository.UpdateAutoBid (db : Store) (ab : AutoBid) (saveErr : Option String) :
    Except String Unit × Store :=
  match saveErr with
  | some err => (Except.error err, db)
  | none => (Except.ok (), { db with autoBids := saveAutoBid db.autoBids (toAutoBidModel ab) })

/-- The method `AuctionRepository.CreateAutoBid`: the returned error, the rule as the
method leaves it (identifier and creation time taken from the inserted row) and the
database after the call. `createErr` is the error of the insert, if any; `clock` is
the creation time the database gives the row. -/
def AuctionRepository.CreateAutoBid (db : Store) (autoBid : AutoBid)
    (createErr : Option String) (clock : Time) : Except String AutoBid × Store :=
  match createErr with
  | some err => (Except.error err, db)
  | none =>
    let model : AutoBidModel :=
      { toAutoBidModel autoBid with CreatedAt := clock, UpdatedAt := clock }
    (Except.ok { autoBid with ID := model.ID, CreatedAt := model.CreatedAt },
     { db with autoBids := db.autoBids ++ [model] })

/-! ## `internal/application/auction/service.go` -/

/-- The struct `CreateAuctionRequest`. -/
structure CreateAuctionRequest where
  ProductID : UUID
  SellerID : UUID
  Title : String
  Description : String
  StartTime : Time
  EndTime : Time
  StartPrice : ℚ
  ReservePrice : Option ℚ
  BuyNowPrice : Option ℚ
  IsFeatured : Bool

/-- The method `Service.CreateAuction`, with the repository of package `postgres`.
`clock` is the reading of `time.Now()` in the validation, `newID` and `roomID` are the
two values drawn by `uuid.New()`, `gormCreate` the outcome of the insert. The literal
`300` assigned to the `time.Duration` field `ExtendTime` is 300 nanoseconds. The
write of the cache snapshot that follows does not change the result and is left
out. -/
def Service.CreateAuction (req : CreateAuctionRequest) (clock : Time)
    (newID roomID : UUID) (gormCreate : AuctionModel → Except String AuctionModel) :
    Except AppError Auction :=
  if req.StartTime < clock then
    Except.error (New ErrValidation "start time cannot be in the past")
  else if req.EndTime < req.StartTime then
    Except.error (New ErrValidation "end time must be after start time")
  else
    let a : Auction :=
      { ID := newID, ProductID := req.ProductID, SellerID := req.SellerID,
        Title := req.Title, Description := req.Description, StartTime := req.StartTime,
        EndTime := req.EndTime, Status := StatusScheduled, StartPrice := req.StartPrice,
        ReservePrice := req.ReservePrice, BuyNowPrice := req.BuyNowPrice,
        CurrentBid := none, BidCount := 0, WinnerID := none,
        LiveKitRoom := "auction-" ++ toString roomID, StreamKey := "",
        AutoExtend := true, ExtendTime := 300, IsFeatured := req.IsFeatured,
        CreatedAt := 0, UpdatedAt := 0 }
    match AuctionRepository.Create a gormCreate with
    | Except.error err => Except.error (Wrap err ErrInternal "failed to create auction")
    | Except.ok a' => Except.ok a'

/-- What one call of `Service.PlaceBid` takes from its surroundings: `now` is the
`time.Now()` handed to `a.PlaceBid`, `newID` the identifier drawn there, `clock` the
wall clock read by `time.Until`; `createErr` and `clearErr` are the errors of the two
statements of `AddBid`, `saveErr` the error of `repo.Update`, if any. -/
structure BidEnv where
  now : Time
  newID : UUID
  clock : Time
  createErr : Option String
  clearErr : Option String
  saveErr : Option String

/-- The outcome of one call of `Service.PlaceBid`: the returned `(bid, err)`, the
database after the call, and the `processAutoBids(auctionID, amount)` goroutine the
call started with its `go` statement, if it got that far. -/
structure PlaceBidResult where
  result : Except GoError Bid
  store : Store
  spawned : Option (UUID × ℚ)

/-- The `switch err.Error()` of `Service.PlaceBid` that maps the domain errors. -/
def mapBidError (err : String) : AppError :=
  if err = "auction is not live" then New ErrAuctionNotLive err
  else if err = "auction has ended" then New ErrAuctionEnded err
  else if err = "bid amount too low" then New ErrBidTooLow err
  else New ErrInvalidBid err

/-- The method `Service.PlaceBid`, up to and including its `go` statement. The
assignment `bid.IsAutoBid = isAutoBid` goes through the pointer that `a.CurrentBid`
shares. A failure of `repo.Update` is logged and nothing else. Publishing the event
and refreshing the cache snapshot change neither the database nor the result and are
left out. -/
def Service.PlaceBid (db : Store) (auctionID userID : UUID) (amount : ℚ)
    (isAutoBid : Bool) (env : BidEnv) : PlaceBidResult :=
  match AuctionRepository.GetWithBids db auctionID with
  | Except.error err => { result := Except.error err, store := db, spawned := none }
  | Except.ok a =>
    match Blytz.PlaceBid a userID amount env.now env.newID env.clock with
    | (Except.error err, _) =>
      { result := Except.error (GoError.app (mapBidError err)), store := db,
        spawned := none }
    | (Except.ok bid0, a0) =>
      let bid : Bid := { bid0 with IsAutoBid := isAutoBid }
      let a1 : Auction := { a0 with CurrentBid := some bid }
      match AuctionRepository.AddBid db.bids bid env.createErr env.clearErr with
      | (Except.error err, _) =>
        { result := Except.error (GoError.app (Wrap err ErrInternal "failed to save bid")),
          store := db, spawned := none }
      | (Except.ok (), bids1) =>
        let db1 : Store := { db with bids := bids1 }
        let db2 : Store := (AuctionRepository.Update db1 a1 env.saveErr).2
        { result := Except.ok bid, store := db2, spawned := some (auctionID, amount) }

/-- What one turn of the loop of `processAutoBids` takes from its surroundings: the
surroundings of its `PlaceBid` call, the `time.Now()` stored as `LastBidTime`, and the
error of `repo.UpdateAutoBid`, if any (the code ignores it). -/
structure RuleEnv where
  bid : BidEnv
  stamp : Time
  saveErr : Option String

/-- A proxy bid placed by `processAutoBids`: the rule, the running `currentBid`
the rule was asked about, and the bid `PlaceBid` returned. -/
structure Firing where
  rule : AutoBid
  before : ℚ
  bid : Bid

/-- The outcome of one run of `processAutoBids`: the database after it, the proxy
bids placed, in order, the goroutines started by the `PlaceBid` calls it made, and
the final value of the running `currentBid`. -/
structure PassResult where
  store : Store
  placed : List Firing
  spawned : List (UUID × ℚ)
  current : ℚ

/-- The `for _, autoBid := range autoBids` loop of `processAutoBids`, run on its
own (no other goroutine touches the database meanwhile). `env` gives the
surroundings of the turn made for each rule. -/
def processRules (auctionID : UUID) (env : AutoBid → RuleEnv) :
    List AutoBid → Store → ℚ → PassResult
  | [], db, currentBid => { store := db, placed := [], spawned := [], current := currentBid }
  | autoBid :: rest, db, currentBid =>
    match autoBid.ShouldBid currentBid with
    | (false, _) => processRules auctionID env rest db currentBid
    | (true, bidAmount) =>
      let r := Service.PlaceBid db auctionID autoBid.UserID bidAmount true (env autoBid).bid
      match r.result with
      | Except.error _ => processRules auctionID env rest r.store currentBid
      | Except.ok bid =>
        let autoBid1 : AutoBid :=
          { autoBid with CurrentBid := some bidAmount,
                         LastBidTime := some (env autoBid).stamp }
        let db1 := (AuctionRepository.UpdateAutoBid r.store autoBid1 (env autoBid).saveErr).2
        let tail := processRules auctionID env rest db1 bidAmount
        { store := tail.store,
          placed := { rule := autoBid, before := currentBid, bid := bid } :: tail.placed,
          spawned := r.spawned.toList ++ tail.spawned,
          current := tail.current }

/-- The method `Service.processAutoBids`, run on its own; `listErr` is the error of
`repo.GetActiveAutoBids`, if any. -/
def Service.processAutoBids (db : Store) (auctionID : UUID) (currentBid : ℚ)
    (listErr : Option String) (env : AutoBid → RuleEnv) : PassResult :=
  match listErr with
  | some _ => { store := db, placed := [], spawned := [], current := currentBid }
  | none =>
    processRules auctionID env (AuctionRepository.GetActiveAutoBids db auctionID) db
      currentBid

/-- The method `Service.StartAuction`: the returned error and the database after the
call. `clock` is the reading of `time.Now()`, `saveErr` the error of `repo.Update`, if
any. Publishing the event and writing the cache snapshot are left out. -/
def Service.StartAuction (db : Store) (auctionID : UUID) (clock : Time)
    (saveErr : Option String) : Except AppError Unit × Store :=
  match AuctionRepository.GetByID db auctionID with
  | Except.error err => (Except.error err, db)
  | Except.ok a =>
    if a.Status ≠ StatusScheduled then
      (Except.error (New ErrValidation "auction is not scheduled"), db)
    else
      let a1 : Auction := { a with Status := StatusLive, StartTime := clock }
      match AuctionRepository.Update db a1 saveErr with
      | (Except.error err, db1) =>
        (Except.error (Wrap err ErrInternal "failed to start auction"), db1)
      | (Except.ok (), db1) => (Except.ok (), db1)

/-- The goroutines started for a triggering bid and, in turn, by the proxy bids they
place, run to the end one after the other, in the order in which they were started
(one of the schedules the runtime may choose; a run of `processAutoBids` is never
interleaved with another). `queue` holds the runs started and not yet made,
`envs pass` gives the surroundings of the run number `pass`, `fuel` bounds the number
of runs. The result is the database at the end, the proxy bids placed, in order,
and the runs left to make when the fuel ran out. -/
def runPasses (envs : Nat → AutoBid → RuleEnv) :
    Nat → Nat → List (UUID × ℚ) → Store → Store × List Firing × List (UUID × ℚ)
  | 0, _, queue, db => (db, [], queue)
  | _ + 1, _, [], db => (db, [], [])
  | fuel + 1, pass, (auctionID, currentBid) :: queue, db =>
    let r := Service.processAutoBids db auctionID currentBid none (envs pass)
    let rest := runPasses envs fuel (pass + 1) (queue ++ r.spawned) r.store
    (rest.1, r.placed ++ rest.2.1, rest.2.2)

/-- The method `Service.GetAuction`: the returned `(auction, err)` and the snapshot
the call writes to the cache, if it writes one. `cache` is `none` when the service has
no cache (`s.cache == nil`), and otherwise the outcome of `s.cache.GetAuctionState`: an
error (a miss is the error "cache miss") or the snapshot. `clockSince` is the wall
clock read by `time.Since`, `clockStamp` the `time.Now()` put into the new snapshot.
A snapshot served from the cache fills five fields of the auction and leaves the
others at their zero values; the error of `SetAuctionState` is ignored. -/
def Service.GetAuction (db : Store) (id : UUID) (cache : Option (Except String AuctionState))
    (clockSince clockStamp : Time) : Except AppError Auction × Option AuctionState :=
  let fromStore : Except AppError Auction × Option AuctionState :=
    match AuctionRepository.GetByID db id with
    | Except.error err => (Except.error err, none)
    | Except.ok a =>
      match cache with
      | none => (Except.ok a, none)
      | some _ =>
        (Except.ok a,
         some { AuctionID := a.ID, Status := a.Status, EndTime := a.EndTime,
                BidCount := a.BidCount, CurrentBid := a.CurrentBid, ViewerCount := 0,
                LastUpdated := clockStamp })
  match cache with
  | some (Except.ok state) =>
    if clockSince - state.LastUpdated < 5 * Second then
      (Except.ok
        { ID := id, ProductID := 0, SellerID := 0, Title := "", Description := "",
          StartTime := 0, EndTime := state.EndTime, Status := state.Status,
          StartPrice := 0, ReservePrice := none, BuyNowPrice := none,
          CurrentBid := state.CurrentBid, BidCount := state.BidCount, WinnerID := none,
          LiveKitRoom := "", StreamKey := "", AutoExtend := false, ExtendTime := 0,
          IsFeatured := false, CreatedAt := 0, UpdatedAt := 0 },
       none)
    else fromStore
  | _ => fromStore

/-- The method `Service.SetAutoBid`: the returned `(autoBid, err)` and the database
after the call. `newID` is the value drawn by `uuid.New()`, `saveErr` and `createErr`
the errors of `repo.UpdateAutoBid` and `repo.CreateAutoBid`, if any, `clock` the
creation time of a new row. -/
def Service.SetAutoBid (db : Store) (auctionID userID : UUID) (maxAmount increment : ℚ)
    (newID : UUID) (saveErr createErr : Option String) (clock : Time) :
    Except String AutoBid × Store :=
  match (AuctionRepository.GetActiveAutoBids db auctionID).find?
      (fun ab => ab.UserID = userID) with
  | some ab =>
    let ab1 : AutoBid := { ab with MaxAmount := maxAmount, BidIncrement := increment }
    match AuctionRepository.UpdateAutoBid db ab1 saveErr with
    | (Except.error err, db1) => (Except.error err, db1)
    | (Except.ok (), db1) => (Except.ok ab1, db1)
  | none =>
    let autoBid : AutoBid :=
      { ID := newID, AuctionID := auctionID, UserID := userID, MaxAmount := maxAmount,
        IsActive := true, CurrentBid := none, BidIncrement := increment,
        LastBidTime := none, CreatedAt := 0, UpdatedAt := 0 }
    AuctionRepository.CreateAutoBid db autoBid createErr clock

/-- The active rules of table `auto_bids` for one auction and one bidder. -/
def activeRulesFor (rows : List AutoBidModel) (auctionID userID : UUID) :
    List AutoBidModel :=
  rows.filter (fun r => r.AuctionID = auctionID ∧ r.UserID = userID ∧ r.IsActive = true)

/-- The invariant "at most one active AutoBid per (auction, bidder)". -/
def AtMostOneActive (rows : List AutoBidModel) : Prop :=
  ∀ auctionID userID : UUID, (activeRulesFor rows auctionID userID).length ≤ 1

/-- The `min_increment` of the spec's sentences on the cascade: the smallest increment
among the given rules; `none` when there is no rule. -/
def minIncrement : List AutoBid → Option ℚ
  | [] => none
  | r :: rs =>
    match minIncrement rs with
    | none => some r.BidIncrement
    | some m => some (min r.BidIncrement m)

/-- The `max_max_amount` of the spec's sentence on termination: the largest maximum
among the given rules; `none` when there is no rule. -/
def maxMaxAmount : List AutoBid → Option ℚ
  | [] => none
  | r :: rs =>
    match maxMaxAmount rs with
    | none => some r.MaxAmount
    | some m => some (max r.MaxAmount m)

/-- The bound of the spec's sentence on termination,
`min(cascade_bound = 10, ⌈max_max_amount / min_increment⌉)`, as a number of bids; with
no rule it is 0. -/
def cascadeBound (rules : List AutoBid) : Nat :=
  match maxMaxAmount rules, minIncrement rules with
  | some M, some m => min 10 ⌈M / m⌉₊
  | _, _ => 0

/-! ## `internal/auction/service.go` and `internal/models/auction.go`

The older service works on the database directly. The database is the two tables
`PlaceBid` touches (the table `auto_bids`, which only `processAutoBids` reads and
writes, is kept next to it); rows of `bids` are kept in creation order, so the row that
`Order("created_at DESC").First` returns is the last matching one. A transaction works
on a copy: `Rollback` gives back the tables as they were at `Begin`, `Commit` the
copy. The queries themselves are taken to succeed (their error branches roll back
and return the driver's error). -/

namespace Legacy

/-- The struct `models.Bid`, with the `ID` of its base model. -/
structure Bid where
  ID : UUID
  AuctionID : UUID
  UserID : UUID
  Amount : ℚ
  IsAutoBid : Bool
  IsWinning : Bool
  BidTime : Time
deriving DecidableEq

/-- The struct `models.Auction`, with the `ID` of its base model; preloaded
associations are left out. `CurrentBid` is the leading amount, `ExtendTime` is in
seconds. -/
structure Auction where
  ID : UUID
  ProductID : UUID
  SellerID : UUID
  Title : String
  StartTime : Time
  EndTime : Time
  Status : String
  StartPrice : ℚ
  ReservePrice : Option ℚ
  BuyNowPrice : Option ℚ
  CurrentBid : Option ℚ
  BidCount : Int
  WinnerID : Option UUID
  LiveKitRoom : String
  AutoExtend : Bool
  ExtendTime : Int
  IsFeatured : Bool
deriving DecidableEq

/-- The tables `auctions` and `bids`. -/
structure DB where
  auctions : List Auction
  bids : List Bid
deriving DecidableEq

/-- A transaction: the tables at `Begin` and the working copy. -/
structure Tx where
  before : DB
  work : DB

/-- The call `s.db.WithContext(ctx).Begin()`. -/
def Begin (db : DB) : Tx := { before := db, work := db }

/-- The call `tx.Rollback()`. -/
def Tx.Rollback (tx : Tx) : DB := tx.before

/-- The call `tx.Commit()`. -/
def Tx.Commit (tx : Tx) : DB := tx.work

/-- An update of the row of `auctions` with the given identifier, inside the
transaction (`tx.Model(&auction).Update` and `.Updates`). -/
def Tx.updateAuction (tx : Tx) (id : UUID) (f : Auction → Auction) : Tx :=
  { tx with work := { tx.work with
      auctions := tx.work.auctions.map (fun r => if r.ID = id then f r else r) } }

/-- The errors `Service.PlaceBid` returns: `gorm.ErrRecordNotFound`,
"auction is not live", "auction has ended",
"bid amount must be at least $<minimumBid>", "cannot outbid yourself". -/
inductive BidError where
  | recordNotFound
  | notLive
  | ended
  | tooLow (minimumBid : ℚ)
  | selfOutbid
deriving DecidableEq

/-- The method `Service.PlaceBid` of the older service. `clockEnd`, `clockBid` and
`clockExtend` are the three readings of the wall clock, in `time.Now().After`, in
`BidTime: time.Now()` and in `time.Until`; `newID` is the identifier given to the
new row. `minimumBid` is the `float64` sum `*auction.CurrentBid + 1.0` when there is a
current bid. The result is the returned `(bid, err)` and the database after the call;
a call that returns a bid has started `processAutoBids(auctionID, amount)` with its
`go` statement. -/
def PlaceBid (db : DB) (auctionID userID : UUID) (amount : ℚ) (isAutoBid : Bool)
    (clockEnd clockBid clockExtend : Time) (newID : UUID) : Except BidError Bid × DB :=
  let tx := Begin db
  match tx.work.auctions.find? (fun r => r.ID = auctionID) with
  | none => (Except.error BidError.recordNotFound, tx.Rollback)
  | some auction =>
    if auction.Status ≠ "live" then
      (Except.error BidError.notLive, tx.Rollback)
    else if auction.EndTime < clockEnd then
      let tx1 := tx.updateAuction auction.ID (fun r => { r with Status := "ended" })
      (Except.error BidError.ended, tx1.Rollback)
    else
      let minimumBid : ℚ :=
        match auction.CurrentBid with
        | some current => Float64.add current 1
        | none => auction.StartPrice
      if amount < minimumBid then
        (Except.error (BidError.tooLow minimumBid), tx.Rollback)
      else
        let lastBid : Option Bid :=
          (tx.work.bids.filter
            (fun b => b.AuctionID = auctionID ∧ b.UserID = userID)).getLast?
        let outbidsSelf : Bool :=
          match auction.CurrentBid, lastBid with
          | some _, some last => decide (amount ≤ last.Amount)
          | _, _ => false
        if outbidsSelf = true then
          (Except.error BidError.selfOutbid, tx.Rollback)
        else
          let bid : Bid :=
            { ID := newID, AuctionID := auctionID, UserID := userID, Amount := amount,
              IsAutoBid := isAutoBid, IsWinning := true, BidTime := clockBid }
          let tx2 : Tx := { tx with work := { tx.work with bids := tx.work.bids ++ [bid] } }
          let tx3 : Tx :=
            match auction.CurrentBid with
            | some _ =>
              { tx2 with work := { tx2.work with
                  bids := tx2.work.bids.map (fun b =>
                    if b.AuctionID = auctionID ∧ b.UserID ≠ userID ∧ b.IsWinning = true
                    then { b with IsWinning := false } else b) } }
            | none => tx2
          let extend : Bool :=
            decide (auction.AutoExtend = true ∧ auction.EndTime - clockExtend ≤ 5 * Minute)
          let tx4 := tx3.updateAuction auction.ID (fun r =>
            { r with
              CurrentBid := some amount,
              BidCount := auction.BidCount + 1,
              EndTime := if extend = true then auction.EndTime + auction.ExtendTime * Second
                         else r.EndTime })
          (Except.ok bid, tx4.Commit)

/-- The struct `models.AutoBid`, the row of table `auto_bids`, with the `ID` of its
base model; preloaded associations are left out. -/
structure AutoBid where
  ID : UUID
  AuctionID : UUID
  UserID : UUID
  MaxAmount : ℚ
  IsActive : Bool
  CurrentBid : Option ℚ
  BidIncrement : ℚ
  LastBidTime : Option Time
deriving DecidableEq

/-- What one turn of the loop of the older `processAutoBids` takes from its
surroundings: the three clock readings and the new identifier of its `PlaceBid` call,
the `time.Now()` stored as `last_bid_time`, and the error of the update of the
auto-bid record, if any (the code ignores it). -/
structure RuleEnv where
  clockEnd : Time
  clockBid : Time
  clockExtend : Time
  newID : UUID
  stamp : Time
  saveErr : Option String

/-- A proxy bid placed by the older `processAutoBids`: the rule, the running
`currentBid` before it, and the bid `PlaceBid` returned. -/
structure Firing where
  rule : AutoBid
  before : ℚ
  bid : Bid

/-- The outcome of one run of the older `processAutoBids`: the tables `auctions` and
`bids` and the table `auto_bids` after it, the proxy bids placed, in order, the runs
started by the `PlaceBid` calls that returned a bid, and the final value of the
running `currentBid`. -/
structure PassResult where
  db : DB
  autoBids : List AutoBid
  placed : List Firing
  spawned : List (UUID × ℚ)
  current : ℚ

/-- The amount the loop of the older `processAutoBids` computes for a rule:
the `float64` sum `currentBid + autoBid.BidIncrement`, cut down to `MaxAmount`. -/
def proxyAmount (autoBid : AutoBid) (currentBid : ℚ) : ℚ :=
  if autoBid.MaxAmount < Float64.add currentBid autoBid.BidIncrement then autoBid.MaxAmount
  else Float64.add currentBid autoBid.BidIncrement

/-- The update of the auto-bid record after a proxy bid: `Updates` of `current_bid` and
`last_bid_time` on the row of `auto_bids` with the rule's primary key; on an error
`saveErr` the table is as before. -/
def updateAutoBid (table : List AutoBid) (autoBid : AutoBid) (bidAmount : ℚ)
    (stamp : Time) (saveErr : Option String) : List AutoBid :=
  match saveErr with
  | some _ => table
  | none =>
    table.map (fun r =>
      if r.ID = autoBid.ID then
        { r with CurrentBid := some bidAmount, LastBidTime := some stamp }
      else r)

/-- The `for _, autoBid := range autoBids` loop of the older `processAutoBids`, run on
its own (no other goroutine touches the database meanwhile). `table` is the table
`auto_bids`, of which the loop updates the row of each rule that has bid. -/
def processRules (auctionID : UUID) (env : AutoBid → RuleEnv) :
    List AutoBid → DB → List AutoBid → ℚ → PassResult
  | [], db, table, currentBid =>
    { db := db, autoBids := table, placed := [], spawned := [], current := currentBid }
  | autoBid :: rest, db, table, currentBid =>
    if autoBid.UserID = uuid.Nil then
      processRules auctionID env rest db table currentBid
    else
      match PlaceBid db auctionID autoBid.UserID (proxyAmount autoBid currentBid) true
          (env autoBid).clockEnd (env autoBid).clockBid (env autoBid).clockExtend
          (env autoBid).newID with
      | (Except.error _, db1) => processRules auctionID env rest db1 table currentBid
      | (Except.ok bid, db1) =>
        let table1 : List AutoBid :=
          updateAutoBid table autoBid (proxyAmount autoBid currentBid) (env autoBid).stamp
            (env autoBid).saveErr
        let tail := processRules auctionID env rest db1 table1 (proxyAmount autoBid currentBid)
        { db := tail.db, autoBids := tail.autoBids,
          placed := { rule := autoBid, before := currentBid, bid := bid } :: tail.placed,
          spawned := (auctionID, proxyAmount autoBid currentBid) :: tail.spawned,
          current := tail.current }

/-- The rules the older `processAutoBids` selects: `auction_id = ? AND is_active = ?
AND max_amount > ?` with the amount the run was started with, in creation order. Its
`Preload("User")` names a relation `models.AutoBid` has (the field `User`), and the
loop does not use the preloaded user. -/
def selectAutoBids (table : List AutoBid) (auctionID : UUID) (currentBid : ℚ) :
    List AutoBid :=
  table.filter (fun r => r.AuctionID = auctionID ∧ r.IsActive = true ∧ currentBid < r.MaxAmount)

/-- The method `Service.processAutoBids` of the older service, run on its own;
`listErr` is the error of the query, if any. -/
def processAutoBids (db : DB) (table : List AutoBid) (auctionID : UUID) (currentBid : ℚ)
    (listErr : Option String) (env : AutoBid → RuleEnv) : PassResult :=
  match listErr with
  | some _ =>
    { db := db, autoBids := table, placed := [], spawned := [], current := currentBid }
  | none => processRules auctionID env (selectAutoBids table auctionID currentBid) db table
      currentBid

end Legacy

/-! ## `internal/infrastructure/messaging/redis/event_bus.go` -/

/-- A value stored in a `map[string]interface{}` payload. -/
inductive JSONValue where
  | str (s : String)
  | num (x : ℚ)
  | int (n : Int)
  | bool (b : Bool)
  | time (t : Time)
deriving DecidableEq

/-- The result of `u.String()` for a `uuid.UUID`. -/
def uuidString (u : UUID) : String := toString u

def EventBidPlaced : String := "bid.placed"
def EventAuctionStarted : String := "auction.started"
def EventAuctionEnded : String := "auction.ended"
def EventAuctionExtended : String := "auction.extended"

/-- The struct `Event` (its field `Type` is `Type_` here); `Payload` is the map, as
the list of its entries. -/
structure Event where
  Type_ : String
  AuctionID : String
  Timestamp : Time
  Payload : List (String × JSONValue)
deriving DecidableEq

/-- A member of a marshalled JSON object: a plain value or a nested object. -/
inductive WireField where
  | value (v : JSONValue)
  | object (entries : List (String × JSONValue))
deriving DecidableEq

/-- The JSON object `json.Marshal` makes of an `Event`, by its struct tags. -/
def Event.marshal (e : Event) : List (String × WireField) :=
  [("type", WireField.value (JSONValue.str e.Type_)),
   ("auction_id", WireField.value (JSONValue.str e.AuctionID)),
   ("timestamp", WireField.value (JSONValue.time e.Timestamp)),
   ("payload", WireField.object e.Payload)]

/-- The method `EventBus.publish`: the returned error and the events sent, each with
the channel it was sent on. `clock` is the reading of `time.Now()`; `auctionErr` and
`globalErr` are the errors of the two `Publish` calls, if any. -/
def EventBus.publish (auctionID : UUID) (eventType : String)
    (payload : List (String × JSONValue)) (clock : Time)
    (auctionErr globalErr : Option String) : Except String Unit × List (String × Event) :=
  let e : Event :=
    { Type_ := eventType, AuctionID := uuidString auctionID, Timestamp := clock,
      Payload := payload }
  let channel := "blytz:events:" ++ "auction:" ++ uuidString auctionID
  match auctionErr with
  | some err => (Except.error ("failed to publish event: " ++ err), [])
  | none =>
    let globalChannel := "blytz:events:" ++ "all"
    match globalErr with
    | some err =>
      (Except.error ("failed to publish to global channel: " ++ err), [(channel, e)])
    | none => (Except.ok (), [(channel, e), (globalChannel, e)])

/-- The method `EventBus.PublishBidPlaced`. -/
def EventBus.PublishBidPlaced (auctionID : UUID) (bid : Bid) (clock : Time)
    (auctionErr globalErr : Option String) : Except String Unit × List (String × Event) :=
  EventBus.publish auctionID EventBidPlaced
    [("bid_id", JSONValue.str (uuidString bid.ID)),
     ("user_id", JSONValue.str (uuidString bid.UserID)),
     ("amount", JSONValue.num bid.Amount),
     ("is_auto_bid", JSONValue.bool bid.IsAutoBid),
     ("bid_time", JSONValue.time bid.BidTime)]
    clock auctionErr globalErr

/-! ## `internal/infrastructure/websocket/hub.go`

A `*Client` is the client's address, here the field `id`. The channel `send`, made
with `make(chan []byte, 256)`, is the list of the messages it holds, oldest first; a
marshalled message is the `Message` it was made from. What the two pumps of a client
do to the socket is not modelled. -/

/-- The struct `Message` (its field `Type` is `Type_` here); `Data` is the map, as
the list of its entries. -/
structure Message where
  Type_ : String
  AuctionID : String
  Data : List (String × JSONValue)
  Timestamp : Time
deriving DecidableEq

/-- The JSON object `json.Marshal` makes of a `Message`, by its struct tags. -/
def Message.marshal (m : Message) : List (String × WireField) :=
  [("type", WireField.value (JSONValue.str m.Type_)),
   ("auction_id", WireField.value (JSONValue.str m.AuctionID)),
   ("data", WireField.object m.Data),
   ("timestamp", WireField.value (JSONValue.time m.Timestamp))]

/-- The capacity of the channel `send` made in `HandleConnection`. -/
def sendCapacity : Nat := 256

/-- The struct `Client`. -/
structure Client where
  id : Nat
  userID : String
  auctionID : String
  send : List Message
deriving DecidableEq

/-- The struct `Room`; `clients` is the key set of the map, one entry per client. -/
structure Room where
  AuctionID : String
  clients : List Client
  viewerCount : Int
deriving DecidableEq

/-- The method `Room.addClient`: the map entry is set (a key already there stays as it
is) and the count goes up by one. -/
def Room.addClient (r : Room) (c : Client) : Room :=
  { r with
    clients := if r.clients.any (fun d => d.id = c.id) then r.clients else r.clients ++ [c],
    viewerCount := r.viewerCount + 1 }

/-- The method `Room.removeClient`, for the client at address `c`: the room after the
call, and whether `close(c.send)` ran. -/
def Room.removeClient (r : Room) (c : Nat) : Room × Bool :=
  if r.clients.any (fun d => d.id = c) then
    ({ r with clients := r.clients.filter (fun d => d.id ≠ c),
              viewerCount := r.viewerCount - 1 }, true)
  else (r, false)

/-- The method `Room.getViewerCount`. -/
def Room.getViewerCount (r : Room) : Int := r.viewerCount

/-- The non-blocking send `select { case client.send <- message: default: }`. -/
def Client.trySend (c : Client) (message : Message) : Client :=
  if c.send.length < sendCapacity then { c with send := c.send ++ [message] } else c

/-- The method `Room.broadcast`. -/
def Room.broadcast (r : Room) (message : Message) : Room :=
  { r with clients := r.clients.map (fun c => c.trySend message) }

/-- The write pump of each client taking messages off its channel: client `c` has
taken `taken c.id` of them (or all there were). -/
def Room.drain (r : Room) (taken : Nat → Nat) : Room :=
  { r with clients := r.clients.map (fun c => { c with send := c.send.drop (taken c.id) }) }

/-- The struct `Hub`: the map `rooms`, as the list of its entries. -/
structure Hub where
  rooms : List (String × Room)
deriving DecidableEq

/-- The method `Hub.getRoom`. -/
def Hub.getRoom (h : Hub) (auctionID : String) : Option Room :=
  (h.rooms.find? (fun e => e.1 = auctionID)).map (fun e => e.2)

/-- A change made through the room pointer stored under `auctionID`. -/
def Hub.updateRoom (h : Hub) (auctionID : String) (f : Room → Room) : Hub :=
  { rooms := h.rooms.map (fun e => if e.1 = auctionID then (e.1, f e.2) else e) }

/-- The method `Hub.getOrCreateRoom`: the hub after the call (the room is then found
under `auctionID`). -/
def Hub.getOrCreateRoom (h : Hub) (auctionID : String) : Hub :=
  if h.rooms.any (fun e => e.1 = auctionID) then h
  else { rooms := h.rooms ++
           [(auctionID, { AuctionID := auctionID, clients := [], viewerCount := 0 })] }

/-- The method `Hub.broadcastToRoom`. -/
def Hub.broadcastToRoom (h : Hub) (auctionID : String) (msg : Message) : Hub :=
  match h.getRoom auctionID with
  | none => h
  | some _ => h.updateRoom auctionID (fun room => room.broadcast msg)

/-- The method `Hub.broadcastViewerCount`; `clock` is the reading of `time.Now()`. -/
def Hub.broadcastViewerCount (h : Hub) (auctionID : String) (clock : Time) : Hub :=
  match h.getRoom auctionID with
  | none => h
  | some room =>
    h.updateRoom auctionID (fun r => r.broadcast
      { Type_ := "viewer_count", AuctionID := auctionID,
        Data := [("count", JSONValue.int room.getViewerCount)], Timestamp := clock })

/-- The message `Hub.handleEvent` relays for an event, if it relays one. -/
def relayedMessage (event : Event) : Option Message :=
  if event.Type_ = EventBidPlaced then
    some { Type_ := "bid", AuctionID := event.AuctionID, Data := event.Payload,
           Timestamp := event.Timestamp }
  else if event.Type_ = EventAuctionStarted then
    some { Type_ := "auction_started", AuctionID := event.AuctionID, Data := event.Payload,
           Timestamp := event.Timestamp }
  else if event.Type_ = EventAuctionEnded then
    some { Type_ := "auction_ended", AuctionID := event.AuctionID, Data := event.Payload,
           Timestamp := event.Timestamp }
  else if event.Type_ = EventAuctionExtended then
    some { Type_ := "auction_extended", AuctionID := event.AuctionID,
           Data := event.Payload, Timestamp := event.Timestamp }
  else none

/-- The method `Hub.handleEvent`. -/
def Hub.handleEvent (h : Hub) (event : Event) : Hub :=
  match relayedMessage event with
  | some msg => h.broadcastToRoom event.AuctionID msg
  | none => h

/-- The method `Hub.HandleConnection`, up to the start of the two pumps, for a new
client at address `clientID`; `upgradeErr` is the error of the upgrade, if any, `clock`
the reading of `time.Now()` in `broadcastViewerCount`. -/
def Hub.HandleConnection (h : Hub) (auctionID userID : String) (clientID : Nat)
    (upgradeErr : Option String) (clock : Time) : Hub :=
  match upgradeErr with
  | some _ => h
  | none =>
    let h1 := h.getOrCreateRoom auctionID
    let client : Client :=
      { id := clientID, userID := userID, auctionID := auctionID, send := [] }
    let h2 := h1.updateRoom auctionID (fun room => room.addClient client)
    h2.broadcastViewerCount auctionID clock

/-- The deferred function of `Client.readPump`, run when the connection of the client
at address `clientID`, joined to the room of `auctionID`, is lost. -/
def Hub.disconnect (h : Hub) (auctionID : String) (clientID : Nat) (clock : Time) : Hub :=
  let h1 := h.updateRoom auctionID (fun room => (room.removeClient clientID).1)
  h1.broadcastViewerCount auctionID clock

/-- The room states reachable from the empty room by `addClient` calls, each for a
client that is not in the room, and `removeClient` calls for any client. -/
inductive Room.Reachable (auctionID : String) : Room → Prop where
  | empty : Room.Reachable auctionID { AuctionID := auctionID, clients := [], viewerCount := 0 }
  | add (r : Room) (c : Client) : Room.Reachable auctionID r →
      (∀ d ∈ r.clients, d.id ≠ c.id) → Room.Reachable auctionID (r.addClient c)
  | remove (r : Room) (c : Nat) : Room.Reachable auctionID r →
      Room.Reachable auctionID (r.removeClient c).1

/-! ## `internal/interfaces/middleware/ratelimit.go`

Redis holds, under each key, a counter and the instant at which the key expires, if
one is set; a key whose instant has come is gone. -/

/-- The value Redis holds under a key. -/
structure RedisEntry where
  value : Int
  expireAt : Option Time
deriving DecidableEq

/-- The keys of the Redis instance. -/
abbrev Redis := String → Option RedisEntry

/-- The entry under a key at instant `now`, unless it has expired. -/
def Redis.get (r : Redis) (key : String) (now : Time) : Option RedisEntry :=
  match r key with
  | none => none
  | some e =>
    match e.expireAt with
    | some t => if t ≤ now then none else some e
    | none => some e

/-- The command `INCR key`: the new value and Redis after it. A new key has no
expiry; an existing one keeps its own. -/
def Redis.incr (r : Redis) (key : String) (now : Time) : Int × Redis :=
  match r.get key now with
  | none => (1, fun k => if k = key then some { value := 1, expireAt := none } else r k)
  | some e =>
    (e.value + 1,
     fun k => if k = key then some { e with value := e.value + 1 } else r k)

/-- The command `EXPIRE key window`. -/
def Redis.expire (r : Redis) (key : String) (window : Duration) (now : Time) : Redis :=
  match r.get key now with
  | none => r
  | some e => fun k => if k = key then some { e with expireAt := some (now + window) } else r k

/-- The struct `RateLimiter`. -/
structure RateLimiter where
  window : Duration
  max : Int

/-- The function `NewRateLimiter`. -/
def NewRateLimiter (max : Int) (window : Duration) : RateLimiter :=
  { window := window, max := max }

/-- The method `RateLimiter.Allow` at instant `now`: the returned `(bool, error)` and
Redis after the call. `execErr` is the error of `pipe.Exec`, if any (the commands are
then taken not to have run). -/
def RateLimiter.Allow (rl : RateLimiter) (redis : Redis) (key : String) (now : Time)
    (execErr : Option String) : Except String Bool × Redis :=
  match execErr with
  | some err => (Except.error err, redis)
  | none =>
    let incr := redis.incr key now
    let redis1 := incr.2.expire key rl.window now
    (Except.ok (decide (incr.1 ≤ rl.max)), redis1)

/-- The limiter of `AuthRateLimit`. -/
def authRateLimiter : RateLimiter := NewRateLimiter 5 Minute

/-- The limiter of `GeneralRateLimit`. -/
def generalRateLimiter : RateLimiter := NewRateLimiter 100 Minute

/-- The limiter of `AuctionBidRateLimit`. -/
def bidRateLimiter : RateLimiter := NewRateLimiter 10 Minute

/-- The answers of `Allow` to requests with one key made at the given instants, one
after the other, none failing in Redis. -/
def allowAll (rl : RateLimiter) (key : String) : List Time → Redis → List Bool
  | [], _ => []
  | now :: rest, redis =>
    match rl.Allow redis key now none with
    | (Except.ok allowed, redis1) => allowed :: allowAll rl key rest redis1
    | (Except.error _, redis1) => allowAll rl key rest redis1

/-! ## Concrete auctions used to evaluate the code -/

/-- Scenario S4 for the older service: auction 1 is live until 1000 s; no bids. -/
def legacyDBS4 : Legacy.DB :=
  { auctions :=
      [{ ID := 1, ProductID := 2, SellerID := 3, Title := "A4", StartTime := 0,
         EndTime := 1000000000000, Status := "live", StartPrice := 10,
         ReservePrice := none, BuyNowPrice := none, CurrentBid := none, BidCount := 0,
         WinnerID := none, LiveKitRoom := "auction-1", AutoExtend := true,
         ExtendTime := 300, IsFeatured := false }],
    bids := [] }

/-- Scenario S2 for the older service: auction 1 is live until 1000 s and Carol
(user 7) leads with her bid of 20.00, the only bid. -/
def legacyDBS2 : Legacy.DB :=
  { auctions :=
      [{ ID := 1, ProductID := 2, SellerID := 3, Title := "A2", StartTime := 0,
         EndTime := 1000000000000, Status := "live", StartPrice := 10,
         ReservePrice := none, BuyNowPrice := none, CurrentBid := some 20, BidCount := 1,
         WinnerID := none, LiveKitRoom := "auction-1", AutoExtend := true,
         ExtendTime := 300, IsFeatured := false }],
    bids :=
      [{ ID := 41, AuctionID := 1, UserID := 7, Amount := 20, IsAutoBid := false,
         IsWinning := true, BidTime := 100 }] }

/-- Scenario S1: a live auction with start price 10.00, no bid yet, ending at
instant `1000000000000` (1000 s), auto-extend on with a 300 s extension. -/
def auctionS1 : Auction :=
  { ID := 1, ProductID := 2, SellerID := 3, Title := "A1", Description := "",
    StartTime := 0, EndTime := 1000000000000, Status := StatusLive, StartPrice := 10,
    ReservePrice := none, BuyNowPrice := none, CurrentBid := none, BidCount := 0,
    WinnerID := none, LiveKitRoom := "auction-1", StreamKey := "", AutoExtend := true,
    ExtendTime := 300 * Second, IsFeatured := false, CreatedAt := 0, UpdatedAt := 0 }

/-- The auction of S1 with a negative extend time of one minute, as a row whose
`extend_time` column holds `-60` is read by `toAuctionDomain`. -/
def auctionNegExtend : Auction :=
  { auctionS1 with ExtendTime := -60 * Second }

/-- The auction of S1 on which user 7 holds the current bid of 9007199254740992
(`2^53`), placed at instant 100. -/
def auctionHigh : Auction :=
  { auctionS1 with
    CurrentBid := some { ID := 41, AuctionID := 1, UserID := 7,
                         Amount := 9007199254740992, IsAutoBid := false,
                         IsWinning := true, BidTime := 100 },
    BidCount := 1, UpdatedAt := 100 }

/-- The same for the older service: auction 1 is live until 1000 s and its
`current_bid` is 9007199254740992 (`2^53`), held by user 7 with the only bid. -/
def legacyDBHigh : Legacy.DB :=
  { auctions :=
      [{ ID := 1, ProductID := 2, SellerID := 3, Title := "A1", StartTime := 0,
         EndTime := 1000000000000, Status := "live", StartPrice := 10,
         ReservePrice := none, BuyNowPrice := none, CurrentBid := some 9007199254740992,
         BidCount := 1, WinnerID := none, LiveKitRoom := "auction-1", AutoExtend := true,
         ExtendTime := 300, IsFeatured := false }],
    bids :=
      [{ ID := 41, AuctionID := 1, UserID := 7, Amount := 9007199254740992,
         IsAutoBid := false, IsWinning := true, BidTime := 100 }] }

/-- Two calls of `Auction.PlaceBid`, each of 9007199254740992 (`2^53`): by user 7 at
instant 100 and by user 8 at instant 200. -/
def callsEqual : List BidCall :=
  [{ bidderID := 7, amount := 9007199254740992, now := 100, newID := 41, clock := 100 },
   { bidderID := 8, amount := 9007199254740992, now := 200, newID := 42, clock := 200 }]

/-- A request to create an auction running from 2000 s to 5000 s, start price 10.00. -/
def requestA7 : CreateAuctionRequest :=
  { ProductID := 2, SellerID := 3, Title := "A7", Description := "",
    StartTime := 2000000000000, EndTime := 5000000000000, StartPrice := 10,
    ReservePrice := none, BuyNowPrice := none, IsFeatured := false }

/-- An insert that succeeds at instant 1000 s and returns the model with its
timestamps filled in, every other column as given. -/
def gormCreateOk (m : AuctionModel) : Except String AuctionModel :=
  Except.ok { m with CreatedAt := 1000000000000, UpdatedAt := 1000000000000 }

/-- Scenario S2: the table `bids` after Carol (user 7) placed 20.00 on auction 1. -/
def bidsS2 : List BidModel :=
  [{ ID := 41, AuctionID := 1, UserID := 7, Amount := 20, IsAutoBid := false,
     IsWinning := true, BidTime := 100 }]

/-- Scenario S2: Carol's second bid, 25.00, as `Auction.PlaceBid` builds it. -/
def bidCarol25 : Bid :=
  { ID := 42, AuctionID := 1, UserID := 7, Amount := 25, IsAutoBid := false,
    IsWinning := true, BidTime := 200 }

/-- Scenario S1: Bob (user 8) bids 21.00 on auction 1. -/
def bidBob21 : Bid :=
  { ID := 43, AuctionID := 1, UserID := 8, Amount := 21, IsAutoBid := false,
    IsWinning := true, BidTime := 200 }

/-- Scenario S2: Carol's first bid, 20.00, as `Auction.PlaceBid` builds it at
instant 100 with identifier 41. -/
def bidCarol20 : Bid :=
  { ID := 41, AuctionID := 1, UserID := 7, Amount := 20, IsAutoBid := false,
    IsWinning := true, BidTime := 100 }

/-- Scenario S2: the auction of S1 after Carol's bid of 20.00 was accepted at
instant 100: she holds the current winning bid and the bid count is 1. -/
def auctionS2 : Auction :=
  { auctionS1 with CurrentBid := some bidCarol20, BidCount := 1, UpdatedAt := 100 }

/-- Scenario S5: auction 5 is live until 1000 s with start price 5.00 and no bid;
Eve (user 11) has the older rule, maximum 30 and increment 2, Frank (user 12) the
newer one, maximum 20 and increment 2. -/
def storeS5 : Store :=
  { auctions :=
      [{ ID := 5, CreatedAt := 0, UpdatedAt := 0, ProductID := 2, SellerID := 3,
         Title := "A5", Description := "", StartTime := 0, EndTime := 1000000000000,
         Status := "live", StartPrice := 5, ReservePrice := none, BuyNowPrice := none,
         CurrentBidID := none, BidCount := 0, WinnerID := none,
         LiveKitRoom := "auction-5", StreamKey := "", AutoExtend := true,
         ExtendTime := 300, IsFeatured := false }],
    bids := [],
    autoBids :=
      [{ ID := 61, CreatedAt := 10, UpdatedAt := 10, AuctionID := 5, UserID := 11,
         MaxAmount := 30, IsActive := true, CurrentBid := none, BidIncrement := 2,
         LastBidTime := none },
       { ID := 62, CreatedAt := 20, UpdatedAt := 20, AuctionID := 5, UserID := 12,
         MaxAmount := 20, IsActive := true, CurrentBid := none, BidIncrement := 2,
         LastBidTime := none }] }

/-- The surroundings of the triggering bid: placed at instant 100 with identifier 70,
every write succeeds. -/
def envTrigger : BidEnv :=
  { now := 100, newID := 70, clock := 100, createErr := none, clearErr := none,
    saveErr := none }

/-- The surroundings of the run number `pass` of `processAutoBids`: instant
`200 + pass`, a fresh identifier for each bid, every write succeeds. -/
def envsPass (pass : Nat) (ab : AutoBid) : RuleEnv :=
  { bid := { now := 200 + pass, newID := 1000 * (pass + 1) + ab.ID, clock := 200 + pass,
             createErr := none, clearErr := none, saveErr := none },
    stamp := 200 + pass, saveErr := none }

/-- Eve's rule of scenario S5, as `GetActiveAutoBids` returns it. -/
def ruleEve : AutoBid :=
  { ID := 61, AuctionID := 5, UserID := 11, MaxAmount := 30, IsActive := true,
    CurrentBid := none, BidIncrement := 2, LastBidTime := none, CreatedAt := 10,
    UpdatedAt := 10 }

/-- Frank's rule of scenario S5, as `GetActiveAutoBids` returns it. -/
def ruleFrank : AutoBid :=
  { ID := 62, AuctionID := 5, UserID := 12, MaxAmount := 20, IsActive := true,
    CurrentBid := none, BidIncrement := 2, LastBidTime := none, CreatedAt := 20,
    UpdatedAt := 20 }

/-- Greg's bid of scenario S5 as `Auction.PlaceBid` builds it: 6.00 on auction 5 by
user 13, with identifier 70 at instant 100. -/
def bidGreg6 : Bid :=
  { ID := 70, AuctionID := 5, UserID := 13, Amount := 6, IsAutoBid := false,
    IsWinning := true, BidTime := 100 }

/-- Scenario S5 for the older service: auction 5 is live until 1000 s with start price
5.00 and no bid. -/
def legacyDBS5 : Legacy.DB :=
  { auctions :=
      [{ ID := 5, ProductID := 2, SellerID := 3, Title := "A5", StartTime := 0,
         EndTime := 1000000000000, Status := "live", StartPrice := 5,
         ReservePrice := none, BuyNowPrice := none, CurrentBid := none, BidCount := 0,
         WinnerID := none, LiveKitRoom := "auction-5", AutoExtend := true,
         ExtendTime := 300, IsFeatured := false }],
    bids := [] }

/-- Eve's rule of scenario S5 in the older service: user 11, maximum 30, increment 2. -/
def legacyRuleEve : Legacy.AutoBid :=
  { ID := 61, AuctionID := 5, UserID := 11, MaxAmount := 30, IsActive := true,
    CurrentBid := none, BidIncrement := 2, LastBidTime := none }

/-- Frank's rule of scenario S5 in the older service: user 12, maximum 20, increment
2. -/
def legacyRuleFrank : Legacy.AutoBid :=
  { ID := 62, AuctionID := 5, UserID := 12, MaxAmount := 20, IsActive := true,
    CurrentBid := none, BidIncrement := 2, LastBidTime := none }

/-- The table `auto_bids` of scenario S5 in the older service, Eve's rule the older
one. -/
def legacyRulesS5 : List Legacy.AutoBid := [legacyRuleEve, legacyRuleFrank]

/-- Scenario S5 in the older service with Eve herself (user 11) placing the 6.00 at
instant 100: she leads the auction with the only bid. -/
def legacyDBS5Eve6 : Legacy.DB := (Legacy.PlaceBid legacyDBS5 5 11 6 false 100 100 100 70).2

/-- The surroundings of the turns of a run of the older `processAutoBids`: every
clock reading is instant 200, each bid gets a fresh identifier, every write
succeeds. -/
def legacyEnvs (ab : Legacy.AutoBid) : Legacy.RuleEnv :=
  { clockEnd := 200, clockBid := 200, clockExtend := 200, newID := 1000 + ab.ID,
    stamp := 200, saveErr := none }

/-- A database holding one auction, created from `requestA7` (scheduled, to run from
2000 s to 5000 s), and nothing else. -/
def storeA7 : Store :=
  { auctions :=
      [{ ID := 5, CreatedAt := 1000000000000, UpdatedAt := 1000000000000, ProductID := 2,
         SellerID := 3, Title := "A7", Description := "", StartTime := 2000000000000,
         EndTime := 5000000000000, Status := "scheduled", StartPrice := 10,
         ReservePrice := none, BuyNowPrice := none, CurrentBidID := none, BidCount := 0,
         WinnerID := none, LiveKitRoom := "auction-6", StreamKey := "", AutoExtend := true,
         ExtendTime := 0, IsFeatured := false }],
    bids := [], autoBids := [] }

/-- Scenario S6: a live auction with reserve price 100 whose current bid, the highest,
is 80.00 by user 7; no winner yet. -/
def auctionS6 : Auction :=
  { auctionS1 with
    ReservePrice := some 100,
    CurrentBid := some { ID := 41, AuctionID := 1, UserID := 7, Amount := 80,
                         IsAutoBid := false, IsWinning := true, BidTime := 100 },
    BidCount := 1 }

/-- A database in which auction 1 is live until 1000 s with start price 10.00, and
its row names bid 41 as current bid: Carol's (user 7) 20.00, the only bid. -/
def storeS2 : Store :=
  { auctions :=
      [{ ID := 1, CreatedAt := 0, UpdatedAt := 100, ProductID := 2, SellerID := 3,
         Title := "A2", Description := "", StartTime := 0, EndTime := 1000000000000,
         Status := "live", StartPrice := 10, ReservePrice := none, BuyNowPrice := none,
         CurrentBidID := some 41, BidCount := 1, WinnerID := none,
         LiveKitRoom := "auction-1", StreamKey := "", AutoExtend := true,
         ExtendTime := 300, IsFeatured := false }],
    bids :=
      [{ ID := 41, AuctionID := 1, UserID := 7, Amount := 20, IsAutoBid := false,
         IsWinning := true, BidTime := 100 }],
    autoBids := [] }

/-- A snapshot of auction 1 written to the cache at instant 100 s. -/
def snapshotA1 : AuctionState :=
  { AuctionID := 1, CurrentBid := none, BidCount := 0, Status := "live",
    EndTime := 1000000000000, ViewerCount := 0, LastUpdated := 100000000000 }

/-- A hub with no room. -/
def hubEmpty : Hub := { rooms := [] }

/-- A client at address `n` with `k` copies of a viewer-count message waiting in its
channel. -/
def clientWith (n k : Nat) : Client :=
  { id := n, userID := "u", auctionID := "a1",
    send := List.replicate k
      { Type_ := "viewer_count", AuctionID := "a1", Data := [("count", JSONValue.int 3)],
        Timestamp := 0 } }

/-- A room of three clients whose channels hold 0, 255 and 256 messages. -/
def roomBackpressure : Room :=
  { AuctionID := "a1", clients := [clientWith 1 0, clientWith 2 255, clientWith 3 256],
    viewerCount := 3 }

/-- The message relayed for a first event, E1. -/
def messageE1 : Message :=
  { Type_ := "bid", AuctionID := "a1", Data := [("amount", JSONValue.num 10)],
    Timestamp := 1 }

/-- The message relayed for a second event, E2. -/
def messageE2 : Message :=
  { Type_ := "bid", AuctionID := "a1", Data := [("amount", JSONValue.num 11)],
    Timestamp := 2 }

/-- The room of auction "a1" after clients 1 and 2 joined the empty room. -/
def roomTwo : Room :=
  (({ AuctionID := "a1", clients := [], viewerCount := 0 } : Room).addClient
    (clientWith 1 0)).addClient (clientWith 2 0)

/-- Six requests with one key, one every 30 seconds, from instant 0 on. -/
def requestsEvery30s : List Time :=
  [0, 30000000000, 60000000000, 90000000000, 120000000000, 150000000000]

/-- A Redis instance with no key. -/
def redisEmpty : Redis := fun _ => none

/-! ## Theorems -/

/-- `Float64.ilog2` with enough fuel is the integer binary logarithm. -/
theorem Float64_ilog2_spec (fuel : Nat) :
    ∀ n : Nat, 1 ≤ n → n ≤ fuel →
      2 ^ Float64.ilog2 fuel n ≤ n ∧ n < 2 ^ (Float64.ilog2 fuel n + 1) := by
  induction fuel with
  | zero => intro n h1 h2; omega
  | succ fuel ih =>
    intro n h1 h2
    unfold Float64.ilog2
    split_ifs with h
    · have : n = 1 := by omega
      subst this
      simp
    · obtain ⟨h3, h4⟩ := ih (n / 2) (by omega) (by omega)
      rw [pow_succ] at h4 ⊢
      rw [pow_succ]
      constructor
      · omega
      · omega

/-- The binary exponent brackets the magnitude: `2^e ≤ |q| < 2^(e+1)`. -/
theorem Float64_exponent_spec (q : ℚ) (hq : q ≠ 0) :
    (2 : ℚ) ^ Float64.exponent q ≤ |q| ∧ |q| < (2 : ℚ) ^ (Float64.exponent q + 1) := by
  have hn : 1 ≤ q.num.natAbs := Nat.one_le_iff_ne_zero.mpr (by simpa using hq)
  have hd : 1 ≤ q.den := q.den_pos
  obtain ⟨a1, a2⟩ := Float64_ilog2_spec q.num.natAbs q.num.natAbs hn le_rfl
  obtain ⟨b1, b2⟩ := Float64_ilog2_spec q.den q.den hd le_rfl
  set a := Float64.ilog2 q.num.natAbs q.num.natAbs with ha
  set b := Float64.ilog2 q.den q.den with hb
  have habs : |q| = (q.num.natAbs : ℚ) / (q.den : ℚ) := by
    conv_lhs => rw [← Rat.num_div_den q]
    rw [abs_div, Nat.cast_natAbs, Int.cast_abs, abs_of_pos (by exact_mod_cast q.den_pos : (0:ℚ) < q.den)]
  have a1' : (2 : ℚ) ^ a ≤ (q.num.natAbs : ℚ) := by exact_mod_cast a1
  have a2' : (q.num.natAbs : ℚ) < (2 : ℚ) ^ (a + 1) := by exact_mod_cast a2
  have b1' : (2 : ℚ) ^ b ≤ (q.den : ℚ) := by exact_mod_cast b1
  have b2' : (q.den : ℚ) < (2 : ℚ) ^ (b + 1) := by exact_mod_cast b2
  have hdpos : (0 : ℚ) < q.den := by exact_mod_cast q.den_pos
  have h2b : (0 : ℚ) < 2 ^ b := by positivity
  have h2b1 : (0 : ℚ) < 2 ^ (b + 1) := by positivity
  have e1 : (2 : ℚ) ^ ((a : ℤ) - (b : ℤ) + 1) = 2 ^ (a + 1) / 2 ^ b := by
    rw [show ((a : ℤ) - (b : ℤ) + 1) = ((a + 1 : ℕ) : ℤ) - ((b : ℕ) : ℤ) by push_cast; ring,
      zpow_sub₀ (by norm_num : (2 : ℚ) ≠ 0), zpow_natCast, zpow_natCast]
  have e2 : (2 : ℚ) ^ ((a : ℤ) - (b : ℤ) - 1) = 2 ^ a / 2 ^ (b + 1) := by
    rw [show ((a : ℤ) - (b : ℤ) - 1) = ((a : ℕ) : ℤ) - ((b + 1 : ℕ) : ℤ) by push_cast; ring,
      zpow_sub₀ (by norm_num : (2 : ℚ) ≠ 0), zpow_natCast, zpow_natCast]
  unfold Float64.exponent
  simp only [← ha, ← hb]
  split_ifs with h
  · refine ⟨h, ?_⟩
    rw [e1, habs, div_lt_div_iff₀ hdpos h2b]
    calc (q.num.natAbs : ℚ) * 2 ^ b < 2 ^ (a + 1) * 2 ^ b := by
          apply mul_lt_mul_of_pos_right a2' h2b
      _ ≤ 2 ^ (a + 1) * q.den := by
          apply mul_le_mul_of_nonneg_left b1' (by positivity)
  · refine ⟨?_, ?_⟩
    · rw [e2, habs, div_le_div_iff₀ h2b1 hdpos]
      calc (2 : ℚ) ^ a * q.den ≤ 2 ^ a * 2 ^ (b + 1) := by
            apply mul_le_mul_of_nonneg_left b2'.le (by positivity)
        _ ≤ q.num.natAbs * 2 ^ (b + 1) := by
            apply mul_le_mul_of_nonneg_right a1' (by positivity)
    · rw [show ((a : ℤ) - (b : ℤ) - 1 + 1) = (a : ℤ) - (b : ℤ) by ring]
      exact not_le.mp h

/-- Rounding to the nearest integer moves a number by at most one half. -/
theorem roundHalfEven_error (x : ℚ) : |(roundHalfEven x : ℚ) - x| ≤ 1 / 2 := by
  have h1 : (⌊x⌋ : ℚ) ≤ x := Int.floor_le x
  have h2 : x < (⌊x⌋ : ℚ) + 1 := Int.lt_floor_add_one x
  unfold roundHalfEven
  split_ifs with c1 c2 c3
  · rw [abs_le]; constructor <;> linarith
  · push_cast; rw [abs_le]; constructor <;> linarith
  · rw [abs_le]; constructor <;> linarith
  · push_cast; rw [abs_le]; constructor <;> linarith

/-- The `float64` nearest to `q` is within half a unit in the last place of `q`:
`|round q - q| ≤ 2^(e-53)` with `e` the binary exponent of `q`. -/
theorem Float64_round_error (q : ℚ) :
    |Float64.round q - q| ≤ (2 : ℚ) ^ (Float64.exponent q - 53) := by
  unfold Float64.round
  split_ifs with h
  · rw [h]; simp; positivity
  · have hu : (0 : ℚ) < 2 ^ (Float64.exponent q - 52) := by positivity
    have e : (2 : ℚ) ^ (Float64.exponent q - 53) = 2 ^ (Float64.exponent q - 52) / 2 := by
      rw [show Float64.exponent q - 53 = Float64.exponent q - 52 - 1 by ring,
        zpow_sub_one₀ (by norm_num : (2 : ℚ) ≠ 0)]
      ring
    have hr := roundHalfEven_error (q / 2 ^ (Float64.exponent q - 52))
    have : (roundHalfEven (q / 2 ^ (Float64.exponent q - 52)) : ℚ) *
        2 ^ (Float64.exponent q - 52) - q =
        ((roundHalfEven (q / 2 ^ (Float64.exponent q - 52)) : ℚ) -
          q / 2 ^ (Float64.exponent q - 52)) * 2 ^ (Float64.exponent q - 52) := by
      field_simp
    rw [this, abs_mul, abs_of_pos hu, e]
    calc _ ≤ 1 / 2 * 2 ^ (Float64.exponent q - 52) :=
          mul_le_mul_of_nonneg_right hr hu.le
      _ = 2 ^ (Float64.exponent q - 52) / 2 := by ring

/-- The `float64` nearest to `q` has a significand of 53 bits: it is `N * 2^(e-52)` for
an integer `N` with `|N| ≤ 2^53`, `e` being the binary exponent of `q`. -/
theorem Float64_round_significand (q : ℚ) :
    ∃ N : ℤ, |N| ≤ 2 ^ 53 ∧ Float64.round q = N * (2 : ℚ) ^ (Float64.exponent q - 52) := by
  unfold Float64.round
  split_ifs with h
  · exact ⟨0, by norm_num, by simp⟩
  · refine ⟨roundHalfEven (q / 2 ^ (Float64.exponent q - 52)), ?_, rfl⟩
    have hu : (0 : ℚ) < 2 ^ (Float64.exponent q - 52) := by positivity
    have hx : |q / 2 ^ (Float64.exponent q - 52)| < 2 ^ 53 := by
      rw [abs_div, abs_of_pos hu, div_lt_iff₀ hu]
      have e : (2 : ℚ) ^ 53 * 2 ^ (Float64.exponent q - 52) = 2 ^ (Float64.exponent q + 1) := by
        rw [show Float64.exponent q + 1 = 53 + (Float64.exponent q - 52) by ring,
          zpow_add₀ (by norm_num : (2 : ℚ) ≠ 0)]
        norm_num
      rw [e]
      exact (Float64_exponent_spec q h).2
    have hr := roundHalfEven_error (q / 2 ^ (Float64.exponent q - 52))
    have hN : |(roundHalfEven (q / 2 ^ (Float64.exponent q - 52)) : ℚ)| < 2 ^ 53 + 1 := by
      have := abs_sub_abs_le_abs_sub
        (roundHalfEven (q / 2 ^ (Float64.exponent q - 52)) : ℚ)
        (q / 2 ^ (Float64.exponent q - 52))
      linarith
    have hN2 : |roundHalfEven (q / 2 ^ (Float64.exponent q - 52))| < 2 ^ 53 + 1 := by
      have : ((|roundHalfEven (q / 2 ^ (Float64.exponent q - 52))| : ℤ) : ℚ) <
          ((2 ^ 53 + 1 : ℤ) : ℚ) := by
        push_cast
        norm_num at hN ⊢
        exact hN
      exact_mod_cast this
    omega

/-- Unfolding of `CanPlaceBid` on a live auction that has not ended. -/
theorem CanPlaceBid_live (a : Auction) (amount : ℚ) (now : Time)
    (hlive : a.Status = StatusLive) (hnow : ¬ a.EndTime < now) :
    CanPlaceBid a amount now =
      if amount < minBid a then Except.error "bid amount too low" else Except.ok () := by
  simp [CanPlaceBid, hlive, hnow]

/-- Unfolding of `PlaceBid` when `CanPlaceBid` accepts. -/
theorem PlaceBid_of_ok (a : Auction) (bidderID : UUID) (amount : ℚ) (now : Time)
    (newID : UUID) (clock : Time) (h : CanPlaceBid a amount now = Except.ok ()) :
    PlaceBid a bidderID amount now newID clock =
      (Except.ok { ID := newID, AuctionID := a.ID, UserID := bidderID, Amount := amount,
                   IsAutoBid := false, IsWinning := true, BidTime := now },
       { (if a.AutoExtend = true ∧ a.EndTime - clock ≤ 5 * Minute then
            { a with
              CurrentBid := some { ID := newID, AuctionID := a.ID, UserID := bidderID,
                                   Amount := amount, IsAutoBid := false, IsWinning := true,
                                   BidTime := now },
              BidCount := a.BidCount + 1,
              EndTime := a.EndTime + a.ExtendTime }
          else
            { a with
              CurrentBid := some { ID := newID, AuctionID := a.ID, UserID := bidderID,
                                   Amount := amount, IsAutoBid := false, IsWinning := true,
                                   BidTime := now },
              BidCount := a.BidCount + 1 }) with UpdatedAt := now }) := by
  unfold PlaceBid
  rw [h]

/-- Unfolding of `PlaceBid` when `CanPlaceBid` rejects. -/
theorem PlaceBid_of_error (a : Auction) (bidderID : UUID) (amount : ℚ) (now : Time)
    (newID : UUID) (clock : Time) (err : String)
    (h : CanPlaceBid a amount now = Except.error err) :
    PlaceBid a bidderID amount now newID clock = (Except.error err, a) := by
  unfold PlaceBid
  rw [h]

/-- An accepted `PlaceBid` is one whose `CanPlaceBid` check passed. -/
theorem CanPlaceBid_of_PlaceBid_ok (a : Auction) (bidderID : UUID) (amount : ℚ) (now : Time)
    (newID : UUID) (clock : Time) (bid : Bid)
    (h : (PlaceBid a bidderID amount now newID clock).1 = Except.ok bid) :
    CanPlaceBid a amount now = Except.ok () := by
  cases hc : CanPlaceBid a amount now with
  | error err => rw [PlaceBid_of_error a bidderID amount now newID clock err hc] at h; cases h
  | ok u => rfl

/-- A passed `CanPlaceBid` check means the amount reaches the minimum bid. -/
theorem minBid_le_of_CanPlaceBid_ok (a : Auction) (amount : ℚ) (now : Time)
    (h : CanPlaceBid a amount now = Except.ok ()) : minBid a ≤ amount := by
  unfold CanPlaceBid at h
  split_ifs at h with h1 h2 h3
  exact not_lt.mp h3

/-- `CanPlaceBid` on a live auction, not after its end, with an amount that reaches
the minimum: the check passes. -/
theorem CanPlaceBid_accepts (a : Auction) (amount : ℚ) (now : Time)
    (hlive : a.Status = StatusLive) (hnow : ¬ a.EndTime < now) (hmin : minBid a ≤ amount) :
    CanPlaceBid a amount now = Except.ok () := by
  rw [CanPlaceBid_live a amount now hlive hnow, if_neg (not_lt.mpr hmin)]

/-- The `float64` sum `20 + 1.0` is 21. -/
theorem Float64_add_20_1 : Float64.add 20 1 = 21 := by decide!

/-- The `float64` sum `9007199254740992 + 1.0` is 9007199254740992: the exact sum
`2^53 + 1` lies halfway between the neighbours `2^53` and `2^53 + 2` and the tie goes
to the even significand. -/
theorem Float64_add_absorbed : Float64.add 9007199254740992 1 = 9007199254740992 := by
  decide!

/-- C1 evaluated on the code. At ordinary amounts the minimum is the current bid plus
one: with a current bid of 20.00 a bid of 20.00 is rejected as too low and 21.00 is
accepted. With a current bid of 9007199254740992 (`2^53`) the code's minimum
`CurrentBid.Amount + 1.0` is 9007199254740992 itself, and a bid of that same amount,
which is below current bid + 1, is accepted by `CanPlaceBid`; the older
`Service.PlaceBid` accepts it as well and stores a second bid of the same amount. -/
theorem C1_equal_bid_accepted :
    CanPlaceBid auctionS2 20 200 = Except.error "bid amount too low" ∧
    CanPlaceBid auctionS2 21 200 = Except.ok () ∧
    auctionHigh.Status = StatusLive ∧ ¬ auctionHigh.EndTime < 200 ∧
    auctionHigh.CurrentBid.map (fun b => b.Amount) = some 9007199254740992 ∧
    (9007199254740992 : ℚ) < 9007199254740992 + 1 ∧
    minBid auctionHigh = 9007199254740992 ∧
    CanPlaceBid auctionHigh 9007199254740992 200 = Except.ok () ∧
    (Legacy.PlaceBid legacyDBHigh 1 8 9007199254740992 false 200 200 200 42).1 =
      Except.ok { ID := 42, AuctionID := 1, UserID := 8, Amount := 9007199254740992,
                  IsAutoBid := false, IsWinning := true, BidTime := 200 } ∧
    (Legacy.PlaceBid legacyDBHigh 1 8 9007199254740992 false 200 200 200 42).2.bids.map
      (fun b => (b.UserID, b.Amount)) = [(7, 9007199254740992), (8, 9007199254740992)] := by
  have hmin2 : minBid auctionS2 = 21 := Float64_add_20_1
  have hmin : minBid auctionHigh = 9007199254740992 := Float64_add_absorbed
  refine ⟨?_, ?_, rfl, by decide, rfl, by norm_num, hmin, ?_, ?_, ?_⟩
  · rw [CanPlaceBid_live auctionS2 20 200 rfl (by decide), hmin2, if_pos (by norm_num)]
  · rw [CanPlaceBid_live auctionS2 21 200 rfl (by decide), hmin2, if_neg (by norm_num)]
  · rw [CanPlaceBid_live auctionHigh 9007199254740992 200 rfl (by decide), hmin,
      if_neg (lt_irrefl _)]
  · norm_num [Legacy.PlaceBid, legacyDBHigh, Legacy.Begin, Legacy.Tx.Rollback,
      Legacy.Tx.Commit, Legacy.Tx.updateAuction, Float64_add_absorbed]
  · norm_num [Legacy.PlaceBid, legacyDBHigh, Legacy.Begin, Legacy.Tx.Rollback,
      Legacy.Tx.Commit, Legacy.Tx.updateAuction, Float64_add_absorbed]

/-- C2 evaluated on the code. Two `Auction.PlaceBid` calls made one after the other on
the auction of S1, each of 9007199254740992 (`2^53`), by users 7 and 8: both are
accepted, so the bid accepted later has the same amount as the one accepted earlier,
not a greater one. The older `Service.PlaceBid` does the same on its database: after
the two calls the table holds two bids of equal amount. -/
theorem C2_equal_amounts_accepted :
    (acceptedBids auctionS1 callsEqual).map (fun b => (b.ID, b.UserID, b.Amount)) =
      [(41, 7, 9007199254740992), (42, 8, 9007199254740992)] ∧
    ¬ List.Pairwise (fun earlier later : Bid => earlier.Amount < later.Amount)
        (acceptedBids auctionS1 callsEqual) ∧
    (Legacy.PlaceBid legacyDBS4 1 7 9007199254740992 false 100 100 100 41).1 =
      Except.ok { ID := 41, AuctionID := 1, UserID := 7, Amount := 9007199254740992,
                  IsAutoBid := false, IsWinning := true, BidTime := 100 } ∧
    (Legacy.PlaceBid
        (Legacy.PlaceBid legacyDBS4 1 7 9007199254740992 false 100 100 100 41).2
        1 8 9007199254740992 false 200 200 200 42).1 =
      Except.ok { ID := 42, AuctionID := 1, UserID := 8, Amount := 9007199254740992,
                  IsAutoBid := false, IsWinning := true, BidTime := 200 } := by
  have hacc : acceptedBids auctionS1 callsEqual =
      [{ ID := 41, AuctionID := 1, UserID := 7, Amount := 9007199254740992,
         IsAutoBid := false, IsWinning := true, BidTime := 100 },
       { ID := 42, AuctionID := 1, UserID := 8, Amount := 9007199254740992,
         IsAutoBid := false, IsWinning := true, BidTime := 200 }] := by
    decide!
  rw [hacc]
  refine ⟨rfl, ?_, by decide!, by decide!⟩
  simp

/-- The auction of S1 accepts 10.00 at any instant up to its end time. -/
theorem CanPlaceBid_auctionS1 (now : Time) (h : now ≤ 1000000000000) :
    CanPlaceBid auctionS1 10 now = Except.ok () := by
  have h1 : ¬ auctionS1.EndTime < now := not_lt.mpr h
  rw [CanPlaceBid_live auctionS1 10 now rfl h1]
  norm_num [minBid, auctionS1]

/-- Counterexample to C3 as stated: on the live auction of S1 a bid of 10.00 placed
at the instant `now` equal to the end time is accepted, not rejected as ended. -/
theorem C3_counterexample :
    auctionS1.Status = StatusLive ∧ auctionS1.EndTime ≤ 1000000000000 ∧
    (PlaceBid auctionS1 7 10 1000000000000 42 1000000000000).1 =
      Except.ok { ID := 42, AuctionID := 1, UserID := 7, Amount := 10,
                  IsAutoBid := false, IsWinning := true, BidTime := 1000000000000 } := by
  refine ⟨rfl, by decide, ?_⟩
  rw [PlaceBid_of_ok auctionS1 7 10 1000000000000 42 1000000000000
    (CanPlaceBid_auctionS1 1000000000000 (by decide))]
  rfl

/-- C3, amended. On a live auction, at every time `now` strictly after the end time,
`PlaceBid` rejects the bid with "auction has ended", whatever the amount, and
returns no bid. -/
theorem C3_rejects_after_end (a : Auction) (bidderID : UUID) (amount : ℚ) (now : Time)
    (newID : UUID) (clock : Time)
    (hlive : a.Status = StatusLive) (hnow : a.EndTime < now) :
    (PlaceBid a bidderID amount now newID clock).1 = Except.error "auction has ended" := by
  have hc : CanPlaceBid a amount now = Except.error "auction has ended" := by
    simp [CanPlaceBid, hlive, hnow]
  rw [PlaceBid_of_error a bidderID amount now newID clock _ hc]

/-- Witness of the amended C3: one nanosecond after the end of the auction of S1. -/
theorem C3_rejects_after_end_witness :
    auctionS1.Status = StatusLive ∧ auctionS1.EndTime < 1000000000001 ∧
    (PlaceBid auctionS1 7 10 1000000000001 42 1000000000001).1 =
      Except.error "auction has ended" :=
  ⟨rfl, by decide,
   C3_rejects_after_end auctionS1 7 10 1000000000001 42 1000000000001 rfl (by decide)⟩

/-- Scenario S3 evaluated: on the auction of S1 (end time `T`, auto-extend on,
extend time 300 s) a bid of 10.00 two minutes before `T` is accepted. -/
theorem PlaceBid_auctionS1_S3 :
    (PlaceBid auctionS1 7 10 880000000000 42 880000000000).1 =
      Except.ok { ID := 42, AuctionID := 1, UserID := 7, Amount := 10,
                  IsAutoBid := false, IsWinning := true, BidTime := 880000000000 } := by
  rw [PlaceBid_of_ok auctionS1 7 10 880000000000 42 880000000000
    (CanPlaceBid_auctionS1 880000000000 (by decide))]
  rfl

/-- Counterexample to C6 as stated: on the auction of S1 (end time `T` = 1000 s,
auto-extend on) a bid is accepted at `now = T - 5 min - 1 ns`, so that
`end_time - now` is greater than the window of 5 minutes, while the wall clock read by
`time.Until` a nanosecond later shows `T - 5 min`; the end time is extended to 1300 s,
not left unchanged. -/
theorem C6_counterexample :
    (PlaceBid auctionS1 7 10 699999999999 42 700000000000).1 =
      Except.ok { ID := 42, AuctionID := 1, UserID := 7, Amount := 10,
                  IsAutoBid := false, IsWinning := true, BidTime := 699999999999 } ∧
    auctionS1.AutoExtend = true ∧
    5 * Minute < auctionS1.EndTime - 699999999999 ∧
    (PlaceBid auctionS1 7 10 699999999999 42 700000000000).2.EndTime = 1300000000000 ∧
    (PlaceBid auctionS1 7 10 699999999999 42 700000000000).2.EndTime ≠ auctionS1.EndTime := by
  rw [PlaceBid_of_ok auctionS1 7 10 699999999999 42 700000000000
    (CanPlaceBid_auctionS1 699999999999 (by decide))]
  have hx : auctionS1.AutoExtend = true ∧ auctionS1.EndTime - 700000000000 ≤ 5 * Minute := by
    decide
  rw [if_pos hx]
  refine ⟨rfl, rfl, by decide, ?_, ?_⟩
  · decide
  · decide

/-- C6, amended. Soft-close extension. For a bid accepted by `Auction.PlaceBid(bidder,
amount, now)`, with `clock` the instant the wall clock shows when `time.Until` is
evaluated: with auto-extend set and `end_time - clock ≤ 5 minutes` the end time after
the call is the old end time plus the auction's extend time; with auto-extend set and
`end_time - clock > 5 minutes`, or with auto-extend off, the end time is unchanged. When
the wall clock is not behind `now`, `end_time - now ≤ 5 minutes` is enough for the
extension. -/
theorem C6_soft_close_extension (a : Auction) (bidderID : UUID) (amount : ℚ) (now : Time)
    (newID : UUID) (clock : Time) (bid : Bid)
    (hacc : (PlaceBid a bidderID amount now newID clock).1 = Except.ok bid) :
    (a.AutoExtend = true → a.EndTime - clock ≤ 5 * Minute →
      (PlaceBid a bidderID amount now newID clock).2.EndTime = a.EndTime + a.ExtendTime) ∧
    (a.AutoExtend = true → 5 * Minute < a.EndTime - clock →
      (PlaceBid a bidderID amount now newID clock).2.EndTime = a.EndTime) ∧
    (a.AutoExtend = false →
      (PlaceBid a bidderID amount now newID clock).2.EndTime = a.EndTime) ∧
    (now ≤ clock → a.AutoExtend = true → a.EndTime - now ≤ 5 * Minute →
      (PlaceBid a bidderID amount now newID clock).2.EndTime = a.EndTime + a.ExtendTime) := by
  have hc := CanPlaceBid_of_PlaceBid_ok a bidderID amount now newID clock bid hacc
  rw [PlaceBid_of_ok a bidderID amount now newID clock hc]
  refine ⟨?_, ?_, ?_, ?_⟩
  · intro h1 h2
    rw [if_pos ⟨h1, h2⟩]
  · intro _ h2
    rw [if_neg (fun h => absurd h.2 (not_le.mpr h2))]
  · intro h1
    rw [if_neg (fun h => by rw [h1] at h; exact Bool.false_ne_true h.1)]
  · intro h0 h1 h2
    have h3 : a.EndTime - clock ≤ 5 * Minute := le_trans (by linarith) h2
    rw [if_pos ⟨h1, h3⟩]

/-- Scenario S3 with the wall clock of `time.Until` read half a microsecond after
`now`: the bid two minutes before the end is accepted. -/
theorem PlaceBid_auctionS1_S3_later :
    (PlaceBid auctionS1 7 10 880000000000 42 880000000500).1 =
      Except.ok { ID := 42, AuctionID := 1, UserID := 7, Amount := 10,
                  IsAutoBid := false, IsWinning := true, BidTime := 880000000000 } := by
  rw [PlaceBid_of_ok auctionS1 7 10 880000000000 42 880000000500
    (CanPlaceBid_auctionS1 880000000000 (by decide))]
  rfl

/-- Witness of the amended C6: scenario S3, the bid two minutes before the end is
accepted, the wall clock is read half a microsecond later, and the end time moves
from 1000 s to 1300 s. -/
theorem C6_soft_close_extension_witness :
    (PlaceBid auctionS1 7 10 880000000000 42 880000000500).1 =
      Except.ok { ID := 42, AuctionID := 1, UserID := 7, Amount := 10,
                  IsAutoBid := false, IsWinning := true, BidTime := 880000000000 } ∧
    auctionS1.AutoExtend = true ∧ auctionS1.EndTime - 880000000500 ≤ 5 * Minute ∧
    (PlaceBid auctionS1 7 10 880000000000 42 880000000500).2.EndTime =
      auctionS1.EndTime + auctionS1.ExtendTime :=
  ⟨PlaceBid_auctionS1_S3_later, rfl, by decide,
   (C6_soft_close_extension auctionS1 7 10 880000000000 42 880000000500 _
      PlaceBid_auctionS1_S3_later).1 rfl (by decide)⟩

/-- The auction with the negative extend time accepts 10.00 up to its end time. -/
theorem CanPlaceBid_auctionNegExtend (now : Time) (h : now ≤ 1000000000000) :
    CanPlaceBid auctionNegExtend 10 now = Except.ok () := by
  have h1 : ¬ auctionNegExtend.EndTime < now := not_lt.mpr h
  rw [CanPlaceBid_live auctionNegExtend 10 now rfl h1]
  norm_num [minBid, auctionNegExtend, auctionS1]

/-- Counterexample to C8 as stated: on a live auction whose extend time is negative
(minus one minute) a bid accepted two minutes before the end moves the end time from
1000 s back to 940 s. -/
theorem C8_counterexample :
    auctionNegExtend.Status = StatusLive ∧
    (PlaceBid auctionNegExtend 7 10 880000000000 42 880000000000).1 =
      Except.ok { ID := 42, AuctionID := 1, UserID := 7, Amount := 10,
                  IsAutoBid := false, IsWinning := true, BidTime := 880000000000 } ∧
    auctionNegExtend.EndTime = 1000000000000 ∧
    (PlaceBid auctionNegExtend 7 10 880000000000 42 880000000000).2.EndTime =
      940000000000 ∧
    (PlaceBid auctionNegExtend 7 10 880000000000 42 880000000000).2.EndTime <
      auctionNegExtend.EndTime := by
  rw [PlaceBid_of_ok auctionNegExtend 7 10 880000000000 42 880000000000
    (CanPlaceBid_auctionNegExtend 880000000000 (by decide))]
  have hx : auctionNegExtend.AutoExtend = true ∧
      auctionNegExtend.EndTime - 880000000000 ≤ 5 * Minute := by decide
  rw [if_pos hx]
  refine ⟨rfl, rfl, rfl, ?_, ?_⟩
  · decide
  · decide

/-- C8, amended. Soft-close monotonicity: for every auction whose extend time is not
negative and every accepted `Auction.PlaceBid` (accepted bids are on live auctions),
the end time after the call is not earlier than the end time before it, whatever
the wall clock shows. -/
theorem C8_end_time_nondecreasing (a : Auction) (bidderID : UUID) (amount : ℚ)
    (now : Time) (newID : UUID) (clock : Time) (bid : Bid)
    (hext : 0 ≤ a.ExtendTime)
    (hacc : (PlaceBid a bidderID amount now newID clock).1 = Except.ok bid) :
    a.Status = StatusLive ∧
    a.EndTime ≤ (PlaceBid a bidderID amount now newID clock).2.EndTime := by
  have hc := CanPlaceBid_of_PlaceBid_ok a bidderID amount now newID clock bid hacc
  have hlive : a.Status = StatusLive := by
    by_contra hne
    simp [CanPlaceBid, hne] at hc
  refine ⟨hlive, ?_⟩
  rw [PlaceBid_of_ok a bidderID amount now newID clock hc]
  by_cases hx : a.AutoExtend = true ∧ a.EndTime - clock ≤ 5 * Minute
  · rw [if_pos hx]
    show a.EndTime ≤ a.EndTime + a.ExtendTime
    linarith
  · rw [if_neg hx]

/-- Witness of the amended C8: scenario S3, where the end time moves from 1000 s
to 1300 s. -/
theorem C8_end_time_nondecreasing_witness :
    0 ≤ auctionS1.ExtendTime ∧
    (PlaceBid auctionS1 7 10 880000000000 42 880000000000).1 =
      Except.ok { ID := 42, AuctionID := 1, UserID := 7, Amount := 10,
                  IsAutoBid := false, IsWinning := true, BidTime := 880000000000 } ∧
    auctionS1.Status = StatusLive ∧
    auctionS1.EndTime ≤ (PlaceBid auctionS1 7 10 880000000000 42 880000000000).2.EndTime :=
  ⟨by decide, PlaceBid_auctionS1_S3,
   C8_end_time_nondecreasing auctionS1 7 10 880000000000 42 880000000000 _ (by decide)
     PlaceBid_auctionS1_S3⟩

/-- C10. Every accepted `Auction.PlaceBid(bidder, amount, now)` returns a bid for this
auction carrying that bidder, that amount and bid time `now` with `IsWinning` set,
makes that bid the current bid, and increases the bid count by exactly one, while
status, start price, reserve price and winner are unchanged. -/
theorem C10_accepted_bid_frame (a : Auction) (bidderID : UUID) (amount : ℚ)
    (now : Time) (newID : UUID) (clock : Time) (bid : Bid)
    (hacc : (PlaceBid a bidderID amount now newID clock).1 = Except.ok bid) :
    bid.AuctionID = a.ID ∧ bid.UserID = bidderID ∧ bid.Amount = amount ∧
    bid.BidTime = now ∧ bid.IsWinning = true ∧
    (PlaceBid a bidderID amount now newID clock).2.CurrentBid = some bid ∧
    (PlaceBid a bidderID amount now newID clock).2.BidCount = a.BidCount + 1 ∧
    (PlaceBid a bidderID amount now newID clock).2.Status = a.Status ∧
    (PlaceBid a bidderID amount now newID clock).2.StartPrice = a.StartPrice ∧
    (PlaceBid a bidderID amount now newID clock).2.ReservePrice = a.ReservePrice ∧
    (PlaceBid a bidderID amount now newID clock).2.WinnerID = a.WinnerID := by
  have hc := CanPlaceBid_of_PlaceBid_ok a bidderID amount now newID clock bid hacc
  rw [PlaceBid_of_ok a bidderID amount now newID clock hc] at hacc ⊢
  have hb : bid = { ID := newID, AuctionID := a.ID, UserID := bidderID, Amount := amount,
                    IsAutoBid := false, IsWinning := true, BidTime := now } := by
    injection hacc with h
    exact h.symm
  subst hb
  by_cases hx : a.AutoExtend = true ∧ a.EndTime - clock ≤ 5 * Minute
  · rw [if_pos hx]
    exact ⟨rfl, rfl, rfl, rfl, rfl, rfl, rfl, rfl, rfl, rfl, rfl⟩
  · rw [if_neg hx]
    exact ⟨rfl, rfl, rfl, rfl, rfl, rfl, rfl, rfl, rfl, rfl, rfl⟩

/-- Witness of C10: the accepted bid of scenario S3. -/
theorem C10_accepted_bid_frame_witness :
    (PlaceBid auctionS1 7 10 880000000000 42 880000000000).1 =
      Except.ok { ID := 42, AuctionID := 1, UserID := 7, Amount := 10,
                  IsAutoBid := false, IsWinning := true, BidTime := 880000000000 } ∧
    (PlaceBid auctionS1 7 10 880000000000 42 880000000000).2.CurrentBid =
      some { ID := 42, AuctionID := 1, UserID := 7, Amount := 10,
             IsAutoBid := false, IsWinning := true, BidTime := 880000000000 } ∧
    (PlaceBid auctionS1 7 10 880000000000 42 880000000000).2.BidCount =
      auctionS1.BidCount + 1 :=
  ⟨PlaceBid_auctionS1_S3,
   (C10_accepted_bid_frame auctionS1 7 10 880000000000 42 880000000000 _
      PlaceBid_auctionS1_S3).2.2.2.2.2.1,
   (C10_accepted_bid_frame auctionS1 7 10 880000000000 42 880000000000 _
      PlaceBid_auctionS1_S3).2.2.2.2.2.2.1⟩

/-- Every auction `Service.CreateAuction` returns has auto-extend on and an extend
time of 300 nanoseconds, which `toAuctionModel` stores as 0 seconds. -/
theorem CreateAuction_extend_time (req : CreateAuctionRequest) (clock : Time)
    (newID roomID : UUID) (gormCreate : AuctionModel → Except String AuctionModel)
    (a : Auction)
    (h : Service.CreateAuction req clock newID roomID gormCreate = Except.ok a) :
    a.AutoExtend = true ∧ a.ExtendTime = 300 ∧ (toAuctionModel a).ExtendTime = 0 := by
  unfold Service.CreateAuction at h
  split_ifs at h with h1 h2
  simp only [AuctionRepository.Create] at h
  split at h
  · cases h
  · rename_i a1 heq
    split at heq
    · cases heq
    · injection heq with heq
      injection h with h
      subst h
      subst heq
      refine ⟨rfl, rfl, ?_⟩
      show secondsInt 300 = 0
      decide

/-- C7 evaluated on the code. `Service.CreateAuction` accepts the request and returns
an auction with auto-extend on whose `ExtendTime` is 300 nanoseconds, not the
300 seconds (5 minutes) of the claim, and `toAuctionModel` turns it into a row whose
`extend_time` is 0, not 300. -/
theorem C7_extend_time_is_300ns :
    (Service.CreateAuction requestA7 1000000000000 5 6 gormCreateOk).map
        (fun a => (a.AutoExtend, a.ExtendTime, (toAuctionModel a).ExtendTime)) =
      Except.ok (true, 300, 0) ∧
    (300 : Duration) ≠ 300 * Second ∧ (300 * Second : Duration) = 5 * Minute ∧
    (0 : Int) ≠ 300 := by
  refine ⟨?_, by decide, by decide, by decide⟩
  unfold Service.CreateAuction
  rw [if_neg (by decide), if_neg (by decide)]
  rfl

/-- The rows `AddBid` leaves winning for the bid's auction: the inserted bid, and
the earlier winning rows of the same bidder. -/
theorem winningCount_AddBid (bids : List BidModel) (bid : Bid)
    (hwin : bid.IsWinning = true) :
    winningCount (AuctionRepository.AddBid bids bid none none).2 bid.AuctionID =
      (bids.filter (fun b => b.AuctionID = bid.AuctionID ∧ b.IsWinning = true ∧
        b.UserID = bid.UserID)).length + 1 := by
  simp only [AuctionRepository.AddBid, winningCount, List.map_append, List.filter_append,
    List.length_append, List.map_cons, List.map_nil]
  congr 1
  · rw [List.filter_map, List.length_map]
    congr 1
    apply List.filter_congr
    intro r _
    by_cases h1 : r.AuctionID = bid.AuctionID
    · by_cases h2 : r.IsWinning = true
      · by_cases h3 : r.UserID = bid.UserID
        · simp [clearWinning, h1, h2, h3]
        · simp [clearWinning, h1, h2, h3]
      · simp [clearWinning, h1, h2]
    · simp [clearWinning, h1]
  · simp [clearWinning, toBidModel, hwin]

/-- Counterexample to C9 as stated: the table holds one winning bid, Carol's 20.00;
`AddBid` of Carol's own 25.00 succeeds and leaves two winning bids on the auction. -/
theorem C9_counterexample :
    winningCount bidsS2 1 ≤ 1 ∧ bidCarol25.IsWinning = true ∧ bidCarol25.AuctionID = 1 ∧
    (AuctionRepository.AddBid bidsS2 bidCarol25 none none).1 = Except.ok () ∧
    winningCount (AuctionRepository.AddBid bidsS2 bidCarol25 none none).2 1 = 2 := by
  refine ⟨by decide, rfl, rfl, rfl, ?_⟩
  exact winningCount_AddBid bidsS2 bidCarol25 rfl

/-- C9, amended. Single winner in flight: for stored bids of an auction of which at
most one is winning, after `AddBid` inserts a new winning bid from a bidder who holds
no winning bid of that auction, exactly one bid of that auction is winning (so at
most one). -/
theorem C9_single_winner (bids : List BidModel) (bid : Bid)
    (_hpre : winningCount bids bid.AuctionID ≤ 1)
    (hwin : bid.IsWinning = true)
    (hother : ∀ b ∈ bids, b.AuctionID = bid.AuctionID → b.IsWinning = true →
      b.UserID ≠ bid.UserID) :
    (AuctionRepository.AddBid bids bid none none).1 = Except.ok () ∧
    winningCount (AuctionRepository.AddBid bids bid none none).2 bid.AuctionID = 1 ∧
    winningCount (AuctionRepository.AddBid bids bid none none).2 bid.AuctionID ≤ 1 := by
  have hcount := winningCount_AddBid bids bid hwin
  have hnone : bids.filter (fun b => b.AuctionID = bid.AuctionID ∧ b.IsWinning = true ∧
      b.UserID = bid.UserID) = [] := by
    rw [List.filter_eq_nil_iff]
    intro b hb hcond
    simp only [decide_eq_true_eq] at hcond
    exact hother b hb hcond.1 hcond.2.1 hcond.2.2
  rw [hnone] at hcount
  exact ⟨rfl, hcount, le_of_eq hcount⟩

/-- Witness of the amended C9: Bob outbids Carol, and Bob's bid alone is winning. -/
theorem C9_single_winner_witness :
    winningCount bidsS2 bidBob21.AuctionID ≤ 1 ∧ bidBob21.IsWinning = true ∧
    (AuctionRepository.AddBid bidsS2 bidBob21 none none).1 = Except.ok () ∧
    winningCount (AuctionRepository.AddBid bidsS2 bidBob21 none none).2
      bidBob21.AuctionID = 1 ∧
    winningCount (AuctionRepository.AddBid bidsS2 bidBob21 none none).2
      bidBob21.AuctionID ≤ 1 :=
  ⟨by decide, rfl,
   C9_single_winner bidsS2 bidBob21 (by decide) rfl (by decide)⟩

/-- C4 evaluated on the code (scenario S4, a bid 10 ms after the end time `T`).
`Auction.PlaceBid` rejects with "auction has ended" and leaves the auction as it
was, status `live`; the older `Service.PlaceBid` rejects with the same reason and,
having rolled back the transaction in which it set the status, leaves the stored
row with status `live` as well. In neither is the status `ended` after the call. -/
theorem C4_status_stays_live :
    auctionS1.Status = StatusLive ∧ auctionS1.EndTime < 1000010000000 ∧
    PlaceBid auctionS1 7 10 1000010000000 42 1000010000000 =
      (Except.error "auction has ended", auctionS1) ∧
    (PlaceBid auctionS1 7 10 1000010000000 42 1000010000000).2.Status = "live" ∧
    (PlaceBid auctionS1 7 10 1000010000000 42 1000010000000).2.Status ≠ StatusEnded ∧
    Legacy.PlaceBid legacyDBS4 1 7 10 false 1000010000000 1000010000000 1000010000000 42 =
      (Except.error Legacy.BidError.ended, legacyDBS4) ∧
    legacyDBS4.auctions.map (fun r => r.Status) = ["live"] := by
  have hc : CanPlaceBid auctionS1 10 1000010000000 = Except.error "auction has ended" := by
    unfold CanPlaceBid
    rw [if_neg (by decide), if_pos (by decide)]
  rw [PlaceBid_of_error auctionS1 7 10 1000010000000 42 1000010000000 _ hc]
  refine ⟨rfl, by decide, rfl, rfl, by decide, ?_, rfl⟩
  rfl

/-- Scenario S2, first step: Carol's 20.00 at instant 100 is accepted on the auction
of S1 and leaves the auction `auctionS2`. -/
theorem PlaceBid_auctionS1_carol20 :
    PlaceBid auctionS1 7 20 100 41 100 = (Except.ok bidCarol20, auctionS2) := by
  have hc : CanPlaceBid auctionS1 20 100 = Except.ok () :=
    CanPlaceBid_accepts auctionS1 20 100 rfl (by decide)
      (by norm_num [minBid, auctionS1])
  rw [PlaceBid_of_ok auctionS1 7 20 100 41 100 hc, if_neg (by decide)]
  rfl

/-- C5 evaluated on the code (scenario S2). Carol's 20.00 is accepted and she holds
the current winning bid; her further bid of 25.00 is then accepted by
`Auction.PlaceBid`, which has no self-outbid test, and the bid count goes from 1 to 2.
The older `Service.PlaceBid` accepts it as well: its test `lastBid.Amount >= amount`
compares her last bid, 20.00, with the new amount, 25.00, and the bid count of the
stored row goes from 1 to 2. -/
theorem C5_self_outbid_accepted :
    PlaceBid auctionS1 7 20 100 41 100 = (Except.ok bidCarol20, auctionS2) ∧
    auctionS2.Status = StatusLive ∧ ¬ auctionS2.EndTime < 200 ∧
    auctionS2.CurrentBid.map (fun b => (b.UserID, b.IsWinning)) = some (7, true) ∧
    auctionS2.BidCount = 1 ∧
    (PlaceBid auctionS2 7 25 200 42 200).1 =
      Except.ok { ID := 42, AuctionID := 1, UserID := 7, Amount := 25,
                  IsAutoBid := false, IsWinning := true, BidTime := 200 } ∧
    (PlaceBid auctionS2 7 25 200 42 200).2.BidCount = 2 ∧
    (Legacy.PlaceBid legacyDBS2 1 7 25 false 200 200 200 42).1 =
      Except.ok { ID := 42, AuctionID := 1, UserID := 7, Amount := 25,
                  IsAutoBid := false, IsWinning := true, BidTime := 200 } ∧
    (Legacy.PlaceBid legacyDBS2 1 7 25 false 200 200 200 42).2.auctions.map
      (fun r => r.BidCount) = [2] := by
  have hc : CanPlaceBid auctionS2 25 200 = Except.ok () :=
    CanPlaceBid_accepts auctionS2 25 200 rfl (by decide)
      (by norm_num [minBid, auctionS2, bidCarol20, Float64_add_20_1])
  rw [PlaceBid_of_ok auctionS2 7 25 200 42 200 hc, if_neg (by decide)]
  refine ⟨PlaceBid_auctionS1_carol20, rfl, by decide, rfl, rfl, rfl, rfl, ?_, ?_⟩
  · norm_num [Legacy.PlaceBid, legacyDBS2, Legacy.Begin, Legacy.Tx.Rollback,
      Legacy.Tx.Commit, Legacy.Tx.updateAuction, Float64_add_20_1]
  · norm_num [Legacy.PlaceBid, legacyDBS2, Legacy.Begin, Legacy.Tx.Rollback,
      Legacy.Tx.Commit, Legacy.Tx.updateAuction, Float64_add_20_1]

/-- When `ShouldBid` proposes a bid, the rule is active, the current amount is below
the rule's maximum, and the proposed amount is the `float64` sum of the current amount
and the increment, cut down to the maximum. -/
theorem ShouldBid_true (ab : AutoBid) (currentBid amt : ℚ)
    (h : ab.ShouldBid currentBid = (true, amt)) :
    ab.IsActive = true ∧ currentBid < ab.MaxAmount ∧
    ((amt = ab.MaxAmount ∧ ab.MaxAmount < Float64.add currentBid ab.BidIncrement) ∨
     (amt = Float64.add currentBid ab.BidIncrement ∧
      Float64.add currentBid ab.BidIncrement ≤ ab.MaxAmount)) := by
  unfold AutoBid.ShouldBid at h
  split_ifs at h with h1 h2 h3
  · cases h
  · cases h
  · injection h with _ h
    refine ⟨by simpa using h1, not_le.mp h2, Or.inl ⟨h.symm, h3⟩⟩
  · injection h with _ h
    refine ⟨by simpa using h1, not_le.mp h2, Or.inr ⟨h.symm, not_lt.mp h3⟩⟩

/-- A bid returned by `Service.PlaceBid` carries the bidder, the amount and the
auto-bid flag of the call, and the call has started `processAutoBids` for that
amount. -/
theorem Service_PlaceBid_ok (db : Store) (auctionID userID : UUID) (amount : ℚ)
    (isAutoBid : Bool) (env : BidEnv) (bid : Bid)
    (h : (Service.PlaceBid db auctionID userID amount isAutoBid env).result = Except.ok bid) :
    bid.Amount = amount ∧ bid.UserID = userID ∧ bid.IsAutoBid = isAutoBid ∧
    (Service.PlaceBid db auctionID userID amount isAutoBid env).spawned =
      some (auctionID, amount) := by
  unfold Service.PlaceBid at h ⊢
  split at h
  · cases h
  · rename_i a hget
    cases hc : CanPlaceBid a amount env.now with
    | error err =>
      rw [PlaceBid_of_error a userID amount env.now env.newID env.clock err hc] at h
      cases h
    | ok u =>
      rw [PlaceBid_of_ok a userID amount env.now env.newID env.clock hc] at h ⊢
      simp only at h ⊢
      split at h
      · cases h
      · rename_i bids1 hadd
        simp only [hadd]
        injection h with h
        subst h
        exact ⟨rfl, rfl, rfl, trivial⟩

/-- What `GetWithBids` returns: "auction not found" when no row has the identifier,
and otherwise the error of the preload, `CurrentBid: unsupported relations for schema
Auction`. -/
theorem GetWithBids_eq (db : Store) (id : UUID) :
    AuctionRepository.GetWithBids db id =
      match db.auctions.find? (fun m => m.ID = id) with
      | none => Except.error (GoError.app (New ErrNotFound "auction not found"))
      | some _ =>
        Except.error (GoError.other "CurrentBid: unsupported relations for schema Auction") := by
  unfold AuctionRepository.GetWithBids gormFirstPreload
  cases db.auctions.find? (fun m => m.ID = id) with
  | none => rfl
  | some model => rfl

/-- `GetWithBids` returns an error, whatever the database holds. -/
theorem GetWithBids_error (db : Store) (id : UUID) :
    ∃ err, AuctionRepository.GetWithBids db id = Except.error err := by
  rw [GetWithBids_eq]
  cases db.auctions.find? (fun m => m.ID = id) with
  | none => exact ⟨_, rfl⟩
  | some model => exact ⟨_, rfl⟩

/-- `Service.PlaceBid` returns the error of `GetWithBids`, writes nothing and starts
no run of `processAutoBids`, whatever the database holds and whatever the bid. -/
theorem Service_PlaceBid_fails (db : Store) (auctionID userID : UUID) (amount : ℚ)
    (isAutoBid : Bool) (env : BidEnv) :
    (∃ err, AuctionRepository.GetWithBids db auctionID = Except.error err ∧
      (Service.PlaceBid db auctionID userID amount isAutoBid env).result = Except.error err) ∧
    (Service.PlaceBid db auctionID userID amount isAutoBid env).store = db ∧
    (Service.PlaceBid db auctionID userID amount isAutoBid env).spawned = none := by
  obtain ⟨err, herr⟩ := GetWithBids_error db auctionID
  unfold Service.PlaceBid
  rw [herr]
  exact ⟨⟨err, rfl, rfl⟩, rfl, rfl⟩

/-- A turn of the loop of `processAutoBids` for a rule that does not bid. -/
theorem processRules_skip (auctionID : UUID) (env : AutoBid → RuleEnv) (autoBid : AutoBid)
    (rest : List AutoBid) (db : Store) (currentBid x : ℚ)
    (h : autoBid.ShouldBid currentBid = (false, x)) :
    processRules auctionID env (autoBid :: rest) db currentBid =
      processRules auctionID env rest db currentBid := by
  rw [processRules, h]

/-- A turn of the loop of `processAutoBids` whose `PlaceBid` call fails. -/
theorem processRules_fail (auctionID : UUID) (env : AutoBid → RuleEnv) (autoBid : AutoBid)
    (rest : List AutoBid) (db : Store) (currentBid bidAmount : ℚ) (err : GoError)
    (h : autoBid.ShouldBid currentBid = (true, bidAmount))
    (hr : (Service.PlaceBid db auctionID autoBid.UserID bidAmount true
            (env autoBid).bid).result = Except.error err) :
    processRules auctionID env (autoBid :: rest) db currentBid =
      processRules auctionID env rest
        (Service.PlaceBid db auctionID autoBid.UserID bidAmount true (env autoBid).bid).store
        currentBid := by
  rw [processRules, h]
  simp only [hr]

/-- A turn of the loop of `processAutoBids` whose `PlaceBid` call returns a bid. -/
theorem processRules_fire (auctionID : UUID) (env : AutoBid → RuleEnv) (autoBid : AutoBid)
    (rest : List AutoBid) (db : Store) (currentBid bidAmount : ℚ) (bid : Bid)
    (h : autoBid.ShouldBid currentBid = (true, bidAmount))
    (hr : (Service.PlaceBid db auctionID autoBid.UserID bidAmount true
            (env autoBid).bid).result = Except.ok bid) :
    processRules auctionID env (autoBid :: rest) db currentBid =
      { store :=
          (processRules auctionID env rest
            (AuctionRepository.UpdateAutoBid
              (Service.PlaceBid db auctionID autoBid.UserID bidAmount true
                (env autoBid).bid).store
              { autoBid with CurrentBid := some bidAmount,
                             LastBidTime := some (env autoBid).stamp }
              (env autoBid).saveErr).2 bidAmount).store,
        placed :=
          { rule := autoBid, before := currentBid, bid := bid } ::
          (processRules auctionID env rest
            (AuctionRepository.UpdateAutoBid
              (Service.PlaceBid db auctionID autoBid.UserID bidAmount true
                (env autoBid).bid).store
              { autoBid with CurrentBid := some bidAmount,
                             LastBidTime := some (env autoBid).stamp }
              (env autoBid).saveErr).2 bidAmount).placed,
        spawned :=
          (Service.PlaceBid db auctionID autoBid.UserID bidAmount true
            (env autoBid).bid).spawned.toList ++
          (processRules auctionID env rest
            (AuctionRepository.UpdateAutoBid
              (Service.PlaceBid db auctionID autoBid.UserID bidAmount true
                (env autoBid).bid).store
              { autoBid with CurrentBid := some bidAmount,
                             LastBidTime := some (env autoBid).stamp }
              (env autoBid).saveErr).2 bidAmount).spawned,
        current :=
          (processRules auctionID env rest
            (AuctionRepository.UpdateAutoBid
              (Service.PlaceBid db auctionID autoBid.UserID bidAmount true
                (env autoBid).bid).store
              { autoBid with CurrentBid := some bidAmount,
                             LastBidTime := some (env autoBid).stamp }
              (env autoBid).saveErr).2 bidAmount).current } := by
  rw [processRules, h]
  simp only [hr]

/-- The three ways a turn of the loop of `processAutoBids` can go, as an induction
principle for facts about the proxy bids placed. -/
theorem processRules_induction (auctionID : UUID) (env : AutoBid → RuleEnv)
    (P : List AutoBid → ℚ → PassResult → Prop)
    (hnil : ∀ db cur, P [] cur { store := db, placed := [], spawned := [], current := cur })
    (hskip : ∀ ab rest cur res, (∃ x, ab.ShouldBid cur = (false, x)) →
      P rest cur res → P (ab :: rest) cur res)
    (hfail : ∀ ab rest cur amt res, ab.ShouldBid cur = (true, amt) →
      P rest cur res → P (ab :: rest) cur res)
    (hfire : ∀ ab rest cur amt bid tail (spawn : Option (UUID × ℚ)),
      ab.ShouldBid cur = (true, amt) →
      bid.Amount = amt → bid.UserID = ab.UserID → bid.IsAutoBid = true →
      spawn = some (auctionID, amt) →
      P rest amt tail →
      P (ab :: rest) cur
        { store := tail.store,
          placed := { rule := ab, before := cur, bid := bid } :: tail.placed,
          spawned := spawn.toList ++ tail.spawned,
          current := tail.current }) :
    ∀ (rules : List AutoBid) (db : Store) (cur : ℚ),
      P rules cur (processRules auctionID env rules db cur) := by
  intro rules
  induction rules with
  | nil => intro db cur; exact hnil db cur
  | cons ab rest ih =>
    intro db cur
    rcases hs : ab.ShouldBid cur with ⟨should, amt⟩
    cases should with
    | false =>
      rw [processRules_skip auctionID env ab rest db cur amt hs]
      exact hskip ab rest cur _ ⟨amt, hs⟩ (ih db cur)
    | true =>
      cases hr : (Service.PlaceBid db auctionID ab.UserID amt true (env ab).bid).result with
      | error err =>
        rw [processRules_fail auctionID env ab rest db cur amt err hs hr]
        exact hfail ab rest cur amt _ hs (ih _ cur)
      | ok bid =>
        rw [processRules_fire auctionID env ab rest db cur amt bid hs hr]
        have hb := Service_PlaceBid_ok db auctionID ab.UserID amt true (env ab).bid bid hr
        exact hfire ab rest cur amt bid _ _ hs hb.1 hb.2.1 hb.2.2.1 hb.2.2.2 (ih _ amt)

/-- Every proxy bid placed by the loop of `processAutoBids` is for a rule of the
list, at the amount `ShouldBid` proposed for the running amount, in the name of the
rule's owner and flagged as an auto-bid. -/
theorem processRules_placed (auctionID : UUID) (env : AutoBid → RuleEnv)
    (rules : List AutoBid) (db : Store) (cur : ℚ) :
    ∀ f ∈ (processRules auctionID env rules db cur).placed,
      f.rule ∈ rules ∧ f.rule.ShouldBid f.before = (true, f.bid.Amount) ∧
      f.bid.UserID = f.rule.UserID ∧ f.bid.IsAutoBid = true := by
  refine processRules_induction auctionID env
    (fun rules _ res => ∀ f ∈ res.placed,
      f.rule ∈ rules ∧ f.rule.ShouldBid f.before = (true, f.bid.Amount) ∧
      f.bid.UserID = f.rule.UserID ∧ f.bid.IsAutoBid = true)
    ?_ ?_ ?_ ?_ rules db cur
  · intro _ _ f hf
    simp at hf
  · intro ab rest _ res _ ih f hf
    obtain ⟨h1, h2⟩ := ih f hf
    exact ⟨List.mem_cons_of_mem _ h1, h2⟩
  · intro ab rest _ _ res _ ih f hf
    obtain ⟨h1, h2⟩ := ih f hf
    exact ⟨List.mem_cons_of_mem _ h1, h2⟩
  · intro ab rest cur amt bid tail spawn hs hamt huser hauto _ ih f hf
    simp only [List.mem_cons] at hf
    rcases hf with hf | hf
    · subst hf
      refine ⟨List.mem_cons_self _ _, ?_, huser, hauto⟩
      show ab.ShouldBid cur = (true, bid.Amount)
      rw [hamt]; exact hs
    · obtain ⟨h1, h2⟩ := ih f hf
      exact ⟨List.mem_cons_of_mem _ h1, h2⟩

/-- Every proxy bid placed by `processAutoBids` is for an active rule of the auction,
at the amount `ShouldBid` proposed for the running amount, in the name of the rule's
owner and flagged as an auto-bid. -/
theorem processAutoBids_placed (db : Store) (auctionID : UUID) (currentBid : ℚ)
    (listErr : Option String) (env : AutoBid → RuleEnv) :
    ∀ f ∈ (Service.processAutoBids db auctionID currentBid listErr env).placed,
      f.rule ∈ AuctionRepository.GetActiveAutoBids db auctionID ∧
      f.rule.ShouldBid f.before = (true, f.bid.Amount) ∧
      f.bid.UserID = f.rule.UserID ∧ f.bid.IsAutoBid = true := by
  intro f hf
  unfold Service.processAutoBids at hf
  cases listErr with
  | some err => simp at hf
  | none => exact processRules_placed auctionID env _ db currentBid f hf

/-- C11. Auto-bid cap: whenever `AutoBid.ShouldBid` proposes a bid for a rule, at any
current amount, the proposed amount is at most the rule's maximum; and every proxy
bid `processAutoBids` places for a rule has an amount of at most that rule's
maximum. -/
theorem C11_auto_bid_cap (db : Store) (auctionID : UUID) (currentBid : ℚ)
    (listErr : Option String) (env : AutoBid → RuleEnv) :
    (∀ (R : AutoBid) (current amt : ℚ),
      R.ShouldBid current = (true, amt) → amt ≤ R.MaxAmount) ∧
    (∀ f ∈ (Service.processAutoBids db auctionID currentBid listErr env).placed,
      f.bid.Amount ≤ f.rule.MaxAmount) := by
  have hcap : ∀ (R : AutoBid) (current amt : ℚ),
      R.ShouldBid current = (true, amt) → amt ≤ R.MaxAmount := by
    intro R current amt h
    obtain ⟨_, _, h3⟩ := ShouldBid_true R current amt h
    rcases h3 with ⟨h3, _⟩ | ⟨h3, h4⟩
    · exact le_of_eq h3
    · rw [h3]; exact h4
  refine ⟨hcap, ?_⟩
  intro f hf
  exact hcap f.rule f.before f.bid.Amount
    (processAutoBids_placed db auctionID currentBid listErr env f hf).2.1

/-- Witness of C11 on the rules of scenario S5: `ShouldBid` proposes 8.00 for Eve's
rule at 6.00, below her maximum of 30, and for Frank's rule at 19.00 it proposes his
maximum, 20.00, not 21.00. -/
theorem C11_auto_bid_cap_witness :
    ruleEve.ShouldBid 6 = (true, 8) ∧ (8 : ℚ) ≤ ruleEve.MaxAmount ∧
    ruleFrank.ShouldBid 19 = (true, 20) ∧ (20 : ℚ) ≤ ruleFrank.MaxAmount ∧
    (∀ f ∈ (Service.processAutoBids storeS5 5 6 none (envsPass 0)).placed,
      f.bid.Amount ≤ f.rule.MaxAmount) :=
  ⟨by decide!,
   (C11_auto_bid_cap storeS5 5 6 none (envsPass 0)).1 ruleEve 6 8 (by decide!),
   by decide!,
   (C11_auto_bid_cap storeS5 5 6 none (envsPass 0)).1 ruleFrank 19 20 (by decide!),
   (C11_auto_bid_cap storeS5 5 6 none (envsPass 0)).2⟩

/-- The loop of `processAutoBids` places no proxy bid, starts no run and leaves the
database and the running amount as they were: every `PlaceBid` call it makes fails in
`GetWithBids`. -/
theorem processRules_nothing (auctionID : UUID) (env : AutoBid → RuleEnv)
    (rules : List AutoBid) (db : Store) (cur : ℚ) :
    processRules auctionID env rules db cur =
      { store := db, placed := [], spawned := [], current := cur } := by
  induction rules with
  | nil => rfl
  | cons ab rest ih =>
    rcases hs : ab.ShouldBid cur with ⟨should, amt⟩
    cases should with
    | false => rw [processRules_skip auctionID env ab rest db cur amt hs, ih]
    | true =>
      obtain ⟨⟨err, _, herr⟩, hstore, _⟩ :=
        Service_PlaceBid_fails db auctionID ab.UserID amt true (env ab).bid
      rw [processRules_fail auctionID env ab rest db cur amt err hs herr, hstore, ih]

/-- A run of `Service.processAutoBids` places no proxy bid, starts no run and leaves
the database and the running amount as they were. -/
theorem processAutoBids_nothing (db : Store) (auctionID : UUID) (currentBid : ℚ)
    (listErr : Option String) (env : AutoBid → RuleEnv) :
    Service.processAutoBids db auctionID currentBid listErr env =
      { store := db, placed := [], spawned := [], current := currentBid } := by
  unfold Service.processAutoBids
  cases listErr with
  | some err => rfl
  | none => exact processRules_nothing auctionID env _ db currentBid

/-- C12. In a run of `processAutoBids`, each proxy bid placed strictly increases the
running current amount, and by at least the smallest increment among the active rules
of the auction. With the repository of package `postgres` this holds of every run
because a run places no proxy bid: each `PlaceBid` call fails in `GetWithBids`, and the
running amount stays at the amount the run was started with. -/
theorem C12_proxy_bid_increase (db : Store) (auctionID : UUID) (currentBid : ℚ)
    (listErr : Option String) (env : AutoBid → RuleEnv) :
    (∀ f ∈ (Service.processAutoBids db auctionID currentBid listErr env).placed,
      f.before < f.bid.Amount ∧
      ∀ m ∈ minIncrement (AuctionRepository.GetActiveAutoBids db auctionID),
        f.before + m ≤ f.bid.Amount) ∧
    (Service.processAutoBids db auctionID currentBid listErr env).placed = [] ∧
    (Service.processAutoBids db auctionID currentBid listErr env).current = currentBid := by
  rw [processAutoBids_nothing]
  refine ⟨?_, rfl, rfl⟩
  intro f hf
  cases hf

/-- A bid returned by the older `Service.PlaceBid` carries the bidder, the amount and
the auto-bid flag of the call. -/
theorem Legacy_PlaceBid_ok (db : Legacy.DB) (auctionID userID : UUID) (amount : ℚ)
    (isAutoBid : Bool) (clockEnd clockBid clockExtend : Time) (newID : UUID)
    (bid : Legacy.Bid)
    (h : (Legacy.PlaceBid db auctionID userID amount isAutoBid clockEnd clockBid
            clockExtend newID).1 = Except.ok bid) :
    bid.UserID = userID ∧ bid.Amount = amount ∧ bid.IsAutoBid = isAutoBid := by
  unfold Legacy.PlaceBid at h
  simp only at h
  split at h
  · cases h
  · split_ifs at h
    all_goals
      injection h with h
      subst h
      exact ⟨rfl, rfl, rfl⟩

/-- A turn of the loop of the older `processAutoBids` for a rule whose user
identifier is `uuid.Nil`. -/
theorem Legacy_processRules_nil (auctionID : UUID) (env : Legacy.AutoBid → Legacy.RuleEnv)
    (autoBid : Legacy.AutoBid) (rest : List Legacy.AutoBid) (db : Legacy.DB)
    (table : List Legacy.AutoBid) (cur : ℚ) (hnil : autoBid.UserID = uuid.Nil) :
    Legacy.processRules auctionID env (autoBid :: rest) db table cur =
      Legacy.processRules auctionID env rest db table cur := by
  rw [Legacy.processRules, if_pos hnil]

/-- A turn of the loop of the older `processAutoBids` whose `PlaceBid` call fails. -/
theorem Legacy_processRules_fail (auctionID : UUID) (env : Legacy.AutoBid → Legacy.RuleEnv)
    (autoBid : Legacy.AutoBid) (rest : List Legacy.AutoBid) (db : Legacy.DB)
    (table : List Legacy.AutoBid) (cur : ℚ) (err : Legacy.BidError) (db1 : Legacy.DB)
    (hnil : autoBid.UserID ≠ uuid.Nil)
    (hp : Legacy.PlaceBid db auctionID autoBid.UserID (Legacy.proxyAmount autoBid cur) true
            (env autoBid).clockEnd (env autoBid).clockBid (env autoBid).clockExtend
            (env autoBid).newID = (Except.error err, db1)) :
    Legacy.processRules auctionID env (autoBid :: rest) db table cur =
      Legacy.processRules auctionID env rest db1 table cur := by
  rw [Legacy.processRules, if_neg hnil]
  simp only [hp]

/-- A turn of the loop of the older `processAutoBids` whose `PlaceBid` call returns a
bid: the proxy bid is placed, whoever leads the auction. -/
theorem Legacy_processRules_fire (auctionID : UUID) (env : Legacy.AutoBid → Legacy.RuleEnv)
    (autoBid : Legacy.AutoBid) (rest : List Legacy.AutoBid) (db : Legacy.DB)
    (table : List Legacy.AutoBid) (cur : ℚ) (bid : Legacy.Bid) (db1 : Legacy.DB)
    (hnil : autoBid.UserID ≠ uuid.Nil)
    (hp : Legacy.PlaceBid db auctionID autoBid.UserID (Legacy.proxyAmount autoBid cur) true
            (env autoBid).clockEnd (env autoBid).clockBid (env autoBid).clockExtend
            (env autoBid).newID = (Except.ok bid, db1)) :
    (Legacy.processRules auctionID env (autoBid :: rest) db table cur).placed =
      { rule := autoBid, before := cur, bid := bid } ::
        (Legacy.processRules auctionID env rest db1
          (Legacy.updateAutoBid table autoBid (Legacy.proxyAmount autoBid cur)
            (env autoBid).stamp (env autoBid).saveErr)
          (Legacy.proxyAmount autoBid cur)).placed ∧
    (Legacy.processRules auctionID env (autoBid :: rest) db table cur).db =
      (Legacy.processRules auctionID env rest db1
          (Legacy.updateAutoBid table autoBid (Legacy.proxyAmount autoBid cur)
            (env autoBid).stamp (env autoBid).saveErr)
          (Legacy.proxyAmount autoBid cur)).db ∧
    (Legacy.processRules auctionID env (autoBid :: rest) db table cur).autoBids =
      (Legacy.processRules auctionID env rest db1
          (Legacy.updateAutoBid table autoBid (Legacy.proxyAmount autoBid cur)
            (env autoBid).stamp (env autoBid).saveErr)
          (Legacy.proxyAmount autoBid cur)).autoBids ∧
    (Legacy.processRules auctionID env (autoBid :: rest) db table cur).current =
      (Legacy.processRules auctionID env rest db1
          (Legacy.updateAutoBid table autoBid (Legacy.proxyAmount autoBid cur)
            (env autoBid).stamp (env autoBid).saveErr)
          (Legacy.proxyAmount autoBid cur)).current := by
  rw [Legacy.processRules, if_neg hnil]
  simp only [hp, and_self]

/-- The loop of the older `processAutoBids` over a list of rules cut in two: the
second part runs from the tables and the running amount the first part leaves. -/
theorem Legacy_processRules_append (auctionID : UUID)
    (env : Legacy.AutoBid → Legacy.RuleEnv) (pre rest : List Legacy.AutoBid) :
    ∀ (db : Legacy.DB) (table : List Legacy.AutoBid) (cur : ℚ),
      (Legacy.processRules auctionID env (pre ++ rest) db table cur).placed =
        (Legacy.processRules auctionID env pre db table cur).placed ++
        (Legacy.processRules auctionID env rest
          (Legacy.processRules auctionID env pre db table cur).db
          (Legacy.processRules auctionID env pre db table cur).autoBids
          (Legacy.processRules auctionID env pre db table cur).current).placed := by
  induction pre with
  | nil => intro db table cur; simp [Legacy.processRules]
  | cons ab pre ih =>
    intro db table cur
    by_cases hnil : ab.UserID = uuid.Nil
    · rw [List.cons_append, Legacy_processRules_nil auctionID env ab (pre ++ rest) db table cur hnil,
        Legacy_processRules_nil auctionID env ab pre db table cur hnil]
      exact ih db table cur
    · rcases hp : Legacy.PlaceBid db auctionID ab.UserID (Legacy.proxyAmount ab cur) true
          (env ab).clockEnd (env ab).clockBid (env ab).clockExtend (env ab).newID with
        ⟨res, db1⟩
      cases res with
      | error err =>
        rw [List.cons_append,
          Legacy_processRules_fail auctionID env ab (pre ++ rest) db table cur err db1 hnil hp,
          Legacy_processRules_fail auctionID env ab pre db table cur err db1 hnil hp]
        exact ih db1 table cur
      | ok bid =>
        obtain ⟨h1, _, _, _⟩ :=
          Legacy_processRules_fire auctionID env ab (pre ++ rest) db table cur bid db1 hnil hp
        obtain ⟨g1, g2, g3, g4⟩ :=
          Legacy_processRules_fire auctionID env ab pre db table cur bid db1 hnil hp
        rw [List.cons_append, h1, g1, g2, g3, g4, ih, List.cons_append]

/-- Counterexample to C13 as stated, in the older service: in scenario S5 with Eve
herself placing the 6.00 she leads the auction with the only bid, and the run of
`processAutoBids` started by her bid places a proxy bid of 8.00 for her own rule, in
her name, and then Frank's 10.00. -/
theorem C13_counterexample :
    legacyDBS5Eve6.bids.map (fun b => (b.UserID, b.Amount, b.IsWinning)) = [(11, 6, true)] ∧
    legacyDBS5Eve6.auctions.map (fun a => (a.CurrentBid, a.BidCount)) = [(some 6, 1)] ∧
    (Legacy.processAutoBids legacyDBS5Eve6 legacyRulesS5 5 6 none legacyEnvs).placed.map
        (fun f => (f.rule.UserID, f.before, f.bid.UserID, f.bid.Amount, f.bid.IsAutoBid)) =
      [(11, 6, 11, 8, true), (12, 8, 12, 10, true)] ∧
    (Legacy.processAutoBids legacyDBS5Eve6 legacyRulesS5 5 6 none legacyEnvs).db.bids.map
        (fun b => (b.UserID, b.Amount, b.IsWinning)) =
      [(11, 6, false), (11, 8, false), (12, 10, true)] := by
  decide!

/-- C13, amended. The `processAutoBids` of the application service places no proxy
bid, so none on behalf of the current leader. The older `processAutoBids` does not look
at who leads the auction: it goes through the rules it selected in creation order, and
for a rule whose user identifier is not `uuid.Nil`, if `PlaceBid` accepts the amount
computed for it at the running amount the rules before it have left, the proxy bid is
placed in the name of the rule's owner, who may well be the current leader. -/
theorem C13_no_leader_test (db : Store) (auctionID : UUID) (currentBid : ℚ)
    (listErr : Option String) (env : AutoBid → RuleEnv)
    (ldb : Legacy.DB) (table : List Legacy.AutoBid)
    (lenv : Legacy.AutoBid → Legacy.RuleEnv)
    (pre rest : List Legacy.AutoBid) (autoBid : Legacy.AutoBid) (bid : Legacy.Bid)
    (hrules : Legacy.selectAutoBids table auctionID currentBid = pre ++ autoBid :: rest)
    (hnil : autoBid.UserID ≠ uuid.Nil)
    (hplace : (Legacy.PlaceBid (Legacy.processRules auctionID lenv pre ldb table currentBid).db
      auctionID autoBid.UserID
      (Legacy.proxyAmount autoBid
        (Legacy.processRules auctionID lenv pre ldb table currentBid).current) true
      (lenv autoBid).clockEnd (lenv autoBid).clockBid (lenv autoBid).clockExtend
      (lenv autoBid).newID).1 = Except.ok bid) :
    (Service.processAutoBids db auctionID currentBid listErr env).placed = [] ∧
    { rule := autoBid,
      before := (Legacy.processRules auctionID lenv pre ldb table currentBid).current,
      bid := bid } ∈
      (Legacy.processAutoBids ldb table auctionID currentBid none lenv).placed ∧
    bid.UserID = autoBid.UserID ∧
    bid.Amount = Legacy.proxyAmount autoBid
      (Legacy.processRules auctionID lenv pre ldb table currentBid).current := by
  have hb := Legacy_PlaceBid_ok _ auctionID autoBid.UserID _ true _ _ _ _ bid hplace
  refine ⟨by rw [processAutoBids_nothing], ?_, hb.1, hb.2.1⟩
  rcases hp : Legacy.PlaceBid (Legacy.processRules auctionID lenv pre ldb table currentBid).db
      auctionID autoBid.UserID
      (Legacy.proxyAmount autoBid
        (Legacy.processRules auctionID lenv pre ldb table currentBid).current) true
      (lenv autoBid).clockEnd (lenv autoBid).clockBid (lenv autoBid).clockExtend
      (lenv autoBid).newID with ⟨res, db1⟩
  rw [hp] at hplace
  simp only at hplace
  subst hplace
  unfold Legacy.processAutoBids
  simp only [hrules]
  rw [Legacy_processRules_append auctionID lenv pre (autoBid :: rest) ldb table currentBid,
    (Legacy_processRules_fire auctionID lenv autoBid rest _ _ _ bid db1 hnil hp).1]
  simp

/-- Witness of the amended C13: in the older service Eve leads with her own 6.00 and
her rule, the first of the list, gets its proxy bid of 8.00 placed in her name. -/
theorem C13_no_leader_test_witness :
    legacyDBS5Eve6.bids.map (fun b => (b.UserID, b.Amount, b.IsWinning)) = [(11, 6, true)] ∧
    Legacy.selectAutoBids legacyRulesS5 5 6 = [] ++ legacyRuleEve :: [legacyRuleFrank] ∧
    legacyRuleEve.UserID ≠ uuid.Nil ∧
    ((Service.processAutoBids storeS5 5 6 none (envsPass 0)).placed = [] ∧
     ({ rule := legacyRuleEve,
        before := (Legacy.processRules 5 legacyEnvs [] legacyDBS5Eve6 legacyRulesS5 6).current,
        bid := { ID := 1061, AuctionID := 5, UserID := 11, Amount := 8, IsAutoBid := true,
                 IsWinning := true, BidTime := 200 } } : Legacy.Firing) ∈
       (Legacy.processAutoBids legacyDBS5Eve6 legacyRulesS5 5 6 none legacyEnvs).placed ∧
     (11 : UUID) = legacyRuleEve.UserID ∧
     (8 : ℚ) = Legacy.proxyAmount legacyRuleEve
       (Legacy.processRules 5 legacyEnvs [] legacyDBS5Eve6 legacyRulesS5 6).current) :=
  ⟨by decide!, by decide!, by decide,
   C13_no_leader_test storeS5 5 6 none (envsPass 0) legacyDBS5Eve6 legacyRulesS5 legacyEnvs
     [] [legacyRuleFrank] legacyRuleEve
     { ID := 1061, AuctionID := 5, UserID := 11, Amount := 8, IsAutoBid := true,
       IsWinning := true, BidTime := 200 }
     (by decide!) (by decide) (by decide!)⟩

/-- C14. Cascade termination bound: for any rules on the auction and any triggering
amount, a run of `processAutoBids` places at most
`min(10, ⌈max_max_amount / min_increment⌉)` proxy bids, and the cascade halts: the run
starts no further run, so with the runs made one after the other none is left after
the first. With the repository of package `postgres` the number of proxy bids placed is
0, each `PlaceBid` call failing in `GetWithBids`. -/
theorem C14_cascade_bound (db : Store) (auctionID : UUID) (currentBid : ℚ)
    (listErr : Option String) (env : AutoBid → RuleEnv)
    (envs : Nat → AutoBid → RuleEnv) (fuel pass : Nat) :
    (Service.processAutoBids db auctionID currentBid listErr env).placed.length ≤
      cascadeBound (AuctionRepository.GetActiveAutoBids db auctionID) ∧
    (Service.processAutoBids db auctionID currentBid listErr env).placed.length = 0 ∧
    (Service.processAutoBids db auctionID currentBid listErr env).spawned = [] ∧
    runPasses envs (fuel + 1) pass [(auctionID, currentBid)] db = (db, [], []) := by
  rw [processAutoBids_nothing]
  refine ⟨Nat.zero_le _, rfl, rfl, ?_⟩
  rw [runPasses, processAutoBids_nothing]
  cases fuel with
  | zero => rfl
  | succ n => rfl

/-- C15 evaluated on the code (scenario S5). With auction 5 live at start price 5.00
and the rules of Eve (maximum 30, increment 2) and Frank (maximum 20, increment 2) in
that order, Greg's bid of 6.00 is refused by `Service.PlaceBid` with the error of
`GetWithBids`, `CurrentBid: unsupported relations for schema Auction`: no bid is
written, the auction row keeps bid count 0 and no current bid, and no run of
`processAutoBids` is started. A run made all the same at 6.00 places no proxy bid. The
auction holds 0 bids, not 9, and nobody leads. -/
theorem C15_scenario_S5_refused :
    storeS5.auctions.map (fun a => (a.ID, a.Status, a.StartPrice)) = [(5, "live", 5)] ∧
    (AuctionRepository.GetActiveAutoBids storeS5 5).map
        (fun r => (r.UserID, r.MaxAmount, r.BidIncrement)) = [(11, 30, 2), (12, 20, 2)] ∧
    (Service.PlaceBid storeS5 5 13 6 false envTrigger).result =
      Except.error (GoError.other "CurrentBid: unsupported relations for schema Auction") ∧
    (Service.PlaceBid storeS5 5 13 6 false envTrigger).store = storeS5 ∧
    (Service.PlaceBid storeS5 5 13 6 false envTrigger).spawned = none ∧
    (Service.processAutoBids storeS5 5 6 none (envsPass 0)).placed.length = 0 ∧
    (Service.processAutoBids storeS5 5 6 none (envsPass 0)).store = storeS5 ∧
    (storeS5.bids.filter (fun b => b.AuctionID = 5)).length = 0 ∧
    storeS5.auctions.map (fun a => (a.BidCount, a.CurrentBidID)) = [(0, none)] := by
  rw [processAutoBids_nothing]
  refine ⟨by decide!, by decide!, by decide!, by decide!, by decide!, rfl, rfl, by decide!,
    by decide!⟩

/-- After `Save` the row found under the model's primary key is the model. -/
theorem find_saveAuction (rows : List AuctionModel) (model : AuctionModel) :
    (saveAuction rows model).find? (fun m => m.ID = model.ID) = some model := by
  unfold saveAuction
  split_ifs with h
  · induction rows with
    | nil => simp at h
    | cons r rs ih =>
      by_cases hr : r.ID = model.ID
      · simp [List.find?, hr]
      · have h2 : rs.any (fun r => decide (r.ID = model.ID)) = true := by
          simpa [hr] using h
        simp only [List.map_cons, if_neg hr]
        rw [List.find?_cons_of_neg _ (by simpa using hr)]
        exact ih h2
  · have hnone : rows.find? (fun m => m.ID = model.ID) = none := by
      rw [List.find?_eq_none]
      intro x hx hxeq
      apply h
      rw [List.any_eq_true]
      exact ⟨x, hx, hxeq⟩
    simp [List.find?_append, hnone]

/-- The row `GetByID` converts has the identifier asked for. -/
theorem find_ID (rows : List AuctionModel) (id : UUID) (row : AuctionModel)
    (h : rows.find? (fun m => m.ID = id) = some row) : row.ID = id := by
  have := List.find?_some h
  simpa using this

/-- C16. Lifecycle state machine. `Service.StartAuction` returns without error only
when the stored auction is `scheduled`, and then the stored row has status `live` and
start time `now`; from any other status it fails and leaves the database as it was.
`Auction.End` on a `live` auction succeeds and sets status `ended` and end time `now`;
from any other status it fails and leaves the auction as it was. -/
theorem C16_lifecycle (db : Store) (auctionID : UUID) (now : Time)
    (saveErr : Option String) (a : Auction) :
    ((Service.StartAuction db auctionID now saveErr).1 = Except.ok () →
      (∃ row, db.auctions.find? (fun m => m.ID = auctionID) = some row ∧
        row.Status = StatusScheduled) ∧
      (∃ row, (Service.StartAuction db auctionID now saveErr).2.auctions.find?
          (fun m => m.ID = auctionID) = some row ∧
        row.Status = StatusLive ∧ row.StartTime = now)) ∧
    (∀ row, db.auctions.find? (fun m => m.ID = auctionID) = some row →
      row.Status ≠ StatusScheduled →
      (Service.StartAuction db auctionID now saveErr).1 =
        Except.error (New ErrValidation "auction is not scheduled") ∧
      (Service.StartAuction db auctionID now saveErr).2 = db) ∧
    (∀ row, db.auctions.find? (fun m => m.ID = auctionID) = some row →
      row.Status = StatusScheduled → saveErr = none →
      (Service.StartAuction db auctionID now saveErr).1 = Except.ok ()) ∧
    (a.Status = StatusLive →
      (a.End now).1 = Except.ok () ∧ (a.End now).2.Status = StatusEnded ∧
      (a.End now).2.EndTime = now) ∧
    (a.Status ≠ StatusLive →
      a.End now = (Except.error "auction is not live", a)) := by
  refine ⟨?_, ?_, ?_, ?_, ?_⟩
  · intro h
    unfold Service.StartAuction AuctionRepository.GetByID at h ⊢
    cases hf : db.auctions.find? (fun m => m.ID = auctionID) with
    | none => simp [hf] at h
    | some row =>
      simp only [hf] at h ⊢
      have hid := find_ID db.auctions auctionID row hf
      by_cases hs : (toAuctionDomain row).Status ≠ StatusScheduled
      · rw [if_pos hs] at h; cases h
      · rw [if_neg hs] at h ⊢
        have hs2 : row.Status = StatusScheduled := not_not.mp hs
        refine ⟨⟨row, rfl, hs2⟩, ?_⟩
        cases saveErr with
        | some err => simp [AuctionRepository.Update] at h
        | none =>
          simp only [AuctionRepository.Update]
          have := find_saveAuction db.auctions
            (toAuctionModel { toAuctionDomain row with Status := StatusLive, StartTime := now })
          have hid2 : (toAuctionModel
              { toAuctionDomain row with Status := StatusLive, StartTime := now }).ID =
              auctionID := hid
          rw [hid2] at this
          exact ⟨_, this, rfl, rfl⟩
  · intro row hf hs
    unfold Service.StartAuction AuctionRepository.GetByID
    simp only [hf]
    have hs2 : (toAuctionDomain row).Status ≠ StatusScheduled := hs
    rw [if_pos hs2]
    exact ⟨rfl, rfl⟩
  · intro row hf hs hsave
    unfold Service.StartAuction AuctionRepository.GetByID
    simp only [hf]
    have hs2 : ¬ (toAuctionDomain row).Status ≠ StatusScheduled := not_not.mpr hs
    rw [if_neg hs2, hsave]
    rfl
  · intro hlive
    unfold Auction.End
    rw [if_neg (not_not.mpr hlive)]
    simp only
    split
    · exact ⟨rfl, rfl, rfl⟩
    · split_ifs
      · exact ⟨rfl, rfl, rfl⟩
      · exact ⟨rfl, rfl, rfl⟩
    · exact ⟨rfl, rfl, rfl⟩
  · intro hne
    unfold Auction.End
    rw [if_pos hne]

/-- Witness of C16: the scheduled auction of `storeA7` is started at 2500 s and its
row becomes live with that start time; the live auction of S1 is ended at 900 s. -/
theorem C16_lifecycle_witness :
    (Service.StartAuction storeA7 5 2500000000000 none).1 = Except.ok () ∧
    (∃ row, (Service.StartAuction storeA7 5 2500000000000 none).2.auctions.find?
        (fun m => m.ID = 5) = some row ∧
      row.Status = StatusLive ∧ row.StartTime = 2500000000000) ∧
    (auctionS1.End 900000000000).1 = Except.ok () ∧
    (auctionS1.End 900000000000).2.Status = StatusEnded ∧
    (auctionS1.End 900000000000).2.EndTime = 900000000000 :=
  ⟨by rfl,
   ((C16_lifecycle storeA7 5 2500000000000 none auctionS1).1 (by rfl)).2,
   (C16_lifecycle storeA7 5 900000000000 none auctionS1).2.2.2.1 rfl⟩

/-- C17. Winner selection. When `Auction.End` succeeds (the auction was live), the
winner is set to the bidder of the current bid if a current bid exists and either no
reserve price is set or the current amount reaches the reserve; otherwise (no current
bid, or a current amount below the reserve) the winner is left as it was, so a null
winner stays null. -/
theorem C17_winner_selection (a : Auction) (now : Time) (hlive : a.Status = StatusLive) :
    (a.End now).1 = Except.ok () ∧
    (∀ b, a.CurrentBid = some b →
      (a.ReservePrice = none ∨ ∃ r, a.ReservePrice = some r ∧ r ≤ b.Amount) →
      (a.End now).2.WinnerID = some b.UserID) ∧
    ((a.CurrentBid = none ∨
        ∃ b r, a.CurrentBid = some b ∧ a.ReservePrice = some r ∧ b.Amount < r) →
      (a.End now).2.WinnerID = a.WinnerID ∧
      (a.WinnerID = none → (a.End now).2.WinnerID = none)) := by
  unfold Auction.End
  rw [if_neg (not_not.mpr hlive)]
  simp only
  cases hb : a.CurrentBid with
  | none =>
    refine ⟨rfl, ?_, ?_⟩
    · intro b h; cases h
    · intro _
      exact ⟨rfl, fun h => h⟩
  | some bid =>
    cases hr : a.ReservePrice with
    | none =>
      refine ⟨rfl, ?_, ?_⟩
      · intro b h _
        injection h with h
        subst h
        rfl
      · intro h
        rcases h with h | ⟨b, r, _, h, _⟩
        · cases h
        · cases h
    | some reserve =>
      by_cases hle : reserve ≤ bid.Amount
      · simp only [if_pos hle]
        refine ⟨trivial, ?_, ?_⟩
        · intro b h _
          injection h with h
          subst h
          rfl
        · intro h
          rcases h with h | ⟨b, r, h1, h2, h3⟩
          · cases h
          · injection h1 with h1
            injection h2 with h2
            subst h1
            subst h2
            exact absurd hle (not_le.mpr h3)
      · simp only [if_neg hle]
        refine ⟨trivial, ?_, ?_⟩
        · intro b h hres
          injection h with h
          subst h
          rcases hres with h | ⟨r, h1, h2⟩
          · cases h
          · injection h1 with h1
            subst h1
            exact absurd h2 hle
        · intro _
          exact ⟨trivial, fun h => h⟩

/-- Witness of C17, scenario S6: reserve 100, highest bid 80; `End` succeeds and the
winner stays null. -/
theorem C17_winner_selection_witness :
    auctionS6.Status = StatusLive ∧
    (auctionS6.End 900000000000).1 = Except.ok () ∧
    (auctionS6.End 900000000000).2.Status = StatusEnded ∧
    (auctionS6.End 900000000000).2.WinnerID = none :=
  ⟨rfl, (C17_winner_selection auctionS6 900000000000 rfl).1, by decide!,
   ((C17_winner_selection auctionS6 900000000000 rfl).2.2
      (Or.inr ⟨_, 100, rfl, rfl, by norm_num⟩)).2 rfl⟩

/-- Counterexample to C18 as stated: the scheduled auction of `storeA7` has start
time 2000 s and end time 5000 s; `Service.StartAuction` at 6000 s succeeds and stores
start time 6000 s with the end time still 5000 s. -/
theorem C18_counterexample :
    storeA7.auctions.map (fun m => (m.Status, m.StartTime, m.EndTime)) =
      [("scheduled", 2000000000000, 5000000000000)] ∧
    (Service.StartAuction storeA7 5 6000000000000 none).1 = Except.ok () ∧
    (Service.StartAuction storeA7 5 6000000000000 none).2.auctions.map
        (fun m => (m.Status, m.StartTime, m.EndTime)) =
      [("live", 6000000000000, 5000000000000)] ∧
    ¬ ((6000000000000 : Time) ≤ 5000000000000) := by
  refine ⟨by decide, by rfl, by decide!, by decide⟩

/-- C18, amended. `start_time ≤ end_time` holds for every auction
`Service.CreateAuction` accepts. `Service.StartAuction` keeps it when `now` is not
after the stored end time, `Auction.PlaceBid` keeps it when the extend time is not
negative, and `Auction.End` keeps it when `now` is not before the start time. -/
theorem C18_start_le_end
    (req : CreateAuctionRequest) (clock : Time) (newID roomID : UUID)
    (gormCreate : AuctionModel → Except String AuctionModel) (created : Auction)
    (db : Store) (auctionID : UUID) (now : Time) (saveErr : Option String)
    (a : Auction) (bidderID : UUID) (amount : ℚ) (bidID : UUID) (wallClock : Time) :
    (Service.CreateAuction req clock newID roomID gormCreate = Except.ok created →
      created.StartTime ≤ created.EndTime) ∧
    (∀ row, db.auctions.find? (fun m => m.ID = auctionID) = some row →
      now ≤ row.EndTime →
      (Service.StartAuction db auctionID now saveErr).1 = Except.ok () →
      ∃ row1, (Service.StartAuction db auctionID now saveErr).2.auctions.find?
          (fun m => m.ID = auctionID) = some row1 ∧ row1.StartTime ≤ row1.EndTime) ∧
    (a.StartTime ≤ a.EndTime → 0 ≤ a.ExtendTime →
      (PlaceBid a bidderID amount now bidID wallClock).2.StartTime ≤
        (PlaceBid a bidderID amount now bidID wallClock).2.EndTime) ∧
    (a.StartTime ≤ a.EndTime → a.StartTime ≤ now →
      (a.End now).2.StartTime ≤ (a.End now).2.EndTime) := by
  refine ⟨?_, ?_, ?_, ?_⟩
  · intro h
    unfold Service.CreateAuction at h
    split_ifs at h with h1 h2
    simp only [AuctionRepository.Create] at h
    split at h
    · cases h
    · rename_i a1 heq
      split at heq
      · cases heq
      · injection heq with heq
        injection h with h
        subst h
        subst heq
        exact not_lt.mp h2
  · intro row hf hle hok
    unfold Service.StartAuction AuctionRepository.GetByID at hok ⊢
    simp only [hf] at hok ⊢
    have hid := find_ID db.auctions auctionID row hf
    by_cases hs : (toAuctionDomain row).Status ≠ StatusScheduled
    · rw [if_pos hs] at hok; cases hok
    · rw [if_neg hs] at hok ⊢
      cases saveErr with
      | some err => simp [AuctionRepository.Update] at hok
      | none =>
        simp only [AuctionRepository.Update]
        have := find_saveAuction db.auctions
          (toAuctionModel { toAuctionDomain row with Status := StatusLive, StartTime := now })
        have hid2 : (toAuctionModel
            { toAuctionDomain row with Status := StatusLive, StartTime := now }).ID =
            auctionID := hid
        rw [hid2] at this
        exact ⟨_, this, hle⟩
  · intro hle hext
    cases hc : CanPlaceBid a amount now with
    | error err =>
      rw [PlaceBid_of_error a bidderID amount now bidID wallClock err hc]
      exact hle
    | ok u =>
      rw [PlaceBid_of_ok a bidderID amount now bidID wallClock hc]
      by_cases hx : a.AutoExtend = true ∧ a.EndTime - wallClock ≤ 5 * Minute
      · rw [if_pos hx]
        show a.StartTime ≤ a.EndTime + a.ExtendTime
        linarith
      · rw [if_neg hx]
        exact hle
  · intro hle hnow
    unfold Auction.End
    by_cases hs : a.Status ≠ StatusLive
    · rw [if_pos hs]
      exact hle
    · rw [if_neg hs]
      simp only
      split
      · exact hnow
      · split_ifs
        · exact hnow
        · exact hnow
      · exact hnow

/-- Witness of the amended C18: the auction created from `requestA7`, the start of
the scheduled auction of `storeA7` at 2500 s, a bid on the auction of S1 and its end
at 900 s. -/
theorem C18_start_le_end_witness :
    (Service.CreateAuction requestA7 1000000000000 5 6 gormCreateOk).toOption.map
        (fun c => (c.StartTime, c.EndTime)) = some (2000000000000, 5000000000000) ∧
    (∃ row1, (Service.StartAuction storeA7 5 2500000000000 none).2.auctions.find?
        (fun m => m.ID = 5) = some row1 ∧ row1.StartTime ≤ row1.EndTime) ∧
    (PlaceBid auctionS1 7 10 2500000000000 42 2500000000000).2.StartTime ≤
      (PlaceBid auctionS1 7 10 2500000000000 42 2500000000000).2.EndTime ∧
    (auctionS1.End 2500000000000).2.StartTime ≤ (auctionS1.End 2500000000000).2.EndTime :=
  ⟨by decide!,
   (C18_start_le_end requestA7 1000000000000 5 6 gormCreateOk auctionS1 storeA7 5
      2500000000000 none auctionS1 7 10 42 2500000000000).2.1 _ rfl (by decide) (by rfl),
   (C18_start_le_end requestA7 1000000000000 5 6 gormCreateOk auctionS1 storeA7 5
      2500000000000 none auctionS1 7 10 42 2500000000000).2.2.1 (by decide) (by decide),
   (C18_start_le_end requestA7 1000000000000 5 6 gormCreateOk auctionS1 storeA7 5
      2500000000000 none auctionS1 7 10 42 2500000000000).2.2.2 (by decide) (by decide)⟩

/-- C19 evaluated on the code. `HTTPStatusFromCode` gives the listed status for the
eight general kinds, and 500, not 400, for `BID_TOO_LOW`, `AUCTION_NOT_LIVE` and
`AUCTION_ENDED`, which its `switch` does not name; so the errors `Service.PlaceBid`
builds with `New` for the three domain rejections carry status 500. -/
theorem C19_http_status_table :
    HTTPStatusFromCode ErrValidation = 400 ∧ HTTPStatusFromCode ErrUnauthorized = 401 ∧
    HTTPStatusFromCode ErrForbidden = 403 ∧ HTTPStatusFromCode ErrNotFound = 404 ∧
    HTTPStatusFromCode ErrConflict = 409 ∧ HTTPStatusFromCode ErrRateLimit = 429 ∧
    HTTPStatusFromCode ErrTimeout = 504 ∧ HTTPStatusFromCode ErrInternal = 500 ∧
    HTTPStatusFromCode ErrBidTooLow = 500 ∧ HTTPStatusFromCode ErrAuctionNotLive = 500 ∧
    HTTPStatusFromCode ErrAuctionEnded = 500 ∧
    (∀ code message, (New code message).HTTPStatus = HTTPStatusFromCode code) ∧
    (∀ err code message, (Wrap err code message).HTTPStatus = HTTPStatusFromCode code) ∧
    mapBidError "bid amount too low" =
      { Code := "BID_TOO_LOW", Message := "bid amount too low", Cause := none,
        HTTPStatus := 500 } ∧
    mapBidError "auction is not live" =
      { Code := "AUCTION_NOT_LIVE", Message := "auction is not live", Cause := none,
        HTTPStatus := 500 } ∧
    mapBidError "auction has ended" =
      { Code := "AUCTION_ENDED", Message := "auction has ended", Cause := none,
        HTTPStatus := 500 } := by
  refine ⟨by decide, by decide, by decide, by decide, by decide, by decide, by decide,
    by decide, by decide, by decide, by decide, fun _ _ => rfl, fun _ _ _ => rfl,
    by decide, by decide, by decide⟩

/-- C20 evaluated on the code. `AddBid` with Greg's bid of 6.00 on auction 5 (scenario
S5) returns without error and its transaction has put the bid into table `bids`, with
`is_winning` set; the transaction has no statement on table `auctions`, so in the
database after it the row of auction 5 is as before, with bid count 0, no current bid
and the old end time: the bid is committed without the auction row. The row is written
by a separate `repo.Update` in `Service.PlaceBid`, whose error is logged and not
returned; with the repository of package `postgres`, though, `Service.PlaceBid` returns
the error of `GetWithBids` before it reaches `AddBid`, so it returns no bid at all. -/
theorem C20_bid_without_row_update :
    AuctionRepository.AddBid storeS5.bids bidGreg6 none none =
      (Except.ok (),
       [{ ID := 70, AuctionID := 5, UserID := 13, Amount := 6, IsAutoBid := false,
          IsWinning := true, BidTime := 100 }]) ∧
    storeS5.auctions.map (fun m => (m.ID, m.BidCount, m.CurrentBidID, m.EndTime)) =
      [(5, 0, none, 1000000000000)] ∧
    ({ storeS5 with
        bids := (AuctionRepository.AddBid storeS5.bids bidGreg6 none none).2 } : Store).auctions.map
        (fun m => (m.ID, m.BidCount, m.CurrentBidID, m.EndTime)) =
      [(5, 0, none, 1000000000000)] ∧
    (∀ (db : Store) (auctionID userID : UUID) (amount : ℚ) (isAutoBid : Bool)
        (env : BidEnv) (bid : Bid),
      (Service.PlaceBid db auctionID userID amount isAutoBid env).result ≠ Except.ok bid) := by
  refine ⟨by decide!, by decide!, by decide!, ?_⟩
  intro db auctionID userID amount isAutoBid env bid h
  obtain ⟨⟨err, _, herr⟩, _, _⟩ :=
    Service_PlaceBid_fails db auctionID userID amount isAutoBid env
  rw [herr] at h
  cases h

/-- C21 evaluated on the code. The stored row of auction 1 names bid 41, Carol's 20.00,
as its current bid. `GetWithBids` returns no auction for it, but the error of the
preload, `CurrentBid: unsupported relations for schema Auction`; it returns no auction
for any database and identifier, and `toAuctionDomain`, were it reached, would leave
`CurrentBid` empty. `Service.PlaceBid` returns the same error for Bob's (user 8) bid of
21.00, one above the leading amount, and writes nothing: no minimum bid is computed,
against the leading amount or against the start price. -/
theorem C21_current_bid_not_loaded :
    storeS2.auctions.map (fun m => (m.ID, m.CurrentBidID)) = [(1, some 41)] ∧
    storeS2.bids.map (fun b => (b.ID, b.AuctionID, b.Amount)) = [(41, 1, 20)] ∧
    AuctionRepository.GetWithBids storeS2 1 =
      Except.error (GoError.other "CurrentBid: unsupported relations for schema Auction") ∧
    (∀ (db : Store) (id : UUID) (a : Auction),
      AuctionRepository.GetWithBids db id ≠ Except.ok a) ∧
    (∀ m : AuctionModel, (toAuctionDomain m).CurrentBid = none) ∧
    (Service.PlaceBid storeS2 1 8 21 false envTrigger).result =
      Except.error (GoError.other "CurrentBid: unsupported relations for schema Auction") ∧
    (Service.PlaceBid storeS2 1 8 21 false envTrigger).store = storeS2 := by
  refine ⟨by decide, by decide!, by decide!, ?_, fun _ => rfl, by decide!, by decide!⟩
  intro db id a h
  obtain ⟨err, herr⟩ := GetWithBids_error db id
  rw [herr] at h
  cases h

/-- C22. `Service.GetAuction` falls through to the store whenever there is no cache,
the cache lookup returns an error (a miss is one), or the snapshot is older than 5
seconds: the result is then exactly what `GetByID` returns, the store's auction or
the store's error. -/
theorem C22_falls_through_to_store (db : Store) (id : UUID)
    (cache : Option (Except String AuctionState)) (clockSince clockStamp : Time)
    (h : cache = none ∨ (∃ err, cache = some (Except.error err)) ∨
      (∃ state, cache = some (Except.ok state) ∧
        5 * Second < clockSince - state.LastUpdated)) :
    (Service.GetAuction db id cache clockSince clockStamp).1 =
      AuctionRepository.GetByID db id := by
  have hstore : ∀ c : Option (Except String AuctionState),
      (match AuctionRepository.GetByID db id with
        | Except.error err => ((Except.error err, none) :
            Except AppError Auction × Option AuctionState)
        | Except.ok a =>
          match c with
          | none => (Except.ok a, none)
          | some _ =>
            (Except.ok a,
             some { AuctionID := a.ID, Status := a.Status, EndTime := a.EndTime,
                    BidCount := a.BidCount, CurrentBid := a.CurrentBid, ViewerCount := 0,
                    LastUpdated := clockStamp })).1 = AuctionRepository.GetByID db id := by
    intro c
    cases AuctionRepository.GetByID db id with
    | error err => rfl
    | ok a => cases c <;> rfl
  unfold Service.GetAuction
  rcases h with h | ⟨err, h⟩ | ⟨state, h, hold⟩
  · subst h
    exact hstore none
  · subst h
    exact hstore (some (Except.error err))
  · subst h
    simp only
    rw [if_neg (not_lt.mpr (le_of_lt hold))]
    exact hstore (some (Except.ok state))

/-- Witness of C22: a snapshot written at 100 s and read at 106 s is 6 seconds old,
and the call returns what the store returns for auction 1. -/
theorem C22_falls_through_to_store_witness :
    5 * Second < (106000000000 : Time) - snapshotA1.LastUpdated ∧
    (Service.GetAuction storeS2 1 (some (Except.ok snapshotA1)) 106000000000
        106000000000).1 = AuctionRepository.GetByID storeS2 1 :=
  ⟨by decide,
   C22_falls_through_to_store storeS2 1 (some (Except.ok snapshotA1)) 106000000000
     106000000000 (Or.inr (Or.inr ⟨snapshotA1, rfl, by decide⟩))⟩

/-- C29. Rejection is atomic: whenever `Auction.PlaceBid` returns an error it returns
no bid, the error is one of "auction is not live", "auction has ended" and
"bid amount too low", and the auction after the call is the auction before it, so
current bid, bid count, end time, status, winner and update time are unchanged. -/
theorem C29_rejection_is_atomic (a : Auction) (bidderID : UUID) (amount : ℚ) (now : Time)
    (newID : UUID) (clock : Time) (err : String)
    (h : (PlaceBid a bidderID amount now newID clock).1 = Except.error err) :
    (∀ bid, (PlaceBid a bidderID amount now newID clock).1 ≠ Except.ok bid) ∧
    (err = "auction is not live" ∨ err = "auction has ended" ∨
      err = "bid amount too low") ∧
    (PlaceBid a bidderID amount now newID clock).2 = a ∧
    (PlaceBid a bidderID amount now newID clock).2.CurrentBid = a.CurrentBid ∧
    (PlaceBid a bidderID amount now newID clock).2.BidCount = a.BidCount ∧
    (PlaceBid a bidderID amount now newID clock).2.EndTime = a.EndTime ∧
    (PlaceBid a bidderID amount now newID clock).2.Status = a.Status ∧
    (PlaceBid a bidderID amount now newID clock).2.WinnerID = a.WinnerID ∧
    (PlaceBid a bidderID amount now newID clock).2.UpdatedAt = a.UpdatedAt := by
  cases hc : CanPlaceBid a amount now with
  | ok u =>
    rw [PlaceBid_of_ok a bidderID amount now newID clock hc] at h
    cases h
  | error e =>
    rw [PlaceBid_of_error a bidderID amount now newID clock e hc] at h ⊢
    injection h with h
    subst h
    refine ⟨(fun bid hb => by cases hb), ?_, rfl, rfl, rfl, rfl, rfl, rfl, rfl⟩
    unfold CanPlaceBid at hc
    split_ifs at hc with h1 h2 h3
    · injection hc with hc; exact Or.inl hc.symm
    · injection hc with hc; exact Or.inr (Or.inl hc.symm)
    · injection hc with hc; exact Or.inr (Or.inr hc.symm)

/-- Witness of C29: the bid ten milliseconds after the end of the auction of S1. -/
theorem C29_rejection_is_atomic_witness :
    (PlaceBid auctionS1 7 10 1000010000000 42 1000010000000).1 =
      Except.error "auction has ended" ∧
    (PlaceBid auctionS1 7 10 1000010000000 42 1000010000000).2 = auctionS1 :=
  ⟨by rfl,
   (C29_rejection_is_atomic auctionS1 7 10 1000010000000 42 1000010000000
      "auction has ended" (by rfl)).2.2.1⟩

/-- C23 evaluated on the code. One client joins the room of auction "a1" on a hub with
no rooms and then disconnects: the room is left with no client and a viewer count
of 0, and the hub's room map still holds the entry for "a1". -/
theorem C23_empty_room_stays :
    (hubEmpty.HandleConnection "a1" "u1" 1 none 10).rooms.map
        (fun e => (e.1, e.2.clients.map (fun c => c.id), e.2.viewerCount)) =
      [("a1", [1], 1)] ∧
    ((hubEmpty.HandleConnection "a1" "u1" 1 none 10).disconnect "a1" 1 20).rooms =
      [("a1", { AuctionID := "a1", clients := [], viewerCount := 0 })] ∧
    ((hubEmpty.HandleConnection "a1" "u1" 1 none 10).disconnect "a1" 1 20).getRoom "a1" =
      some { AuctionID := "a1", clients := [], viewerCount := 0 } := by
  decide

/-- The buffer of a client after the non-blocking send of `Room.broadcast`. -/
theorem trySend_send (c : Client) (message : Message) :
    (c.send.length < 256 → (c.trySend message).send = c.send ++ [message]) ∧
    (c.send.length = 256 → c.trySend message = c) ∧
    (c.trySend message).id = c.id := by
  unfold Client.trySend sendCapacity
  refine ⟨?_, ?_, ?_⟩
  · intro h
    rw [if_pos h]
  · intro h
    rw [if_neg (by omega)]
  · split_ifs <;> rfl

/-- C24. `Room.broadcast` appends the message to the channel of every client of the
room whose channel holds fewer than 256 messages, leaves every client whose channel
holds 256 messages exactly as it was, and does not change who is in the room, nor the
viewer count. -/
theorem C24_broadcast_backpressure (r : Room) (message : Message) :
    (r.broadcast message).clients.map (fun c => c.id) = r.clients.map (fun c => c.id) ∧
    (r.broadcast message).viewerCount = r.viewerCount ∧
    (r.broadcast message).clients.length = r.clients.length ∧
    (∀ (i : Nat) (c : Client), r.clients[i]? = some c →
      (c.send.length < 256 →
        ∃ c1, (r.broadcast message).clients[i]? = some c1 ∧ c1.id = c.id ∧
          c1.send = c.send ++ [message]) ∧
      (c.send.length = 256 → (r.broadcast message).clients[i]? = some c)) := by
  unfold Room.broadcast
  refine ⟨?_, rfl, by simp, ?_⟩
  · simp only [List.map_map]
    apply List.map_congr_left
    intro c _
    exact (trySend_send c message).2.2
  · intro i c hc
    simp only [List.getElem?_map, hc, Option.map_some']
    refine ⟨?_, ?_⟩
    · intro h
      exact ⟨_, rfl, (trySend_send c message).2.2, (trySend_send c message).1 h⟩
    · intro h
      rw [(trySend_send c message).2.1 h]

/-- Witness of C24: in a room of three clients with 0, 255 and 256 messages waiting,
the first two get the message and the third is left as it was. -/
theorem C24_broadcast_backpressure_witness :
    (roomBackpressure.broadcast messageE1).clients.map (fun c => (c.id, c.send.length)) =
      [(1, 1), (2, 256), (3, 256)] ∧
    (∃ c1, (roomBackpressure.broadcast messageE1).clients[1]? = some c1 ∧ c1.id = 2 ∧
      c1.send = (clientWith 2 255).send ++ [messageE1]) ∧
    (roomBackpressure.broadcast messageE1).clients[2]? = some (clientWith 3 256) :=
  ⟨by decide!,
   ((C24_broadcast_backpressure roomBackpressure messageE1).2.2.2 1 (clientWith 2 255)
      rfl).1 (by decide!),
   ((C24_broadcast_backpressure roomBackpressure messageE1).2.2.2 2 (clientWith 3 256)
      rfl).2 (by decide!)⟩

/-- Counterexample to C25 as stated: E1 and then E2 are broadcast to a room whose
three clients stay in it throughout, with 0, 255 and 256 messages waiting; the second
client receives E1 and not E2 (the first receives both, the third neither). -/
theorem C25_counterexample :
    ((roomBackpressure.broadcast messageE1).broadcast messageE2).clients.map
        (fun c => (c.id, decide (messageE1 ∈ c.send), decide (messageE2 ∈ c.send))) =
      [(1, true, true), (2, true, false), (3, false, false)] ∧
    roomBackpressure.clients.map (fun c => c.id) = [1, 2, 3] ∧
    ((roomBackpressure.broadcast messageE1).broadcast messageE2).clients.map
        (fun c => c.id) = [1, 2, 3] := by
  decide!

/-- The channel of a client after the non-blocking send: the message is put at the
end, or the channel is as before. -/
theorem trySend_cases (c : Client) (message : Message) :
    ∃ d, (d = [] ∨ d = [message]) ∧ (c.trySend message).send = c.send ++ d ∧
      (c.trySend message).id = c.id := by
  unfold Client.trySend
  split_ifs
  · exact ⟨[message], Or.inr rfl, rfl, rfl⟩
  · exact ⟨[], Or.inl rfl, (List.append_nil _).symm, rfl⟩

/-- C25, amended. Local delivery order. E1 and then E2 are broadcast to a room, the
write pumps taking any number of messages off the channels in between. For every
client in the room throughout, the channel afterwards is its old content followed by
E1 or nothing, less what the pump took from the front, followed by E2 or nothing.
Channels are first in, first out, so a client that receives both receives E1 before
E2; a client whose channel was full at one of the two broadcasts misses that event
only. -/
theorem C25_delivery_order (r : Room) (E1 E2 : Message) (taken : Nat → Nat)
    (i : Nat) (c : Client) (hc : r.clients[i]? = some c) :
    ∃ c2, (((r.broadcast E1).drain taken).broadcast E2).clients[i]? = some c2 ∧
      c2.id = c.id ∧
      ∃ d1 d2, (d1 = [] ∨ d1 = [E1]) ∧ (d2 = [] ∨ d2 = [E2]) ∧
        c2.send = (c.send ++ d1).drop (taken c.id) ++ d2 := by
  obtain ⟨d1, hd1, hs1, hid1⟩ := trySend_cases c E1
  obtain ⟨d2, hd2, hs2, hid2⟩ := trySend_cases
    { c.trySend E1 with send := (c.trySend E1).send.drop (taken (c.trySend E1).id) } E2
  refine ⟨({ c.trySend E1 with
      send := (c.trySend E1).send.drop (taken (c.trySend E1).id) } : Client).trySend E2,
    ?_, ?_, d1, d2, hd1, hd2, ?_⟩
  · simp only [Room.broadcast, Room.drain, List.getElem?_map, hc, Option.map_some']
  · rw [hid2]
    exact hid1
  · rw [hs2]
    simp only [hs1, hid1]

/-- Witness of the amended C25: the second client of `roomBackpressure`, no message
taken in between; its channel ends up as the old content followed by E1. -/
theorem C25_delivery_order_witness :
    roomBackpressure.clients[1]? = some (clientWith 2 255) ∧
    ∃ c2, (((roomBackpressure.broadcast messageE1).drain (fun _ => 0)).broadcast
        messageE2).clients[1]? = some c2 ∧
      c2.id = (clientWith 2 255).id ∧
      ∃ d1 d2, (d1 = [] ∨ d1 = [messageE1]) ∧ (d2 = [] ∨ d2 = [messageE2]) ∧
        c2.send = ((clientWith 2 255).send ++ d1).drop ((fun _ => 0) (clientWith 2 255).id)
          ++ d2 :=
  ⟨rfl, C25_delivery_order roomBackpressure messageE1 messageE2 (fun _ => 0) 1
    (clientWith 2 255) rfl⟩

/-- Removing the one client with a given address from a list without repeated
addresses shortens the list by one. -/
theorem length_filter_remove (l : List Client) (c : Nat)
    (hnd : (l.map (fun d => d.id)).Nodup) (hin : l.any (fun d => d.id = c) = true) :
    (l.filter (fun d => d.id ≠ c)).length + 1 = l.length := by
  induction l with
  | nil => simp at hin
  | cons x xs ih =>
    simp only [List.map_cons, List.nodup_cons, List.mem_map, not_exists, not_and] at hnd
    by_cases hx : x.id = c
    · have hall : xs.filter (fun d => d.id ≠ c) = xs := by
        rw [List.filter_eq_self]
        intro d hd
        have := hnd.1 d hd
        simp only [ne_eq, decide_not, Bool.not_eq_true', decide_eq_false_iff_not]
        intro h
        exact this (h.trans hx.symm)
      rw [List.filter_cons_of_neg (by simp [hx]), hall]
      rfl
    · have hin2 : xs.any (fun d => d.id = c) = true := by
        simpa [hx] using hin
      have := ih hnd.2 hin2
      rw [List.filter_cons_of_pos (by simp [hx])]
      simp only [List.length_cons]
      omega

/-- In every reachable room state the viewer count is the number of clients and no
two clients share an address. -/
theorem Reachable_invariant (auctionID : String) (r : Room)
    (h : Room.Reachable auctionID r) :
    r.viewerCount = r.clients.length ∧ (r.clients.map (fun d => d.id)).Nodup := by
  induction h with
  | empty => exact ⟨rfl, List.nodup_nil⟩
  | add r c _ hnew ih =>
    have hany : r.clients.any (fun d => d.id = c.id) = false := by
      rw [List.any_eq_false]
      intro d hd
      simpa using hnew d hd
    unfold Room.addClient
    simp only [hany, Bool.false_eq_true, if_false]
    refine ⟨?_, ?_⟩
    · rw [ih.1]
      simp
    · rw [List.map_append, List.nodup_append]
      refine ⟨ih.2, by simp, ?_⟩
      intro a ha hb
      simp only [List.map_cons, List.map_nil, List.mem_singleton] at hb
      rw [List.mem_map] at ha
      obtain ⟨d, hd, hda⟩ := ha
      exact hnew d hd (hda.trans hb)
  | remove r c _ ih =>
    unfold Room.removeClient
    by_cases hany : r.clients.any (fun d => d.id = c) = true
    · rw [if_pos hany]
      refine ⟨?_, ?_⟩
      · have := length_filter_remove r.clients c ih.2 hany
        show r.viewerCount - 1 = ((r.clients.filter (fun d => d.id ≠ c)).length : Int)
        rw [ih.1]
        omega
      · exact ih.2.sublist ((List.filter_sublist _).map _)
    · rw [if_neg hany]
      exact ih

/-- C30. In every room state reachable from the empty room by `addClient` calls with
clients not in the room and arbitrary `removeClient` calls, the viewer count equals
the number of clients in the room and is not negative; `removeClient` of a client
that is not in the room changes nothing (and closes no channel), and removing a
client twice leaves the room as removing it once does. -/
theorem C30_viewer_count (auctionID : String) (r : Room)
    (h : Room.Reachable auctionID r) (c : Nat) :
    r.getViewerCount = r.clients.length ∧ 0 ≤ r.getViewerCount ∧
    ((∀ d ∈ r.clients, d.id ≠ c) → r.removeClient c = (r, false)) ∧
    ((r.removeClient c).1.removeClient c) = ((r.removeClient c).1, false) := by
  have hinv := Reachable_invariant auctionID r h
  refine ⟨hinv.1, ?_, ?_, ?_⟩
  · show 0 ≤ r.viewerCount
    rw [hinv.1]
    exact Int.natCast_nonneg _
  · intro habs
    have hany : r.clients.any (fun d => d.id = c) = false := by
      rw [List.any_eq_false]
      intro d hd
      simpa using habs d hd
    unfold Room.removeClient
    simp [hany]
  · have hgone : ∀ l : List Client,
        (l.filter (fun d => d.id ≠ c)).any (fun d => d.id = c) = false := by
      intro l
      rw [List.any_eq_false]
      intro d hd
      have := (List.mem_filter.mp hd).2
      simpa using this
    unfold Room.removeClient
    by_cases hany : r.clients.any (fun d => d.id = c) = true
    · simp only [if_pos hany]
      rw [if_neg (by rw [hgone]; simp)]
    · simp only [if_neg hany]

/-- Witness of C30: clients 1 and 2 join the empty room and client 1 leaves; the
viewer count of the room of two is 2, after the leave it is 1, and removing client 1
again changes nothing. -/
theorem C30_viewer_count_witness :
    roomTwo.getViewerCount = 2 ∧ roomTwo.clients.map (fun d => d.id) = [1, 2] ∧
    (roomTwo.removeClient 1).1.getViewerCount = 1 ∧
    (roomTwo.removeClient 1).1.clients.map (fun d => d.id) = [2] ∧
    ((roomTwo.removeClient 1).1.removeClient 1) = ((roomTwo.removeClient 1).1, false) :=
  ⟨by decide, by decide, by decide, by decide,
   (C30_viewer_count "a1" roomTwo
      (Room.Reachable.add _ (clientWith 2 0)
        (Room.Reachable.add _ (clientWith 1 0) Room.Reachable.empty (by decide))
        (by decide)) 1).2.2.2⟩

/-- Counterexample to C26 as stated: the events `PublishBidPlaced` sends for Carol's
bid have type "bid.placed" and carry the bid under the member "payload", not "data",
with the keys bid_id, user_id, amount, is_auto_bid and bid_time: "is_auto" and
"placed_at" are not among them; the message `Hub.handleEvent` relays has type "bid",
not "bid.placed", and carries the same keys under "data". -/
theorem C26_counterexample :
    (EventBus.PublishBidPlaced 1 bidCarol20 500 none none).2.map
        (fun ce => (ce.2.Type_, ce.2.marshal.map (fun f => f.1),
          ce.2.Payload.map (fun f => f.1))) =
      [("bid.placed", ["type", "auction_id", "timestamp", "payload"],
          ["bid_id", "user_id", "amount", "is_auto_bid", "bid_time"]),
       ("bid.placed", ["type", "auction_id", "timestamp", "payload"],
          ["bid_id", "user_id", "amount", "is_auto_bid", "bid_time"])] ∧
    "is_auto" ∉ ["bid_id", "user_id", "amount", "is_auto_bid", "bid_time"] ∧
    "placed_at" ∉ ["bid_id", "user_id", "amount", "is_auto_bid", "bid_time"] ∧
    (EventBus.PublishBidPlaced 1 bidCarol20 500 none none).2.map
        (fun ce => (relayedMessage ce.2).map
          (fun m => (m.Type_, m.marshal.map (fun f => f.1), m.Data.map (fun f => f.1)))) =
      [some ("bid", ["type", "auction_id", "data", "timestamp"],
          ["bid_id", "user_id", "amount", "is_auto_bid", "bid_time"]),
       some ("bid", ["type", "auction_id", "data", "timestamp"],
          ["bid_id", "user_id", "amount", "is_auto_bid", "bid_time"])] ∧
    "bid" ≠ "bid.placed" := by
  refine ⟨by decide, by decide, by decide, by decide, by decide⟩

/-- C26, amended. Wire format of a committed bid. Every event `PublishBidPlaced` sends
has type "bid.placed" and a member "payload" whose keys are exactly bid_id, user_id,
amount, is_auto_bid and bid_time, holding the bid's identifier, bidder, amount,
auto-bid flag and bid time; `Hub.handleEvent` relays it to the room of the event's
auction as a message of type "bid" whose member "data" is that payload, with the
event's time stamp. -/
theorem C26_bid_placed_wire_format (auctionID : UUID) (bid : Bid) (clock : Time)
    (auctionErr globalErr : Option String) (h : Hub) :
    ∀ ce ∈ (EventBus.PublishBidPlaced auctionID bid clock auctionErr globalErr).2,
      ce.2.Type_ = "bid.placed" ∧
      ce.2.marshal.map (fun f => f.1) = ["type", "auction_id", "timestamp", "payload"] ∧
      ce.2.Payload =
        [("bid_id", JSONValue.str (uuidString bid.ID)),
         ("user_id", JSONValue.str (uuidString bid.UserID)),
         ("amount", JSONValue.num bid.Amount),
         ("is_auto_bid", JSONValue.bool bid.IsAutoBid),
         ("bid_time", JSONValue.time bid.BidTime)] ∧
      ce.2.Payload.map (fun f => f.1) =
        ["bid_id", "user_id", "amount", "is_auto_bid", "bid_time"] ∧
      relayedMessage ce.2 =
        some { Type_ := "bid", AuctionID := uuidString auctionID, Data := ce.2.Payload,
               Timestamp := clock } ∧
      (∀ msg, relayedMessage ce.2 = some msg →
        msg.marshal.map (fun f => f.1) = ["type", "auction_id", "data", "timestamp"] ∧
        h.handleEvent ce.2 = h.broadcastToRoom (uuidString auctionID) msg) := by
  intro ce hce
  have hev : ce.2 =
      { Type_ := EventBidPlaced, AuctionID := uuidString auctionID, Timestamp := clock,
        Payload :=
          [("bid_id", JSONValue.str (uuidString bid.ID)),
           ("user_id", JSONValue.str (uuidString bid.UserID)),
           ("amount", JSONValue.num bid.Amount),
           ("is_auto_bid", JSONValue.bool bid.IsAutoBid),
           ("bid_time", JSONValue.time bid.BidTime)] } := by
    unfold EventBus.PublishBidPlaced EventBus.publish at hce
    cases auctionErr with
    | some err => simp at hce
    | none =>
      cases globalErr with
      | some err =>
        simp only [List.mem_singleton] at hce
        rw [hce]
      | none =>
        simp only [List.mem_cons, List.mem_singleton, List.not_mem_nil, or_false] at hce
        rcases hce with hce | hce <;> rw [hce]
  have hrel : relayedMessage ce.2 =
      some { Type_ := "bid", AuctionID := uuidString auctionID, Data := ce.2.Payload,
             Timestamp := clock } := by
    rw [hev]
    rfl
  refine ⟨by rw [hev]; rfl, rfl, by rw [hev], by rw [hev]; rfl, hrel, ?_⟩
  intro msg hmsg
  refine ⟨rfl, ?_⟩
  unfold Hub.handleEvent
  rw [hmsg, hev]

/-- Witness of the amended C26: the event sent on the global channel for Carol's bid
of 20.00. -/
theorem C26_bid_placed_wire_format_witness :
    (EventBus.PublishBidPlaced 1 bidCarol20 500 none none).2.map
        (fun ce => (ce.2.Type_, ce.2.Payload.map (fun f => f.1))) =
      [("bid.placed", ["bid_id", "user_id", "amount", "is_auto_bid", "bid_time"]),
       ("bid.placed", ["bid_id", "user_id", "amount", "is_auto_bid", "bid_time"])] ∧
    (∀ ce ∈ (EventBus.PublishBidPlaced 1 bidCarol20 500 none none).2,
      ce.2.Type_ = "bid.placed" ∧
      ce.2.Payload.map (fun f => f.1) =
        ["bid_id", "user_id", "amount", "is_auto_bid", "bid_time"]) :=
  ⟨by decide, fun ce hce =>
    ⟨(C26_bid_placed_wire_format 1 bidCarol20 500 none none hubEmpty ce hce).1,
     (C26_bid_placed_wire_format 1 bidCarol20 500 none none hubEmpty ce hce).2.2.2.1⟩⟩

/-- C27 evaluated on the code. With the limiter of the auth endpoints (5 requests,
window one minute), six requests with one key, one every 30 seconds, never more than
three within any minute, get the answers yes five times and then no: every call puts
the expiry of the key one minute ahead again, so the counter never starts over. -/
theorem C27_sixth_request_rejected :
    authRateLimiter.max = 5 ∧ authRateLimiter.window = 60 * Second ∧
    generalRateLimiter.max = 100 ∧ bidRateLimiter.max = 10 ∧
    requestsEvery30s.map (fun t =>
        (requestsEvery30s.filter (fun u => t - Minute ≤ u ∧ u ≤ t)).length) =
      [1, 2, 3, 3, 3, 3] ∧
    allowAll authRateLimiter "ratelimit:10.0.0.1:/api/v1/auth/login" requestsEvery30s
        redisEmpty = [true, true, true, true, true, false] := by
  decide

/-- Replacing rows by a model that agrees with them on auction, bidder and active
flag leaves the number of active rules of every auction and bidder as it was. -/
theorem activeRulesFor_map_replace (rows : List AutoBidModel) (model : AutoBidModel)
    (hkey : ∀ r ∈ rows, r.ID = model.ID →
      r.AuctionID = model.AuctionID ∧ r.UserID = model.UserID ∧ r.IsActive = model.IsActive)
    (auctionID userID : UUID) :
    (activeRulesFor (rows.map (fun r => if r.ID = model.ID then model else r))
      auctionID userID).length = (activeRulesFor rows auctionID userID).length := by
  unfold activeRulesFor
  rw [List.filter_map, List.length_map]
  congr 1
  apply List.filter_congr
  intro r hr
  by_cases hid : r.ID = model.ID
  · obtain ⟨h1, h2, h3⟩ := hkey r hr hid
    simp [Function.comp, hid, h1, h2, h3]
  · simp [Function.comp, hid]

/-- A rule `GetActiveAutoBids` returns comes from an active row of the auction. -/
theorem mem_GetActiveAutoBids (db : Store) (auctionID : UUID) (ab : AutoBid)
    (h : ab ∈ AuctionRepository.GetActiveAutoBids db auctionID) :
    ∃ row ∈ db.autoBids, toAutoBidDomain row = ab ∧ row.AuctionID = auctionID ∧
      row.IsActive = true := by
  unfold AuctionRepository.GetActiveAutoBids at h
  rw [List.mem_map] at h
  obtain ⟨row, hrow, hab⟩ := h
  rw [List.mem_filter] at hrow
  have := hrow.2
  simp only [decide_eq_true_eq] at this
  exact ⟨row, hrow.1, hab, this.1, this.2⟩

/-- C28. `Service.SetAutoBid` preserves "at most one active AutoBid per (auction,
bidder)": on a table `auto_bids` whose rows have distinct identifiers (the primary
key) and which holds at most one active rule for every auction and bidder, the table
after the call holds at most one as well. When the bidder has an active rule on the
auction and the update succeeds, no row is added and the rule returned is that rule
with the new maximum and increment. -/
theorem C28_set_auto_bid_invariant (db : Store) (auctionID userID : UUID)
    (maxAmount increment : ℚ) (newID : UUID) (saveErr createErr : Option String)
    (clock : Time)
    (hkey : (db.autoBids.map (fun r => r.ID)).Nodup)
    (hinv : AtMostOneActive db.autoBids) :
    AtMostOneActive
      (Service.SetAutoBid db auctionID userID maxAmount increment newID saveErr createErr
        clock).2.autoBids ∧
    (∀ ab, (AuctionRepository.GetActiveAutoBids db auctionID).find?
        (fun r => r.UserID = userID) = some ab → saveErr = none →
      (Service.SetAutoBid db auctionID userID maxAmount increment newID saveErr createErr
        clock).1 = Except.ok { ab with MaxAmount := maxAmount, BidIncrement := increment } ∧
      (Service.SetAutoBid db auctionID userID maxAmount increment newID saveErr createErr
        clock).2.autoBids.length = db.autoBids.length ∧
      toAutoBidModel { ab with MaxAmount := maxAmount, BidIncrement := increment } ∈
        (Service.SetAutoBid db auctionID userID maxAmount increment newID saveErr createErr
          clock).2.autoBids) := by
  cases hfind : (AuctionRepository.GetActiveAutoBids db auctionID).find?
      (fun r => r.UserID = userID) with
  | some ab =>
    obtain ⟨row, hrow, hdom, _, _⟩ :=
      mem_GetActiveAutoBids db auctionID ab (List.mem_of_find?_eq_some hfind)
    have hmodel : ∀ r ∈ db.autoBids,
        r.ID = (toAutoBidModel
          { ab with MaxAmount := maxAmount, BidIncrement := increment }).ID →
        r.AuctionID = (toAutoBidModel
          { ab with MaxAmount := maxAmount, BidIncrement := increment }).AuctionID ∧
        r.UserID = (toAutoBidModel
          { ab with MaxAmount := maxAmount, BidIncrement := increment }).UserID ∧
        r.IsActive = (toAutoBidModel
          { ab with MaxAmount := maxAmount, BidIncrement := increment }).IsActive := by
      intro r hr hid
      have hrid : r.ID = row.ID := by
        rw [hid, ← hdom]
        rfl
      have hreq : r = row := List.inj_on_of_nodup_map hkey hr hrow hrid
      rw [hreq, ← hdom]
      exact ⟨rfl, rfl, rfl⟩
    have hany : db.autoBids.any (fun r => r.ID = (toAutoBidModel
        { ab with MaxAmount := maxAmount, BidIncrement := increment }).ID) = true := by
      rw [List.any_eq_true]
      refine ⟨row, hrow, ?_⟩
      rw [← hdom]
      simp [toAutoBidModel, toAutoBidDomain]
    unfold Service.SetAutoBid
    simp only [hfind]
    cases saveErr with
    | some err =>
      refine ⟨hinv, ?_⟩
      intro ab2 _ habs
      cases habs
    | none =>
      simp only [AuctionRepository.UpdateAutoBid, saveAutoBid, hany, if_true]
      refine ⟨?_, ?_⟩
      · intro a u
        rw [activeRulesFor_map_replace db.autoBids _ hmodel a u]
        exact hinv a u
      · intro ab2 hab2 _
        injection hab2 with hab2
        subst hab2
        refine ⟨rfl, by simp, ?_⟩
        rw [List.mem_map]
        exact ⟨row, hrow, by
          have : row.ID = (toAutoBidModel
              { ab with MaxAmount := maxAmount, BidIncrement := increment }).ID := by
            rw [← hdom]; rfl
          rw [if_pos this]⟩
  | none =>
    have hnone : activeRulesFor db.autoBids auctionID userID = [] := by
      unfold activeRulesFor
      rw [List.filter_eq_nil_iff]
      intro r hr hcond
      simp only [decide_eq_true_eq] at hcond
      have hmem : toAutoBidDomain r ∈ AuctionRepository.GetActiveAutoBids db auctionID := by
        unfold AuctionRepository.GetActiveAutoBids
        rw [List.mem_map]
        refine ⟨r, ?_, rfl⟩
        rw [List.mem_filter]
        exact ⟨hr, by simp [hcond.1, hcond.2.2]⟩
      have := List.find?_eq_none.mp hfind (toAutoBidDomain r) hmem
      simp only [decide_eq_true_eq] at this
      exact this hcond.2.1
    unfold Service.SetAutoBid
    simp only [hfind]
    refine ⟨?_, ?_⟩
    · cases createErr with
      | some err => exact hinv
      | none =>
        intro a u
        simp only [AuctionRepository.CreateAutoBid, activeRulesFor, List.filter_append,
          List.length_append]
        by_cases hau : a = auctionID ∧ u = userID
        · obtain ⟨ha, hu⟩ := hau
          subst ha
          subst hu
          have h0 : (db.autoBids.filter
              (fun r => r.AuctionID = a ∧ r.UserID = u ∧ r.IsActive = true)).length = 0 := by
            have := congrArg List.length hnone
            simpa [activeRulesFor] using this
          rw [h0]
          simp [toAutoBidModel, List.filter_cons]
        · have hold := hinv a u
          unfold activeRulesFor at hold
          have hnew : ([({ toAutoBidModel
              { ID := newID, AuctionID := auctionID, UserID := userID,
                MaxAmount := maxAmount, IsActive := true, CurrentBid := none,
                BidIncrement := increment, LastBidTime := none, CreatedAt := 0,
                UpdatedAt := 0 } with CreatedAt := clock, UpdatedAt := clock } :
              AutoBidModel)].filter
              (fun r => r.AuctionID = a ∧ r.UserID = u ∧ r.IsActive = true)).length = 0 := by
            rw [List.length_eq_zero, List.filter_eq_nil_iff]
            intro r hr hcond
            simp only [List.mem_singleton] at hr
            subst hr
            simp only [decide_eq_true_eq] at hcond
            exact hau ⟨hcond.1.symm, hcond.2.1.symm⟩
          rw [hnew]
          exact hold
    · intro ab habs
      cases habs

/-- The table `auto_bids` of scenario S5 holds at most one active rule for every
auction and bidder. -/
theorem AtMostOneActive_storeS5 : AtMostOneActive storeS5.autoBids := by
  intro a u
  unfold activeRulesFor storeS5
  simp only [List.filter_cons, List.filter_nil]
  split_ifs with h1 h2
  · exfalso
    simp only [decide_eq_true_eq] at h1 h2
    have e : (11 : UUID) = 12 := h1.2.1.trans h2.2.1.symm
    exact absurd e (by decide)
  · simp
  · simp
  · simp

/-- Witness of C28: in scenario S5 Eve (user 11) sets her auto-bid on auction 5 again,
with maximum 40 and increment 3; her row is updated in place, Frank's is untouched,
and the table still holds at most one active rule for every auction and bidder. -/
theorem C28_set_auto_bid_invariant_witness :
    (storeS5.autoBids.map (fun r => r.ID)).Nodup ∧
    AtMostOneActive storeS5.autoBids ∧
    (Service.SetAutoBid storeS5 5 11 40 3 99 none none 300).2.autoBids.map
        (fun r => (r.ID, r.UserID, r.MaxAmount, r.BidIncrement, r.IsActive)) =
      [(61, 11, 40, 3, true), (62, 12, 20, 2, true)] ∧
    AtMostOneActive (Service.SetAutoBid storeS5 5 11 40 3 99 none none 300).2.autoBids :=
  ⟨by decide, AtMostOneActive_storeS5, by decide!,
   (C28_set_auto_bid_invariant storeS5 5 11 40 3 99 none none 300 (by decide)
      AtMostOneActive_storeS5).1⟩

end Blytz
